import Mathlib

/-!
OpenMeshEffect host: lifecycle orchestration, parameter sets and mesh hooks.

A shallow embedding of `intern/openmesheffect/host/mfxHost.c`,
`intern/openmesheffect/host/intern/parameters.cpp` and the conversion loops of
`intern/openmesheffect/blender/intern/mfxCallbacks.c`.

* Pointers are natural numbers, `0` is `NULL`.
* Code with side effects is written with explicit state passing.
* A step the C standard leaves undefined (reading through `NULL` or a dangling
  pointer, indexing past the end of an array, freeing a block twice) makes the
  embedded function return `none`.
* The use count `gHostUse` is an `int`: `++gHostUse` and `--gHostUse` wrap
  around modulo `2^32`, as the compiled code does where the C standard leaves
  the overflow undefined.  The counter `num_parameters` is an unbounded
  integer: the development does not follow it beyond `INT_MAX`.  In the mesh
  hooks (Part 4) `int` arithmetic is bounded and overflow is undefined.
* `malloc_array` never fails and never hands out an address twice.
-/

namespace OpenMeshEffect

/-- Addresses. `0` is the null pointer. -/
abbrev Ptr := Nat

/-- The largest `int`. -/
def INT_MAX : Int := 2147483647

/-- The smallest `int`. -/
def INT_MIN : Int := -2147483648

/-- The `int` that two's-complement arithmetic gives for the mathematical
value `x`: `x` itself from `INT_MIN` to `INT_MAX`, and otherwise the value in
that range that differs from `x` by a multiple of `2^32`. -/
def int_wrap (x : Int) : Int :=
  (x + 2147483648) % 4294967296 - 2147483648

/-! ## Part 1. mfxHost.c -/

/-- Status codes returned by a plugin action (`OfxStatus`).  The named
constructors are the codes the host tests for; `Other` stands for every other
code. -/
inductive OfxStatus where
  | OK
  | ReplyDefault
  | Failed
  | ErrFatal
  | ErrMemory
  | ErrBadHandle
  | ErrMissingHostFeature
  | Other (code : Int)
  deriving DecidableEq, Repr

/-- Action names passed to `mainEntry` (`kOfxActionLoad`, ...,
`kOfxMeshEffectActionCook`). -/
inductive OfxAction where
  | Load
  | Unload
  | Describe
  | CreateInstance
  | DestroyInstance
  | Cook
  deriving DecidableEq, Repr

/-- Per-plugin load status kept by the registry (`OfxPluginStatus`). -/
inductive OfxPluginStatus where
  | OfxPluginStatOK
  | OfxPluginStatNotLoaded
  | OfxPluginStatError
  deriving DecidableEq, Repr

/-- Observable steps of the host, in the order they happen.  Calls into code
that is not part of `mfxHost.c` (`init_mesh_effect`, `free_mesh_effect`,
`deep_copy_mesh_effect`, `init_properties`, `propSetPointer`, the plugin's
`setHost` and `mainEntry`) are recorded as events. -/
inductive Event where
  | malloc_array (p : Ptr) (reason : String)
  | free_array (p : Ptr)
  | init_properties (p : Ptr)
  | propSetPointer (p : Ptr) (property : String)
  | init_mesh_effect (h : Ptr)
  | free_mesh_effect (h : Ptr)
  | deep_copy_mesh_effect (dst src : Ptr)
  | setHost (plugin : String) (host : Ptr)
  | mainEntry (plugin : String) (action : OfxAction) (handle : Ptr) (status : OfxStatus)
  deriving DecidableEq, Repr

/-- A plugin (`OfxPlugin`).  The behaviour of its `mainEntry` is any function of
everything that happened so far, the action and the handle. -/
structure OfxPlugin where
  pluginIdentifier : String
  mainEntry : List Event → OfxAction → Ptr → OfxStatus

/-- The registry (`PluginRegistry`): the plugins and their cached status. -/
structure PluginRegistry where
  plugins : List OfxPlugin
  status : List OfxPluginStatus

/-- The struct `OfxHost`; its `fetchSuite` member always holds the address of
the function `fetchSuite` and is left out. -/
structure OfxHost where
  host : Ptr
  deriving DecidableEq, Repr

/-- The globals of `mfxHost.c` and the allocator. -/
structure HostState where
  gHost : Ptr
  gHostUse : Int
  hostObjs : List (Ptr × OfxHost)
  brk : Nat
  trace : List Event
  deriving DecidableEq, Repr

/-- The state at program start: `gHost = NULL`, `gHostUse = 0`. -/
def HostState.init : HostState :=
  { gHost := 0, gHostUse := 0, hostObjs := [], brk := 0, trace := [] }

/-- Record one event. -/
def HostState.emit (s : HostState) (e : Event) : HostState :=
  { s with trace := s.trace ++ [e] }

/-- The call `malloc_array(size, count, reason)`: a block at an address never
used before. -/
def malloc_array (reason : String) (s : HostState) : Ptr × HostState :=
  (s.brk + 1, { s with brk := s.brk + 1, trace := s.trace ++ [Event.malloc_array (s.brk + 1) reason] })

/-- The call `free_array(p)`. -/
def free_array (p : Ptr) (s : HostState) : HostState :=
  s.emit (Event.free_array p)

/-- The call `plugin->mainEntry(action, handle, NULL, NULL)`. -/
def callMainEntry (plugin : OfxPlugin) (action : OfxAction) (handle : Ptr) (s : HostState) :
    OfxStatus × HostState :=
  (plugin.mainEntry s.trace action handle,
    s.emit (Event.mainEntry plugin.pluginIdentifier action handle
      (plugin.mainEntry s.trace action handle)))

/-- The function `getGlobalHost` (mfxHost.c 73-88).  The increment
`++gHostUse` is `int` arithmetic. -/
def getGlobalHost (s : HostState) : Ptr × HostState :=
  let s1 :=
    if s.gHostUse = 0 then
      let a := malloc_array "global host" s
      let b := malloc_array "global host properties" a.2
      let c := ((b.2.emit (Event.init_properties b.1)).emit
        (Event.propSetPointer b.1 "kOfxHostPropBeforeMeshReleaseCb")).emit
        (Event.propSetPointer b.1 "kOfxHostPropBeforeMeshGetCb")
      { c with gHost := a.1, hostObjs := (a.1, { host := b.1 }) :: c.hostObjs }
    else s
  (s1.gHost, { s1 with gHostUse := int_wrap (s1.gHostUse + 1) })

/-- The function `ofxhost_load_plugin` (mfxHost.c 99-116). -/
def ofxhost_load_plugin (host : Ptr) (plugin : OfxPlugin) (s : HostState) : Bool × HostState :=
  let s1 := s.emit (Event.setHost plugin.pluginIdentifier host)
  let r := callMainEntry plugin OfxAction.Load 0 s1
  if r.1 = OfxStatus.Failed then (false, r.2)
  else if r.1 = OfxStatus.ErrFatal then (false, r.2)
  else (true, r.2)

/-- The function `ofxhost_unload_plugin` (mfxHost.c 118-130). -/
def ofxhost_unload_plugin (plugin : OfxPlugin) (s : HostState) : HostState :=
  let r := callMainEntry plugin OfxAction.Unload 0 s
  r.2.emit (Event.setHost plugin.pluginIdentifier 0)

/-- The function `ofxhost_get_descriptor` (mfxHost.c 132-163).  The middle
component of the result is `*effectDescriptor`. -/
def ofxhost_get_descriptor (_host : Ptr) (plugin : OfxPlugin) (s : HostState) :
    Bool × Ptr × HostState :=
  let a := malloc_array "mesh effect descriptor" s
  let s1 := a.2.emit (Event.init_mesh_effect a.1)
  let r := callMainEntry plugin OfxAction.Describe a.1 s1
  if r.1 = OfxStatus.ErrMissingHostFeature then (false, 0, r.2)
  else if r.1 = OfxStatus.ErrMemory then (false, 0, r.2)
  else if r.1 = OfxStatus.Failed then (false, 0, r.2)
  else if r.1 = OfxStatus.ErrFatal then (false, 0, r.2)
  else (true, a.1, r.2)

/-- The function `ofxhost_release_descriptor` (mfxHost.c 165-169). -/
def ofxhost_release_descriptor (effectDescriptor : Ptr) (s : HostState) : HostState :=
  free_array effectDescriptor (s.emit (Event.free_mesh_effect effectDescriptor))

/-- The function `ofxhost_create_instance` (mfxHost.c 171-198).  The middle
component of the result is `*effectInstance`. -/
def ofxhost_create_instance (plugin : OfxPlugin) (effectDescriptor : Ptr) (s : HostState) :
    Bool × Ptr × HostState :=
  let a := malloc_array "mesh effect descriptor" s
  let s1 := a.2.emit (Event.deep_copy_mesh_effect a.1 effectDescriptor)
  let r := callMainEntry plugin OfxAction.CreateInstance a.1 s1
  if r.1 = OfxStatus.ErrMemory then (false, 0, r.2)
  else if r.1 = OfxStatus.Failed then (false, 0, r.2)
  else if r.1 = OfxStatus.ErrFatal then (false, 0, r.2)
  else (true, a.1, r.2)

/-- The function `ofxhost_destroy_instance` (mfxHost.c 200-213). -/
def ofxhost_destroy_instance (plugin : OfxPlugin) (effectInstance : Ptr) (s : HostState) :
    HostState :=
  let r := callMainEntry plugin OfxAction.DestroyInstance effectInstance s
  free_array effectInstance (r.2.emit (Event.free_mesh_effect effectInstance))

/-- The function `ofxhost_cook` (mfxHost.c 215-231). -/
def ofxhost_cook (plugin : OfxPlugin) (effectInstance : Ptr) (s : HostState) : Bool × HostState :=
  let r := callMainEntry plugin OfxAction.Cook effectInstance s
  if r.1 = OfxStatus.ErrMemory then (false, r.2)
  else if r.1 = OfxStatus.Failed then (false, r.2)
  else if r.1 = OfxStatus.ErrFatal then (false, r.2)
  else (true, r.2)

/-- The assignment `registry->status[plugin_index] = st`. -/
def PluginRegistry.setStatus (registry : PluginRegistry) (plugin_index : Nat)
    (st : OfxPluginStatus) : PluginRegistry :=
  { registry with status := registry.status.set plugin_index st }

/-- Lines 255-266 of `use_plugin`: describe, create instance, cook, destroy
instance, release descriptor. -/
def use_plugin_actions (host : Ptr) (plugin : OfxPlugin) (s : HostState) : HostState :=
  let d := ofxhost_get_descriptor host plugin s
  if d.1 then
    let c := ofxhost_create_instance plugin d.2.1 d.2.2
    let s2 :=
      if c.1 then
        let k := ofxhost_cook plugin c.2.1 c.2.2
        ofxhost_destroy_instance plugin c.2.1 k.2
      else c.2.2
    ofxhost_release_descriptor d.2.1 s2
  else d.2.2

/-- Lines 251-272 of `use_plugin`: the test for `OfxPluginStatError`, the
actions, and `return true`. -/
def use_plugin_loaded (registry : PluginRegistry) (plugin_index : Nat) (host : Ptr)
    (plugin : OfxPlugin) (s : HostState) : Option (Bool × PluginRegistry × HostState) :=
  match registry.status[plugin_index]? with
  | none => none
  | some st =>
    if st = OfxPluginStatus.OfxPluginStatError then some (false, registry, s)
    else some (true, registry, use_plugin_actions host plugin s)

/-- The function `use_plugin` (mfxHost.c 233-273).  `none` when `plugin_index`
is outside the registry's arrays. -/
def use_plugin (registry : PluginRegistry) (plugin_index : Nat) (s : HostState) :
    Option (Bool × PluginRegistry × HostState) :=
  match registry.plugins[plugin_index]?, registry.status[plugin_index]? with
  | some plugin, some st =>
    let g := getGlobalHost s
    if st = OfxPluginStatus.OfxPluginStatNotLoaded then
      let l := ofxhost_load_plugin g.1 plugin g.2
      if l.1 then
        use_plugin_loaded (registry.setStatus plugin_index OfxPluginStatus.OfxPluginStatOK)
          plugin_index g.1 plugin l.2
      else
        some (false, registry.setStatus plugin_index OfxPluginStatus.OfxPluginStatError, l.2)
    else
      use_plugin_loaded registry plugin_index g.1 plugin g.2
  | _, _ => none

/-- A plugin that answers `describe` with `d`, `createInstance` with `c`,
`cook` with `k`, `load` with `l` and everything else with `OK`. -/
def scriptedPlugin (l d c k : OfxStatus) : OfxPlugin :=
  { pluginIdentifier := "scripted",
    mainEntry := fun _ a _ =>
      match a with
      | OfxAction.Load => l
      | OfxAction.Describe => d
      | OfxAction.CreateInstance => c
      | OfxAction.Cook => k
      | _ => OfxStatus.OK }

/-- A registry holding one plugin that has not been loaded yet. -/
def scriptedRegistry (l d c k : OfxStatus) : PluginRegistry :=
  { plugins := [scriptedPlugin l d c k], status := [OfxPluginStatus.OfxPluginStatNotLoaded] }

/-- The statuses on which `ofxhost_load_plugin` reports failure. -/
def loadFails (st : OfxStatus) : Bool :=
  st = OfxStatus.Failed || st = OfxStatus.ErrFatal

/-- The statuses on which `ofxhost_get_descriptor` reports failure. -/
def describeFails (st : OfxStatus) : Bool :=
  st = OfxStatus.ErrMissingHostFeature || st = OfxStatus.ErrMemory
    || st = OfxStatus.Failed || st = OfxStatus.ErrFatal

/-- The statuses on which `ofxhost_create_instance` and `ofxhost_cook` report
failure. -/
def createFails (st : OfxStatus) : Bool :=
  st = OfxStatus.ErrMemory || st = OfxStatus.Failed || st = OfxStatus.ErrFatal

/-- The events that a call added to the trace: what follows the first
`before.trace.length` entries. -/
def newEvents (before after : HostState) : List Event :=
  after.trace.drop before.trace.length

/-- Whether an event is a dispatch of `action` through `mainEntry`. -/
def Event.isDispatch (action : OfxAction) : Event → Bool
  | Event.mainEntry _ a _ _ => a = action
  | _ => false

/-- How many times `action` was dispatched in `evs`. -/
def dispatchCount (action : OfxAction) (evs : List Event) : Nat :=
  evs.countP (Event.isDispatch action)

/-- Whether an event is a `setHost` call. -/
def Event.isSetHost : Event → Bool
  | Event.setHost _ _ => true
  | _ => false

/-- Whether an event is the allocation of the block at `p`. -/
def Event.isMalloc (p : Ptr) : Event → Bool
  | Event.malloc_array q _ => q = p
  | _ => false

/-- How many times the block at `p` was allocated in `evs`. -/
def mallocCount (p : Ptr) (evs : List Event) : Nat :=
  evs.countP (Event.isMalloc p)

/-- How many times the block at `p` was freed in `evs`. -/
def freeCount (p : Ptr) (evs : List Event) : Nat :=
  evs.count (Event.free_array p)

/-- The value of `brk` after `getGlobalHost`. -/
def hostBrk (s : HostState) : Nat :=
  if s.gHostUse = 0 then s.brk + 2 else s.brk

/-- The events of `getGlobalHost`. -/
def hostEvents (s : HostState) : List Event :=
  if s.gHostUse = 0 then
    [Event.malloc_array (s.brk + 1) "global host",
     Event.malloc_array (s.brk + 2) "global host properties",
     Event.init_properties (s.brk + 2),
     Event.propSetPointer (s.brk + 2) "kOfxHostPropBeforeMeshReleaseCb",
     Event.propSetPointer (s.brk + 2) "kOfxHostPropBeforeMeshGetCb"]
  else []

/-- The events of the describe / create / cook / destroy / release sequence
when the descriptor is allocated at `d`, the instance at `inst`, and the four
actions answer `sd`, `sc`, `sk`, `sx`. -/
def actionEvents (id : String) (d inst : Ptr) (sd sc sk sx : OfxStatus) : List Event :=
  [Event.malloc_array d "mesh effect descriptor", Event.init_mesh_effect d,
   Event.mainEntry id OfxAction.Describe d sd] ++
  (if describeFails sd then []
   else
    [Event.malloc_array inst "mesh effect descriptor", Event.deep_copy_mesh_effect inst d,
     Event.mainEntry id OfxAction.CreateInstance inst sc] ++
    (if createFails sc then []
     else
      [Event.mainEntry id OfxAction.Cook inst sk,
       Event.mainEntry id OfxAction.DestroyInstance inst sx,
       Event.free_mesh_effect inst, Event.free_array inst]) ++
    [Event.free_mesh_effect d, Event.free_array d])

/-- The events of one `use_plugin` call after `getGlobalHost`, for a plugin
whose cached status is `st` and whose actions answer `sl`, `sd`, `sc`, `sk`,
`sx`. -/
def pluginEvents (st : OfxPluginStatus) (id : String) (host d inst : Ptr)
    (sl sd sc sk sx : OfxStatus) : List Event :=
  if st = OfxPluginStatus.OfxPluginStatNotLoaded then
    [Event.setHost id host, Event.mainEntry id OfxAction.Load 0 sl] ++
    (if loadFails sl then [] else actionEvents id d inst sd sc sk sx)
  else if st = OfxPluginStatus.OfxPluginStatError then []
  else actionEvents id d inst sd sc sk sx

/-- The status a `use_plugin` call leaves for a plugin whose cached status was
`st` and whose load action answers `sl`. -/
def nextStatus (st : OfxPluginStatus) (sl : OfxStatus) : OfxPluginStatus :=
  if st = OfxPluginStatus.OfxPluginStatNotLoaded then
    (if loadFails sl then OfxPluginStatus.OfxPluginStatError
     else OfxPluginStatus.OfxPluginStatOK)
  else st

/-- Repeated `use_plugin` on the same registry entry: the registry and the
state after `n` calls in a row. -/
def use_plugin_repeat (registry : PluginRegistry) (plugin_index : Nat) (s : HostState) :
    Nat → Option (PluginRegistry × HostState)
  | 0 => some (registry, s)
  | n + 1 =>
    match use_plugin_repeat registry plugin_index s n with
    | none => none
    | some (r, t) =>
      match use_plugin r plugin_index t with
      | none => none
      | some u => some (u.2.1, u.2.2)

/-- How many times `setHost` was called in `evs`. -/
def setHostCount (evs : List Event) : Nat :=
  evs.countP Event.isSetHost

/-- The events of `getGlobalHost` and of the load step contain no describe,
createInstance, cook or destroyInstance dispatch, free nothing, and allocate
only below `hostBrk s + 1`. -/
def quietPrefix (s : HostState) (P : List Event) : Prop :=
  (∀ a, a ≠ OfxAction.Load → dispatchCount a P = 0) ∧
  (∀ p, freeCount p P = 0) ∧
  (∀ p, hostBrk s < p → mallocCount p P = 0) ∧
  (∀ p, Event.free_mesh_effect p ∉ P) ∧
  (∀ id a h st, Event.mainEntry id a h st ∈ P → a = OfxAction.Load)

/-- The result of `use_plugin` on a fresh host for a plugin whose cook action
answers `Failed`. -/
def cookFailedRun : Bool × PluginRegistry × HostState :=
  (true,
   (scriptedRegistry OfxStatus.OK OfxStatus.OK OfxStatus.OK OfxStatus.Failed).setStatus 0
     OfxPluginStatus.OfxPluginStatOK,
   { gHost := 1, gHostUse := 1, hostObjs := [(1, { host := 2 })], brk := 4,
     trace :=
      [Event.malloc_array 1 "global host",
       Event.malloc_array 2 "global host properties",
       Event.init_properties 2,
       Event.propSetPointer 2 "kOfxHostPropBeforeMeshReleaseCb",
       Event.propSetPointer 2 "kOfxHostPropBeforeMeshGetCb",
       Event.setHost "scripted" 1,
       Event.mainEntry "scripted" OfxAction.Load 0 OfxStatus.OK,
       Event.malloc_array 3 "mesh effect descriptor",
       Event.init_mesh_effect 3,
       Event.mainEntry "scripted" OfxAction.Describe 3 OfxStatus.OK,
       Event.malloc_array 4 "mesh effect descriptor",
       Event.deep_copy_mesh_effect 4 3,
       Event.mainEntry "scripted" OfxAction.CreateInstance 4 OfxStatus.OK,
       Event.mainEntry "scripted" OfxAction.Cook 4 OfxStatus.Failed,
       Event.mainEntry "scripted" OfxAction.DestroyInstance 4 OfxStatus.OK,
       Event.free_mesh_effect 4,
       Event.free_array 4,
       Event.free_mesh_effect 3,
       Event.free_array 3] })

/-! ## Part 2. parameters.cpp

Heap objects live in a memory `Mem`: a list of cells, the cell at list index
`p` being the block at address `p + 1`.  A cell is `none` once its block has
been freed.  Allocation appends a cell, so a fresh block never shares its
address with any other block, live or freed.

A C string is given by the `String` of its characters before the terminator,
one `char` per character; `strcmp(a, b) == 0` is equality of these strings and
`strlen` is `String.length`.  A `const char *` argument that comes from the
caller is passed as such a `String`.
-/

/-- The enum `ParamType`. -/
inductive ParamType where
  | PARAM_TYPE_UNKNOWN
  | PARAM_TYPE_INTEGER
  | PARAM_TYPE_INTEGER_2D
  | PARAM_TYPE_INTEGER_3D
  | PARAM_TYPE_DOUBLE
  | PARAM_TYPE_DOUBLE_2D
  | PARAM_TYPE_DOUBLE_3D
  | PARAM_TYPE_RGB
  | PARAM_TYPE_RGBA
  | PARAM_TYPE_BOOLEAN
  | PARAM_TYPE_CHOICE
  | PARAM_TYPE_STRING
  | PARAM_TYPE_CUSTOM
  | PARAM_TYPE_PUSH_BUTTON
  | PARAM_TYPE_GROUP
  | PARAM_TYPE_PAGE
  deriving DecidableEq, Repr

/-- Modelled from the spec: the context tag of a property set (`properties.h`
is not among the sources). -/
inductive PropertySetContext where
  | PROP_CTX_HOST
  | PROP_CTX_MESH_EFFECT
  | PROP_CTX_INPUT
  | PROP_CTX_MESH
  | PROP_CTX_PARAM
  | PROP_CTX_OTHER
  deriving DecidableEq, Repr

/-- Modelled from the spec: a property set (`OfxPropertySetStruct`, declared in
`properties.h`, which is not among the sources) is a context tag and a bag of
named properties with up to four value slots each.  Slot values are kept as
words; the strings of a property set are part of its value. -/
structure OfxPropertySetStruct where
  context : PropertySetContext
  properties : List (String × List Int)
  deriving DecidableEq, Repr

/-- Modelled from the spec: `init_properties` empties the bag. -/
def init_properties (p : OfxPropertySetStruct) : OfxPropertySetStruct :=
  { p with properties := [] }

/-- Modelled from the spec: `deep_copy_property_set(destination, source)`
duplicates all slot storage of `source`; the result is the new content of
`destination`. -/
def deep_copy_property_set (_destination source : OfxPropertySetStruct) : OfxPropertySetStruct :=
  source

/-- The struct `OfxParamStruct`.  `value0` .. `value3` are the four slots of
the union array `value`, as raw words; `value[0].as_char` is the word `value0`
read as an address. -/
structure OfxParamStruct where
  type : ParamType
  name : Ptr
  value0 : Nat
  value1 : Nat
  value2 : Nat
  value3 : Nat
  properties : OfxPropertySetStruct
  deriving DecidableEq, Repr

/-- What a block holds: a `char` array of `size` bytes holding the
NUL-terminated string `s`, an array of parameter pointers, or a parameter. -/
inductive Obj where
  | chars (size : Nat) (s : String)
  | ptrs (a : List Ptr)
  | param (p : OfxParamStruct)
  deriving DecidableEq, Repr

/-- Allocation events. -/
inductive MemEvent where
  | malloc (p : Ptr)
  | free (p : Ptr)
  deriving DecidableEq, Repr

/-- The heap. -/
structure Mem where
  cells : List (Option Obj)
  log : List MemEvent
  deriving DecidableEq, Repr

/-- The block at address `p`, if it is live. -/
def Mem.read (m : Mem) : Ptr → Option Obj
  | 0 => none
  | p + 1 => (m.cells[p]?).getD none

/-- Overwrite the block at address `p`. -/
def Mem.store (m : Mem) : Ptr → Obj → Mem
  | 0, _ => m
  | p + 1, o => { m with cells := m.cells.set p (some o) }

/-- A new block holding `o`; the result is its address and the new heap
(`malloc_array`, `new`). -/
def Mem.alloc (m : Mem) (o : Obj) : Ptr × Mem :=
  (m.cells.length + 1,
    { cells := m.cells ++ [some o], log := m.log ++ [MemEvent.malloc (m.cells.length + 1)] })

/-- The call `free_array(p)`: undefined unless `p` is a live block. -/
def Mem.free_array (m : Mem) (p : Ptr) : Option Mem :=
  match p, m.read p with
  | q + 1, some _ => some { cells := m.cells.set q none, log := m.log ++ [MemEvent.free p] }
  | _, _ => none

/-- Read a parameter object through a pointer. -/
def Mem.readParam (m : Mem) (p : Ptr) : Option OfxParamStruct :=
  match m.read p with
  | some (Obj.param x) => some x
  | _ => none

/-- Read a NUL-terminated string through a `char` pointer (`strlen`, the source
of `strcpy`, an operand of `strcmp`). -/
def Mem.readStr (m : Mem) (p : Ptr) : Option String :=
  match m.read p with
  | some (Obj.chars size s) => if s.length < size then some s else none
  | _ => none

/-- Read `arr[i]` in an array of parameter pointers. -/
def Mem.readPtrAt (m : Mem) (arr : Ptr) (i : Nat) : Option Ptr :=
  match m.read arr with
  | some (Obj.ptrs a) => a[i]?
  | _ => none

/-- The assignment `arr[i] = q` in an array of parameter pointers. -/
def Mem.writePtrAt (m : Mem) (arr : Ptr) (i : Nat) (q : Ptr) : Option Mem :=
  match m.read arr with
  | some (Obj.ptrs a) => if i < a.length then some (m.store arr (Obj.ptrs (a.set i q))) else none
  | _ => none

/-- Assignments to members of the parameter at `p`. -/
def Mem.modifyParam (m : Mem) (p : Ptr) (f : OfxParamStruct → OfxParamStruct) : Option Mem :=
  match m.readParam p with
  | some x => some (m.store p (Obj.param (f x)))
  | none => none

/-- The call `strcpy(dst, src)` where `src` holds the string `s`: undefined
unless `dst` is a live `char` array with room for `s` and its terminator. -/
def Mem.strcpy (m : Mem) (dst : Ptr) (s : String) : Option Mem :=
  match m.read dst with
  | some (Obj.chars size _) => if s.length < size then some (m.store dst (Obj.chars size s)) else none
  | _ => none

/-- The constructor `OfxParamStruct::OfxParamStruct` (parameters.cpp 31-37).
The value slots, which the constructor leaves indeterminate, are zero. -/
def new_OfxParamStruct : OfxParamStruct :=
  { type := ParamType.PARAM_TYPE_DOUBLE, name := 0, value0 := 0, value1 := 0, value2 := 0,
    value3 := 0,
    properties := { init_properties { context := PropertySetContext.PROP_CTX_OTHER,
                                      properties := [] } with
                    context := PropertySetContext.PROP_CTX_PARAM } }

/-- The method `OfxParamStruct::realloc_string` (parameters.cpp 69-76) on the
parameter at `this`. -/
def OfxParamStruct.realloc_string (m : Mem) (this : Ptr) (size : Nat) : Option Mem := do
  let x ← m.readParam this
  let m1 ← if x.value0 ≠ 0 then m.free_array x.value0 else some m
  let b := m1.alloc (Obj.chars size "")
  let m2 ← b.2.modifyParam this (fun x => { x with value0 := b.1 })
  let y ← m2.readParam this
  m2.strcpy y.value0 ""

/-- The method `OfxParamStruct::set_type` (parameters.cpp 50-67) on the
parameter at `this`. -/
def OfxParamStruct.set_type (m : Mem) (this : Ptr) (type : ParamType) : Option Mem := do
  let x ← m.readParam this
  if x.type = type then some m
  else
    let m1 ←
      if x.type = ParamType.PARAM_TYPE_STRING then do
        let m0 ← m.free_array x.value0
        m0.modifyParam this (fun x => { x with value0 := 0 })
      else some m
    let m2 ← m1.modifyParam this (fun x => { x with type := type })
    let y ← m2.readParam this
    if y.type = ParamType.PARAM_TYPE_STRING then do
      let m3 ← m2.modifyParam this (fun x => { x with value0 := 0 })
      OfxParamStruct.realloc_string m3 this 1
    else some m2

/-- Lines 80-84 of `OfxParamStruct::deep_copy_from`: the name.  Each statement
reads `other` from the heap, as the source does. -/
def OfxParamStruct.deep_copy_name (m : Mem) (this other : Ptr) : Option Mem := do
  -- this->name = other.name
  let o ← m.readParam other
  let m1 ← m.modifyParam this (fun x => { x with name := o.name })
  let t ← m1.readParam this
  if t.name ≠ 0 then do
    -- this->name = malloc_array(sizeof(char), strlen(other.name) + 1, ...)
    let o1 ← m1.readParam other
    let s ← m1.readStr o1.name
    let b := m1.alloc (Obj.chars (s.length + 1) "")
    let ma ← b.2.modifyParam this (fun x => { x with name := b.1 })
    -- strcpy(this->name, other.name)
    let t1 ← ma.readParam this
    let o2 ← ma.readParam other
    let s1 ← ma.readStr o2.name
    ma.strcpy t1.name s1
  else some m1

/-- Lines 85-89 of `OfxParamStruct::deep_copy_from`: the type and the four
value slots. -/
def OfxParamStruct.deep_copy_value (m : Mem) (this other : Ptr) : Option Mem := do
  let o ← m.readParam other
  m.modifyParam this (fun x =>
    { x with type := o.type, value0 := o.value0, value1 := o.value1, value2 := o.value2,
             value3 := o.value3 })

/-- Lines 92-97 of `OfxParamStruct::deep_copy_from`: the string buffer. -/
def OfxParamStruct.deep_copy_string (m : Mem) (this other : Ptr) : Option Mem := do
  let t ← m.readParam this
  if t.type = ParamType.PARAM_TYPE_STRING then do
    -- int n = strlen(other.value[0].as_char)
    let o ← m.readParam other
    let s ← m.readStr o.value0
    -- this->value[0].as_char = NULL; realloc_string(n + 1)
    let ma ← m.modifyParam this (fun x => { x with value0 := 0 })
    let mb ← OfxParamStruct.realloc_string ma this (s.length + 1)
    -- strcpy(this->value[0].as_char, other.value[0].as_char)
    let t1 ← mb.readParam this
    let o1 ← mb.readParam other
    let s1 ← mb.readStr o1.value0
    mb.strcpy t1.value0 s1
  else some m

/-- Line 99 of `OfxParamStruct::deep_copy_from`: the properties. -/
def OfxParamStruct.deep_copy_properties (m : Mem) (this other : Ptr) : Option Mem := do
  let o ← m.readParam other
  m.modifyParam this (fun x =>
    { x with properties := deep_copy_property_set x.properties o.properties })

/-- The method `OfxParamStruct::deep_copy_from` (parameters.cpp 78-100): copy
the parameter at `other` into the parameter at `this`. -/
def OfxParamStruct.deep_copy_from (m : Mem) (this other : Ptr) : Option Mem := do
  let m1 ← OfxParamStruct.deep_copy_name m this other
  let m2 ← OfxParamStruct.deep_copy_value m1 this other
  let m3 ← OfxParamStruct.deep_copy_string m2 this other
  OfxParamStruct.deep_copy_properties m3 this other

/-- The struct `OfxParamSetStruct`.  The object itself is passed and returned
by value; its array and its parameters live in the heap. -/
structure OfxParamSetStruct where
  num_parameters : Int
  parameters : Ptr
  effect_properties : Ptr
  deriving DecidableEq, Repr

/-- The constructor `OfxParamSetStruct::OfxParamSetStruct`
(parameters.cpp 104-109). -/
def new_OfxParamSetStruct : OfxParamSetStruct :=
  { num_parameters := 0, parameters := 0, effect_properties := 0 }

/-- The loop of `find_parameter`, with `n` iterations left and loop variable
`i`. -/
def OfxParamSetStruct.find_parameter_loop (m : Mem) (this : OfxParamSetStruct) (param : String) :
    Nat → Nat → Option Int
  | 0, _ => some (-1)
  | n + 1, i => do
    let pp ← m.readPtrAt this.parameters i
    let p ← m.readParam pp
    let nm ← m.readStr p.name
    if nm = param then some (i : Int)
    else OfxParamSetStruct.find_parameter_loop m this param n (i + 1)

/-- The method `OfxParamSetStruct::find_parameter` (parameters.cpp 123-131). -/
def OfxParamSetStruct.find_parameter (m : Mem) (this : OfxParamSetStruct) (param : String) :
    Option Int :=
  OfxParamSetStruct.find_parameter_loop m this param this.num_parameters.toNat 0

/-- The loop of `append_parameters`, with `n` iterations left and loop
variable `i`; `new_parameters` is the array just allocated. -/
def OfxParamSetStruct.append_parameters_loop (old_num_parameters : Int)
    (old_parameters new_parameters : Ptr) : Nat → Nat → Mem → Option Mem
  | 0, _, m => some m
  | n + 1, i, m =>
    if (i : Int) < old_num_parameters then do
      let q ← m.readPtrAt old_parameters i
      let m1 ← m.writePtrAt new_parameters i q
      OfxParamSetStruct.append_parameters_loop old_num_parameters old_parameters new_parameters
        n (i + 1) m1
    else do
      let q := m.alloc (Obj.param new_OfxParamStruct)
      let m1 ← q.2.writePtrAt new_parameters i q.1
      OfxParamSetStruct.append_parameters_loop old_num_parameters old_parameters new_parameters
        n (i + 1) m1

/-- The method `OfxParamSetStruct::append_parameters` (parameters.cpp 133-150).
Undefined when the new count is negative. -/
def OfxParamSetStruct.append_parameters (m : Mem) (this : OfxParamSetStruct) (count : Int) :
    Option (Mem × OfxParamSetStruct) :=
  let old_num_parameters := this.num_parameters
  let old_parameters := this.parameters
  let num := this.num_parameters + count
  if num < 0 then none
  else
    let a := m.alloc (Obj.ptrs (List.replicate num.toNat 0))
    match OfxParamSetStruct.append_parameters_loop old_num_parameters old_parameters a.1
        num.toNat 0 a.2 with
    | none => none
    | some m1 =>
      let this1 := { this with num_parameters := num, parameters := a.1 }
      if old_parameters ≠ 0 then
        match m1.free_array old_parameters with
        | none => none
        | some m2 => some (m2, this1)
      else some (m1, this1)

/-- The loop of `OfxParamSetStruct::deep_copy_from`, with `n` iterations left
and loop variable `i`. -/
def OfxParamSetStruct.deep_copy_loop (this other : OfxParamSetStruct) :
    Nat → Nat → Mem → Option Mem
  | 0, _, m => some m
  | n + 1, i, m => do
    let dst ← m.readPtrAt this.parameters i
    let src ← m.readPtrAt other.parameters i
    let m1 ← OfxParamStruct.deep_copy_from m dst src
    OfxParamSetStruct.deep_copy_loop this other n (i + 1) m1

/-- The method `OfxParamSetStruct::deep_copy_from` (parameters.cpp 165-172);
`other` is a different object from `this`. -/
def OfxParamSetStruct.deep_copy_from (m : Mem) (this other : OfxParamSetStruct) :
    Option (Mem × OfxParamSetStruct) := do
  let r ← OfxParamSetStruct.append_parameters m this other.num_parameters
  let m1 ← OfxParamSetStruct.deep_copy_loop r.2 other r.2.num_parameters.toNat 0 r.1
  some (m1, { r.2 with effect_properties := other.effect_properties })

/-! ### Views of the heap -/

/-- What a parameter denotes: its name (if any), its type, its value slots
(slot 0 is shown as 0 for a String parameter, where it holds an address), the
content of its string buffer (for a String parameter) and its properties. -/
structure ParamView where
  name : Option String
  type : ParamType
  value0 : Nat
  value1 : Nat
  value2 : Nat
  value3 : Nat
  string : Option String
  properties : OfxPropertySetStruct
  deriving DecidableEq, Repr

/-- The name a parameter object denotes in the heap `m`: `some none` for a
null name, `none` when the name pointer does not lead to a string. -/
def Mem.viewName (m : Mem) (x : OfxParamStruct) : Option (Option String) :=
  if x.name = 0 then some none
  else
    match m.readStr x.name with
    | some s => some (some s)
    | none => none

/-- The string value a parameter object denotes in the heap `m`. -/
def Mem.viewString (m : Mem) (x : OfxParamStruct) : Option (Option String) :=
  if x.type = ParamType.PARAM_TYPE_STRING then
    match m.readStr x.value0 with
    | some s => some (some s)
    | none => none
  else some none

/-- The view of the parameter at address `p`; `none` when `p`, its name or its
string buffer is not a live block of the right kind. -/
def Mem.viewParam (m : Mem) (p : Ptr) : Option ParamView :=
  match m.readParam p with
  | none => none
  | some x =>
    match m.viewName x, m.viewString x with
    | some nm, some str =>
      some { name := nm, type := x.type,
             value0 := if x.type = ParamType.PARAM_TYPE_STRING then 0 else x.value0,
             value1 := x.value1, value2 := x.value2, value3 := x.value3,
             string := str, properties := x.properties }
    | _, _ => none

/-- The views of the parameters at the addresses in a list. -/
def Mem.viewList (m : Mem) : List Ptr → Option (List ParamView)
  | [] => some []
  | p :: rest =>
    match m.viewParam p, Mem.viewList m rest with
    | some v, some vs => some (v :: vs)
    | _, _ => none

/-- The pointer array of a parameter set: empty for the null array with count
0, otherwise the content of the live array, whose length is the count. -/
def Mem.setPtrs (m : Mem) (set : OfxParamSetStruct) : Option (List Ptr) :=
  if set.parameters = 0 then
    (if set.num_parameters = 0 then some [] else none)
  else
    match m.read set.parameters with
    | some (Obj.ptrs a) => if (a.length : Int) = set.num_parameters then some a else none
    | _ => none

/-- The view of a parameter set: the views of its parameters, in order.
`none` when the set is not a well-formed parameter set in the heap `m`. -/
def Mem.viewSet (m : Mem) (set : OfxParamSetStruct) : Option (List ParamView) :=
  match m.setPtrs set with
  | none => none
  | some a => m.viewList a

/-- Every block of `m` other than the one at `X` is still there, with the same
content, in `m1`, and `m1` has at least as many cells. -/
structure Mem.Extends (m m1 : Mem) (X : Ptr) : Prop where
  len : m.cells.length ≤ m1.cells.length
  keep : ∀ q, q ≠ X → ∀ o, m.read q = some o → m1.read q = some o

/-- The block at `X` is not a `char` array in `m`. -/
def Mem.notChars (m : Mem) (X : Ptr) : Prop :=
  ∀ size s, m.read X ≠ some (Obj.chars size s)

/-- The view of a parameter as its constructor leaves it. -/
def defaultView : ParamView :=
  { name := none, type := ParamType.PARAM_TYPE_DOUBLE, value0 := 0, value1 := 0, value2 := 0,
    value3 := 0, string := none, properties := new_OfxParamStruct.properties }

/-- The parameter at `q` and its buffers are blocks above address `L`. -/
def Mem.ownedAbove (m : Mem) (L : Nat) (q : Ptr) : Prop :=
  L < q ∧ ∃ x, m.read q = some (Obj.param x) ∧ (x.name = 0 ∨ L < x.name) ∧
    (x.type = ParamType.PARAM_TYPE_STRING → L < x.value0)

/-- Loop invariant of `OfxParamSetStruct::deep_copy_from` before iteration
`i`: `m0` is the heap before the call, `A` the target's array holding the
addresses `fresh`, and `vs` the views of the source's parameters. -/
def CopyInv (m0 : Mem) (A : Ptr) (fresh : List Ptr) (vs : List ParamView) (i : Nat)
    (cur : Mem) : Prop :=
  Mem.Extends m0 cur 0 ∧
  cur.read A = some (Obj.ptrs fresh) ∧
  cur.viewList (fresh.take i) = some (vs.take i) ∧
  (∀ q, q ∈ fresh.drop i → ∃ x, cur.read q = some (Obj.param x)) ∧
  (∀ q, q ∈ fresh.take i → cur.ownedAbove m0.cells.length q)

/-- A heap holding a set of two parameters: "radius", a Double whose first
slot is 42, and "label", a String with value "hello".  The block at address 1
is the set's first array, freed when the second parameter was appended. -/
def sampleMem : Mem :=
  { cells :=
      [none,
       some (Obj.param
         { type := ParamType.PARAM_TYPE_DOUBLE, name := 3, value0 := 42, value1 := 0,
           value2 := 0, value3 := 0, properties := new_OfxParamStruct.properties }),
       some (Obj.chars 7 "radius"),
       some (Obj.ptrs [2, 5]),
       some (Obj.param
         { type := ParamType.PARAM_TYPE_STRING, name := 6, value0 := 7, value1 := 0,
           value2 := 0, value3 := 0, properties := new_OfxParamStruct.properties }),
       some (Obj.chars 6 "label"),
       some (Obj.chars 6 "hello")],
    log :=
      [MemEvent.malloc 1, MemEvent.malloc 2, MemEvent.malloc 3, MemEvent.malloc 4,
       MemEvent.malloc 5, MemEvent.free 1, MemEvent.malloc 6, MemEvent.malloc 7] }

/-- The parameter set of `sampleMem`: two parameters, array at address 4. -/
def sampleSet : OfxParamSetStruct :=
  { num_parameters := 2, parameters := 4, effect_properties := 9 }

/-- The views of the two parameters of `sampleSet`. -/
def sampleViews : List ParamView :=
  [{ name := some "radius", type := ParamType.PARAM_TYPE_DOUBLE, value0 := 42, value1 := 0,
     value2 := 0, value3 := 0, string := none, properties := new_OfxParamStruct.properties },
   { name := some "label", type := ParamType.PARAM_TYPE_STRING, value0 := 0, value1 := 0,
     value2 := 0, value3 := 0, string := some "hello",
     properties := new_OfxParamStruct.properties }]

/-- The keyword strings `kOfxParamTypeInteger` ... `kOfxParamTypePage` that
`parse_parameter_type` compares with.  They are macros of `ofxParam.h`, which
is not among the sources, and are taken as a parameter. -/
structure ParamTypeKeywords where
  kOfxParamTypeInteger : String
  kOfxParamTypeInteger2D : String
  kOfxParamTypeInteger3D : String
  kOfxParamTypeDouble : String
  kOfxParamTypeDouble2D : String
  kOfxParamTypeDouble3D : String
  kOfxParamTypeRGB : String
  kOfxParamTypeRGBA : String
  kOfxParamTypeBoolean : String
  kOfxParamTypeChoice : String
  kOfxParamTypeString : String
  kOfxParamTypeCustom : String
  kOfxParamTypePushButton : String
  kOfxParamTypeGroup : String
  kOfxParamTypePage : String

/-- The function `parse_parameter_type` (parameters.cpp 176-223). -/
def parse_parameter_type (k : ParamTypeKeywords) (str : String) : ParamType :=
  if str = k.kOfxParamTypeInteger then ParamType.PARAM_TYPE_INTEGER
  else if str = k.kOfxParamTypeInteger2D then ParamType.PARAM_TYPE_INTEGER_2D
  else if str = k.kOfxParamTypeInteger3D then ParamType.PARAM_TYPE_INTEGER_3D
  else if str = k.kOfxParamTypeDouble then ParamType.PARAM_TYPE_DOUBLE
  else if str = k.kOfxParamTypeDouble2D then ParamType.PARAM_TYPE_DOUBLE_2D
  else if str = k.kOfxParamTypeDouble3D then ParamType.PARAM_TYPE_DOUBLE_3D
  else if str = k.kOfxParamTypeRGB then ParamType.PARAM_TYPE_RGB
  else if str = k.kOfxParamTypeRGBA then ParamType.PARAM_TYPE_RGBA
  else if str = k.kOfxParamTypeBoolean then ParamType.PARAM_TYPE_BOOLEAN
  else if str = k.kOfxParamTypeChoice then ParamType.PARAM_TYPE_CHOICE
  else if str = k.kOfxParamTypeString then ParamType.PARAM_TYPE_STRING
  else if str = k.kOfxParamTypeCustom then ParamType.PARAM_TYPE_CUSTOM
  else if str = k.kOfxParamTypePushButton then ParamType.PARAM_TYPE_PUSH_BUTTON
  else if str = k.kOfxParamTypeGroup then ParamType.PARAM_TYPE_GROUP
  else if str = k.kOfxParamTypePage then ParamType.PARAM_TYPE_PAGE
  else ParamType.PARAM_TYPE_UNKNOWN

/-- The keyword of a parameter type; `PARAM_TYPE_UNKNOWN` has none. -/
def ParamTypeKeywords.keyword (k : ParamTypeKeywords) : ParamType → Option String
  | ParamType.PARAM_TYPE_UNKNOWN => none
  | ParamType.PARAM_TYPE_INTEGER => some k.kOfxParamTypeInteger
  | ParamType.PARAM_TYPE_INTEGER_2D => some k.kOfxParamTypeInteger2D
  | ParamType.PARAM_TYPE_INTEGER_3D => some k.kOfxParamTypeInteger3D
  | ParamType.PARAM_TYPE_DOUBLE => some k.kOfxParamTypeDouble
  | ParamType.PARAM_TYPE_DOUBLE_2D => some k.kOfxParamTypeDouble2D
  | ParamType.PARAM_TYPE_DOUBLE_3D => some k.kOfxParamTypeDouble3D
  | ParamType.PARAM_TYPE_RGB => some k.kOfxParamTypeRGB
  | ParamType.PARAM_TYPE_RGBA => some k.kOfxParamTypeRGBA
  | ParamType.PARAM_TYPE_BOOLEAN => some k.kOfxParamTypeBoolean
  | ParamType.PARAM_TYPE_CHOICE => some k.kOfxParamTypeChoice
  | ParamType.PARAM_TYPE_STRING => some k.kOfxParamTypeString
  | ParamType.PARAM_TYPE_CUSTOM => some k.kOfxParamTypeCustom
  | ParamType.PARAM_TYPE_PUSH_BUTTON => some k.kOfxParamTypePushButton
  | ParamType.PARAM_TYPE_GROUP => some k.kOfxParamTypeGroup
  | ParamType.PARAM_TYPE_PAGE => some k.kOfxParamTypePage

/-- The fifteen parameter types that have a keyword. -/
def declaredParamTypes : List ParamType :=
  [ParamType.PARAM_TYPE_INTEGER, ParamType.PARAM_TYPE_INTEGER_2D,
   ParamType.PARAM_TYPE_INTEGER_3D, ParamType.PARAM_TYPE_DOUBLE,
   ParamType.PARAM_TYPE_DOUBLE_2D, ParamType.PARAM_TYPE_DOUBLE_3D, ParamType.PARAM_TYPE_RGB,
   ParamType.PARAM_TYPE_RGBA, ParamType.PARAM_TYPE_BOOLEAN, ParamType.PARAM_TYPE_CHOICE,
   ParamType.PARAM_TYPE_STRING, ParamType.PARAM_TYPE_CUSTOM,
   ParamType.PARAM_TYPE_PUSH_BUTTON, ParamType.PARAM_TYPE_GROUP, ParamType.PARAM_TYPE_PAGE]

/-- The fifteen keywords, in the order of `declaredParamTypes`. -/
def ParamTypeKeywords.all (k : ParamTypeKeywords) : List (Option String) :=
  declaredParamTypes.map k.keyword

/-- The keyword strings as OpenFX spells them. -/
def openfxParamTypeKeywords : ParamTypeKeywords :=
  { kOfxParamTypeInteger := "OfxParamTypeInteger",
    kOfxParamTypeInteger2D := "OfxParamTypeInteger2D",
    kOfxParamTypeInteger3D := "OfxParamTypeInteger3D",
    kOfxParamTypeDouble := "OfxParamTypeDouble",
    kOfxParamTypeDouble2D := "OfxParamTypeDouble2D",
    kOfxParamTypeDouble3D := "OfxParamTypeDouble3D",
    kOfxParamTypeRGB := "OfxParamTypeRGB",
    kOfxParamTypeRGBA := "OfxParamTypeRGBA",
    kOfxParamTypeBoolean := "OfxParamTypeBoolean",
    kOfxParamTypeChoice := "OfxParamTypeChoice",
    kOfxParamTypeString := "OfxParamTypeString",
    kOfxParamTypeCustom := "OfxParamTypeCustom",
    kOfxParamTypePushButton := "OfxParamTypePushButton",
    kOfxParamTypeGroup := "OfxParamTypeGroup",
    kOfxParamTypePage := "OfxParamTypePage" }

/-- The function `parameter_type_dimensions` (parameters.cpp 225-244). -/
def parameter_type_dimensions (type : ParamType) : Nat :=
  match type with
  | ParamType.PARAM_TYPE_INTEGER => 1
  | ParamType.PARAM_TYPE_DOUBLE => 1
  | ParamType.PARAM_TYPE_BOOLEAN => 1
  | ParamType.PARAM_TYPE_STRING => 1
  | ParamType.PARAM_TYPE_INTEGER_2D => 2
  | ParamType.PARAM_TYPE_DOUBLE_2D => 2
  | ParamType.PARAM_TYPE_INTEGER_3D => 3
  | ParamType.PARAM_TYPE_DOUBLE_3D => 3
  | ParamType.PARAM_TYPE_RGB => 3
  | ParamType.PARAM_TYPE_RGBA => 4
  | _ => 1

/-- The suite names `kOfxMeshEffectSuite`, `kOfxParameterSuite` and
`kOfxPropertySuite` that `fetchSuite` compares with.  They are macros of the
OpenFX headers, which are not among the sources, and are taken as a
parameter. -/
structure SuiteNames where
  kOfxMeshEffectSuite : String
  kOfxParameterSuite : String
  kOfxPropertySuite : String

/-- The three suite tables of the host.  They are distinct global objects, so
their addresses are non-null and pairwise different; `fetchSuite` returns one
of these addresses or `NULL`. -/
inductive SuiteTable where
  | gMeshEffectSuiteV1
  | gParameterSuiteV1
  | gPropertySuiteV1
  deriving DecidableEq, Repr

/-- The function `fetchSuite` (mfxHost.c 36-66); `none` is `NULL`. -/
def fetchSuite (k : SuiteNames) (_host : Ptr) (suiteName : String) (suiteVersion : Int) :
    Option SuiteTable :=
  if suiteName = k.kOfxMeshEffectSuite ∧ suiteVersion = 1 then
    (match suiteVersion with
     | 1 => some SuiteTable.gMeshEffectSuiteV1
     | _ => none)
  else if suiteName = k.kOfxParameterSuite ∧ suiteVersion = 1 then
    (match suiteVersion with
     | 1 => some SuiteTable.gParameterSuiteV1
     | _ => none)
  else if suiteName = k.kOfxPropertySuite ∧ suiteVersion = 1 then
    (match suiteVersion with
     | 1 => some SuiteTable.gPropertySuiteV1
     | _ => none)
  else none

/-- The suite names as OpenFX and Open Mesh Effect spell them. -/
def openfxSuiteNames : SuiteNames :=
  { kOfxMeshEffectSuite := "OfxMeshEffectSuite",
    kOfxParameterSuite := "OfxParameterSuite",
    kOfxPropertySuite := "OfxPropertySuite" }

/-! ### The global host -/

/-- The function `releaseGlobalHost` (mfxHost.c 90-97).  The decrement
`--gHostUse` is `int` arithmetic.  `none` when the count reaches zero while
`gHost` does not point to a live host object, which `gHost->host` then
dereferences. -/
def releaseGlobalHost (s : HostState) : Option HostState :=
  let s1 := { s with gHostUse := int_wrap (s.gHostUse - 1) }
  if s1.gHostUse = 0 then
    match s1.hostObjs.lookup s1.gHost with
    | none => none
    | some h =>
      let s2 := free_array h.host s1
      let s3 := free_array s1.gHost s2
      some { s3 with gHost := 0, hostObjs := s3.hostObjs.filter (fun e => e.1 != s1.gHost) }
  else some s1

/-- A call of `getGlobalHost` or of `releaseGlobalHost`. -/
inductive HostCall where
  | acquire
  | release
  deriving DecidableEq, Repr

/-- A sequence of `getGlobalHost` and `releaseGlobalHost` calls: the handles
that the acquisitions returned, in order, and the final state. -/
def hostCalls : List HostCall → HostState → Option (List Ptr × HostState)
  | [], s => some ([], s)
  | HostCall.acquire :: cs, s =>
    match hostCalls cs (getGlobalHost s).2 with
    | none => none
    | some r => some ((getGlobalHost s).1 :: r.1, r.2)
  | HostCall.release :: cs, s =>
    match releaseGlobalHost s with
    | none => none
    | some s1 => hostCalls cs s1

/-- The number of acquisitions in a sequence of calls. -/
def acquires (cs : List HostCall) : Nat :=
  cs.count HostCall.acquire

/-- The number of releases in a sequence of calls. -/
def releases (cs : List HostCall) : Nat :=
  cs.count HostCall.release

/-- The state in which the host allocated by the first `getGlobalHost` of the
program is alive with use count `u`: the host object at address 1, its
property set at address 2. -/
def hostAlive (u : Nat) : HostState :=
  { gHost := 1, gHostUse := (u : Int), hostObjs := [(1, { host := 2 })], brk := 2,
    trace :=
      [Event.malloc_array 1 "global host",
       Event.malloc_array 2 "global host properties",
       Event.init_properties 2,
       Event.propSetPointer 2 "kOfxHostPropBeforeMeshReleaseCb",
       Event.propSetPointer 2 "kOfxHostPropBeforeMeshGetCb"] }

/-- The state after that host has been torn down. -/
def hostGone : HostState :=
  { gHost := 0, gHostUse := 0, hostObjs := [], brk := 2,
    trace := (hostAlive 0).trace ++ [Event.free_array 2, Event.free_array 1] }

/-- The state in which the first host of the program is the global host and
the use counter holds `c`. -/
def hostHeld (c : Int) : HostState :=
  { hostAlive 0 with gHostUse := c }

/-- The state after `getGlobalHost` has found the counter at 0 while the
first host was still the global host, and has allocated a second host at
address 3 with its property set at address 4. -/
def secondHost : HostState :=
  { gHost := 3, gHostUse := 1, hostObjs := [(3, { host := 4 }), (1, { host := 2 })], brk := 4,
    trace := (hostAlive 0).trace ++
      [Event.malloc_array 3 "global host",
       Event.malloc_array 4 "global host properties",
       Event.init_properties 4,
       Event.propSetPointer 4 "kOfxHostPropBeforeMeshReleaseCb",
       Event.propSetPointer 4 "kOfxHostPropBeforeMeshGetCb"] }

/-- The blocks allocated and not freed by the events `evs`, latest first. -/
def liveBlocks (evs : List Event) : List Ptr :=
  evs.foldl
    (fun live e =>
      match e with
      | Event.malloc_array p _ => p :: live
      | Event.free_array p => live.erase p
      | _ => live)
    []

/-- Two states with the same global host: handle, use count and host
objects. -/
def HostState.sameHost (a b : HostState) : Prop :=
  a.gHost = b.gHost ∧ a.gHostUse = b.gHostUse ∧ a.hostObjs = b.hostObjs

/-- The global host is consistent: a non-zero use count comes with a non-null
handle. -/
def HostState.hostBound (s : HostState) : Prop :=
  s.gHostUse ≠ 0 → s.gHost ≠ 0

/-! ### Two sets in one heap -/

/-- A heap holding two sets of one parameter each: the target's "gain", a
Double whose first slot is 7 (array at address 1), and the source's "size",
an Integer whose first slot is 3 (array at address 4). -/
def twoSetsMem : Mem :=
  { cells :=
      [some (Obj.ptrs [2]),
       some (Obj.param
         { type := ParamType.PARAM_TYPE_DOUBLE, name := 3, value0 := 7, value1 := 0,
           value2 := 0, value3 := 0, properties := new_OfxParamStruct.properties }),
       some (Obj.chars 5 "gain"),
       some (Obj.ptrs [5]),
       some (Obj.param
         { type := ParamType.PARAM_TYPE_INTEGER, name := 6, value0 := 3, value1 := 0,
           value2 := 0, value3 := 0, properties := new_OfxParamStruct.properties }),
       some (Obj.chars 5 "size")],
    log :=
      [MemEvent.malloc 1, MemEvent.malloc 2, MemEvent.malloc 3, MemEvent.malloc 4,
       MemEvent.malloc 5, MemEvent.malloc 6] }

/-- The target set of `twoSetsMem`. -/
def gainSet : OfxParamSetStruct :=
  { num_parameters := 1, parameters := 1, effect_properties := 0 }

/-- The source set of `twoSetsMem`. -/
def sizeSet : OfxParamSetStruct :=
  { num_parameters := 1, parameters := 4, effect_properties := 0 }

/-- The view of the target's parameter in `twoSetsMem`. -/
def gainView : ParamView :=
  { name := some "gain", type := ParamType.PARAM_TYPE_DOUBLE, value0 := 7, value1 := 0,
    value2 := 0, value3 := 0, string := none, properties := new_OfxParamStruct.properties }

/-- The view of the source's parameter in `twoSetsMem`. -/
def sizeView : ParamView :=
  { name := some "size", type := ParamType.PARAM_TYPE_INTEGER, value0 := 3, value1 := 0,
    value2 := 0, value3 := 0, string := none, properties := new_OfxParamStruct.properties }

/-! ## Part 4. mfxCallbacks.c

The two mesh hooks convert between a Blender mesh (polygons `mpoly`, loops
`mloop`) and the buffers of an OFX mesh (face counts, vertex-to-point
indices).  An `int` is an `Int` from `INT_MIN` to `INT_MAX`; an `int` addition
whose result leaves that range is undefined and gives `none`, and so does an
access outside an array.  An `unsigned int` is a `Nat` below `2^32`.

The embedding covers the count computation (lines 87-93) and the face and
vertex loop (lines 127-136) of `before_mesh_get`, and the vertex and face
loops (lines 223-235) of `before_mesh_release`.  The guards at the head of
the hooks and the point positions, vertex colours and UVs, which are
floating-point data, are not embedded.
-/

/-- The sum `a + b` of two `int`s; `none` on overflow. -/
def int_add (a b : Int) : Option Int :=
  if INT_MIN ≤ a + b ∧ a + b ≤ INT_MAX then some (a + b) else none

/-- The conversion of an `unsigned int` to `int`: the same value when it is
at most `INT_MAX`, else the value minus `2^32` (two's complement). -/
def int_of_unsigned (u : Nat) : Int :=
  if (u : Int) ≤ INT_MAX then (u : Int) else (u : Int) - 4294967296

/-- The conversion of an `int` to `unsigned int`: the value modulo `2^32`. -/
def unsigned_of_int (x : Int) : Nat :=
  (x % 4294967296).toNat

/-- The function `max` (mfxCallbacks.c 43-46). -/
def max (a b : Int) : Int :=
  if a > b then a else b

/-- The members of the struct `MPoly` that the hooks use. -/
structure MPoly where
  loopstart : Int
  totloop : Int
  deriving DecidableEq, Repr

/-- The member of the struct `MLoop` that the hooks use: `unsigned int v`. -/
structure MLoop where
  v : Nat
  deriving DecidableEq, Repr

/-- The members of the struct `Mesh` that the embedded loops use. -/
structure Mesh where
  totvert : Int
  totloop : Int
  totpoly : Int
  mpoly : List MPoly
  mloop : List MLoop
  deriving DecidableEq, Repr

/-- The read `a[i]` of an array at an `int` index. -/
def read_at {α : Type} (a : List α) (i : Int) : Option α :=
  if 0 ≤ i then a[i.toNat]? else none

/-- The write `a[i] = x` into an array at an `int` index. -/
def write_at {α : Type} (a : List α) (i : Int) (x : α) : Option (List α) :=
  if 0 ≤ i ∧ i.toNat < a.length then some (a.set i.toNat x) else none

/-- The loop at lines 89-92 of `before_mesh_get`, with `n` iterations left,
loop variable `i` and the current value of `vertex_count`. -/
def before_mesh_get_vertex_count_loop (blender_mesh : Mesh) : Nat → Nat → Int → Option Int
  | 0, _, vertex_count => some vertex_count
  | n + 1, i, vertex_count => do
    let p ← blender_mesh.mpoly[i]?
    let after_last_loop ← int_add p.loopstart p.totloop
    before_mesh_get_vertex_count_loop blender_mesh n (i + 1) (max vertex_count after_last_loop)

/-- Lines 87-93 of `before_mesh_get`: the triple `point_count`,
`vertex_count`, `face_count`. -/
def before_mesh_get_counts (blender_mesh : Mesh) : Option (Int × Int × Int) := do
  let point_count := blender_mesh.totvert
  let vertex_count ←
    before_mesh_get_vertex_count_loop blender_mesh blender_mesh.totpoly.toNat 0 0
  let face_count := blender_mesh.totpoly
  some (point_count, vertex_count, face_count)

/-- The state of the loop at lines 128-136 of `before_mesh_get`: the variable
`current_vertex`, the two buffers, and the list of the accesses
`vertex_data[current_vertex] = mloop[l].v` made so far, each as the pair of
`current_vertex` and `l`. -/
structure FillState where
  current_vertex : Int
  vertex_data : List Int
  face_data : List Int
  accesses : List (Int × Int)
  deriving DecidableEq, Repr

/-- The inner loop at lines 133-135 of `before_mesh_get`, with `n` iterations
left. -/
def before_mesh_get_fill_vertices (blender_mesh : Mesh) :
    Nat → Int → FillState → Option FillState
  | 0, _, st => some st
  | n + 1, l, st => do
    let x ← read_at blender_mesh.mloop l
    let vertex_data ← write_at st.vertex_data st.current_vertex (int_of_unsigned x.v)
    let current_vertex ← int_add st.current_vertex 1
    let l1 ← int_add l 1
    before_mesh_get_fill_vertices blender_mesh n l1
      { st with current_vertex := current_vertex, vertex_data := vertex_data,
                accesses := st.accesses ++ [(st.current_vertex, l)] }

/-- The outer loop at lines 129-136 of `before_mesh_get`, with `n` iterations
left and loop variable `i`. -/
def before_mesh_get_fill_faces (blender_mesh : Mesh) : Nat → Nat → FillState → Option FillState
  | 0, _, st => some st
  | n + 1, i, st => do
    -- face_data[i] = blender_mesh->mpoly[i].totloop
    let p ← blender_mesh.mpoly[i]?
    let face_data ← write_at st.face_data (i : Int) p.totloop
    -- int l = blender_mesh->mpoly[i].loopstart
    let l := p.loopstart
    -- int end = current_vertex + face_data[i]
    let count ← read_at face_data (i : Int)
    let «end» ← int_add st.current_vertex count
    let st1 ← before_mesh_get_fill_vertices blender_mesh («end» - st.current_vertex).toNat l
      { st with face_data := face_data }
    before_mesh_get_fill_faces blender_mesh n (i + 1) st1

/-- Lines 128-136 of `before_mesh_get`, on the two buffers of the OFX mesh. -/
def before_mesh_get_fill (blender_mesh : Mesh) (face_count : Int)
    (vertex_data face_data : List Int) : Option FillState :=
  before_mesh_get_fill_faces blender_mesh face_count.toNat 0
    { current_vertex := 0, vertex_data := vertex_data, face_data := face_data, accesses := [] }

/-- The loop at lines 224-226 of `before_mesh_release`, with `n` iterations
left and loop variable `i`. -/
def before_mesh_release_vertices (vertex_data : List Int) :
    Nat → Nat → List MLoop → Option (List MLoop)
  | 0, _, mloop => some mloop
  | n + 1, i, mloop => do
    let x ← vertex_data[i]?
    let old ← mloop[i]?
    before_mesh_release_vertices vertex_data n (i + 1)
      (mloop.set i { old with v := unsigned_of_int x })

/-- The loop at lines 230-235 of `before_mesh_release`, with `n` iterations
left, loop variable `i` and the variable `current_loop`. -/
def before_mesh_release_faces (face_data : List Int) :
    Nat → Nat → Int → List MPoly → Option (List MPoly)
  | 0, _, _, mpoly => some mpoly
  | n + 1, i, current_loop, mpoly => do
    let count ← face_data[i]?
    let old ← mpoly[i]?
    let mpoly1 := mpoly.set i { old with loopstart := current_loop, totloop := count }
    let current_loop1 ← int_add current_loop count
    before_mesh_release_faces face_data n (i + 1) current_loop1 mpoly1

/-- Lines 223-235 of `before_mesh_release`, on the mesh `blender_mesh` that
the hook has just allocated. -/
def before_mesh_release_layout (vertex_count face_count : Int) (vertex_data face_data : List Int)
    (blender_mesh : Mesh) : Option Mesh := do
  let mloop ← before_mesh_release_vertices vertex_data vertex_count.toNat 0 blender_mesh.mloop
  let mpoly ← before_mesh_release_faces face_data face_count.toNat 0 0 blender_mesh.mpoly
  some { blender_mesh with mloop := mloop, mpoly := mpoly }

/-- Whether the polygons are laid out one after the other from loop `start`:
each `loopstart` is where the polygon before ended, and no `totloop` is
negative. -/
def contiguous_from : Int → List MPoly → Bool
  | _, [] => true
  | start, p :: ps =>
    decide (p.loopstart = start) && decide (0 ≤ p.totloop) &&
      contiguous_from (start + p.totloop) ps

/-- Whether the arrays of a mesh have the sizes its count members give, with
`totloop` an `int`, and the loops of every polygon are loops of the mesh. -/
def Mesh.well_formed (m : Mesh) : Bool :=
  decide ((m.mpoly.length : Int) = m.totpoly) && decide ((m.mloop.length : Int) = m.totloop) &&
    decide (m.totloop ≤ INT_MAX) &&
    m.mpoly.all (fun p => decide (p.loopstart + p.totloop ≤ m.totloop))

/-- A mesh of two polygons, a triangle and a quad, over seven loops. -/
def sampleMesh : Mesh :=
  { totvert := 5, totloop := 7, totpoly := 2,
    mpoly := [{ loopstart := 0, totloop := 3 }, { loopstart := 3, totloop := 4 }],
    mloop := [{ v := 0 }, { v := 1 }, { v := 2 }, { v := 2 }, { v := 1 }, { v := 3 }, { v := 4 }] }

/-- A mesh with room for seven loops and two polygons, all members zero, as
the allocation in `before_mesh_release` leaves it. -/
def blankMesh : Mesh :=
  { totvert := 5, totloop := 7, totpoly := 2,
    mpoly := [{ loopstart := 0, totloop := 0 }, { loopstart := 0, totloop := 0 }],
    mloop := [{ v := 0 }, { v := 0 }, { v := 0 }, { v := 0 }, { v := 0 }, { v := 0 }, { v := 0 }] }

/-- The number of loops of a list of polygons: the sum of their `totloop`. -/
def loop_total (ps : List MPoly) : Int :=
  (ps.map (fun p => p.totloop)).sum

/-- The layout that the face loop of `before_mesh_release` gives the polygons
for the face counts `c`, from loop `start` on: polygon `i` has `totloop`
`c[i]` and starts where polygon `i - 1` ended. -/
def face_layout : Int → List Int → List MPoly
  | _, [] => []
  | start, count :: cs => { loopstart := start, totloop := count } :: face_layout (start + count) cs

/-! ## Theorems: mfxHost.c -/

theorem getGlobalHost_trace (s : HostState) :
    (getGlobalHost s).2.trace = s.trace ++ hostEvents s ∧
    (getGlobalHost s).2.brk = hostBrk s := by
  unfold getGlobalHost hostEvents hostBrk
  by_cases h : s.gHostUse = 0 <;> simp [h, malloc_array, HostState.emit]

theorem ofxhost_get_descriptor_spec (host : Ptr) (plugin : OfxPlugin) (s : HostState) :
    ∃ sd, (ofxhost_get_descriptor host plugin s).2.2.trace =
        s.trace ++ [Event.malloc_array (s.brk + 1) "mesh effect descriptor",
          Event.init_mesh_effect (s.brk + 1),
          Event.mainEntry plugin.pluginIdentifier OfxAction.Describe (s.brk + 1) sd] ∧
      (ofxhost_get_descriptor host plugin s).2.2.brk = s.brk + 1 ∧
      (ofxhost_get_descriptor host plugin s).1 = !describeFails sd ∧
      ((ofxhost_get_descriptor host plugin s).1 = true →
        (ofxhost_get_descriptor host plugin s).2.1 = s.brk + 1) := by
  refine ⟨(callMainEntry plugin OfxAction.Describe (s.brk + 1)
    ((malloc_array "mesh effect descriptor" s).2.emit (Event.init_mesh_effect (s.brk + 1)))).1, ?_⟩
  unfold ofxhost_get_descriptor
  simp only [malloc_array, callMainEntry, HostState.emit, describeFails]
  split_ifs <;> simp_all

theorem ofxhost_create_instance_spec (plugin : OfxPlugin) (d : Ptr) (s : HostState) :
    ∃ sc, (ofxhost_create_instance plugin d s).2.2.trace =
        s.trace ++ [Event.malloc_array (s.brk + 1) "mesh effect descriptor",
          Event.deep_copy_mesh_effect (s.brk + 1) d,
          Event.mainEntry plugin.pluginIdentifier OfxAction.CreateInstance (s.brk + 1) sc] ∧
      (ofxhost_create_instance plugin d s).2.2.brk = s.brk + 1 ∧
      (ofxhost_create_instance plugin d s).1 = !createFails sc ∧
      ((ofxhost_create_instance plugin d s).1 = true →
        (ofxhost_create_instance plugin d s).2.1 = s.brk + 1) := by
  refine ⟨(callMainEntry plugin OfxAction.CreateInstance (s.brk + 1)
    ((malloc_array "mesh effect descriptor" s).2.emit
      (Event.deep_copy_mesh_effect (s.brk + 1) d))).1, ?_⟩
  unfold ofxhost_create_instance
  simp only [malloc_array, callMainEntry, HostState.emit, createFails]
  split_ifs <;> simp_all

theorem ofxhost_cook_spec (plugin : OfxPlugin) (inst : Ptr) (s : HostState) :
    ∃ sk, (ofxhost_cook plugin inst s).2.trace =
        s.trace ++ [Event.mainEntry plugin.pluginIdentifier OfxAction.Cook inst sk] ∧
      (ofxhost_cook plugin inst s).2.brk = s.brk := by
  refine ⟨(callMainEntry plugin OfxAction.Cook inst s).1, ?_⟩
  unfold ofxhost_cook
  simp only [callMainEntry, HostState.emit]
  split_ifs <;> simp_all

theorem ofxhost_destroy_instance_spec (plugin : OfxPlugin) (inst : Ptr) (s : HostState) :
    ∃ sx, (ofxhost_destroy_instance plugin inst s).trace =
        s.trace ++ [Event.mainEntry plugin.pluginIdentifier OfxAction.DestroyInstance inst sx,
          Event.free_mesh_effect inst, Event.free_array inst] ∧
      (ofxhost_destroy_instance plugin inst s).brk = s.brk := by
  refine ⟨(callMainEntry plugin OfxAction.DestroyInstance inst s).1, ?_⟩
  simp [ofxhost_destroy_instance, callMainEntry, HostState.emit, free_array]

theorem ofxhost_release_descriptor_spec (d : Ptr) (s : HostState) :
    (ofxhost_release_descriptor d s).trace =
      s.trace ++ [Event.free_mesh_effect d, Event.free_array d] ∧
    (ofxhost_release_descriptor d s).brk = s.brk := by
  simp [ofxhost_release_descriptor, HostState.emit, free_array]

theorem use_plugin_actions_trace (host : Ptr) (plugin : OfxPlugin) (s : HostState) :
    ∃ sd sc sk sx, (use_plugin_actions host plugin s).trace =
      s.trace ++ actionEvents plugin.pluginIdentifier (s.brk + 1) (s.brk + 2) sd sc sk sx := by
  obtain ⟨sd, hd1, hd2, hd3, hd4⟩ := ofxhost_get_descriptor_spec host plugin s
  obtain ⟨sc, hc1, hc2, hc3, hc4⟩ := ofxhost_create_instance_spec plugin
    (ofxhost_get_descriptor host plugin s).2.1 (ofxhost_get_descriptor host plugin s).2.2
  obtain ⟨sk, hk1, hk2⟩ := ofxhost_cook_spec plugin
    (ofxhost_create_instance plugin (ofxhost_get_descriptor host plugin s).2.1
      (ofxhost_get_descriptor host plugin s).2.2).2.1
    (ofxhost_create_instance plugin (ofxhost_get_descriptor host plugin s).2.1
      (ofxhost_get_descriptor host plugin s).2.2).2.2
  obtain ⟨sx, hx1, hx2⟩ := ofxhost_destroy_instance_spec plugin
    (ofxhost_create_instance plugin (ofxhost_get_descriptor host plugin s).2.1
      (ofxhost_get_descriptor host plugin s).2.2).2.1
    (ofxhost_cook plugin
      (ofxhost_create_instance plugin (ofxhost_get_descriptor host plugin s).2.1
        (ofxhost_get_descriptor host plugin s).2.2).2.1
      (ofxhost_create_instance plugin (ofxhost_get_descriptor host plugin s).2.1
        (ofxhost_get_descriptor host plugin s).2.2).2.2).2
  refine ⟨sd, sc, sk, sx, ?_⟩
  unfold use_plugin_actions actionEvents
  by_cases hfd : describeFails sd = true
  · simp [hd3, hfd, hd1]
  · have hd5 := hd4 (by simp [hd3, hfd])
    simp only [hd5, hd2] at hc1 hc2 hc3 hc4 hk1 hx1
    by_cases hfc : createFails sc = true
    · simp [hd3, hfd, hd5, hc3, hfc, (ofxhost_release_descriptor_spec _ _).1, hc1, hd1]
    · have hc5 := hc4 (by simp [hc3, hfc])
      simp only [hc5, hc2] at hk1 hk2 hx1
      simp [hd3, hfd, hd5, hc3, hfc, hc5, (ofxhost_release_descriptor_spec _ _).1, hx1, hk1,
        hc1, hd1]

theorem list_set_same {α : Type} (l : List α) (i : Nat) (a : α) (h : l[i]? = some a) :
    l.set i a = l := by
  induction l generalizing i with
  | nil => rfl
  | cons x xs ih =>
    cases i with
    | zero => simp at h; simp [h]
    | succ n => simp at h; simp [ih n h]

theorem use_plugin_shape (registry : PluginRegistry) (i : Nat) (s : HostState)
    (plugin : OfxPlugin) (st : OfxPluginStatus)
    (hp : registry.plugins[i]? = some plugin) (hs : registry.status[i]? = some st) :
    ∃ sl sd sc sk sx r,
      use_plugin registry i s = some r ∧
      r.1 = decide (nextStatus st sl ≠ OfxPluginStatus.OfxPluginStatError) ∧
      r.2.1.plugins = registry.plugins ∧
      r.2.1.status = registry.status.set i (nextStatus st sl) ∧
      r.2.2.trace = s.trace ++ (hostEvents s ++
        pluginEvents st plugin.pluginIdentifier (getGlobalHost s).1 (hostBrk s + 1) (hostBrk s + 2)
          sl sd sc sk sx) := by
  have hi : i < registry.status.length := by
    rcases Nat.lt_or_ge i registry.status.length with h | h
    · exact h
    · rw [List.getElem?_eq_none h] at hs; cases hs
  obtain ⟨hg1, hg2⟩ := getGlobalHost_trace s
  unfold use_plugin
  simp only [hp, hs]
  by_cases hst : st = OfxPluginStatus.OfxPluginStatNotLoaded
  · -- the load action is dispatched
    have hl : ∃ sl, (ofxhost_load_plugin (getGlobalHost s).1 plugin (getGlobalHost s).2).2.trace =
          (getGlobalHost s).2.trace ++ [Event.setHost plugin.pluginIdentifier (getGlobalHost s).1,
            Event.mainEntry plugin.pluginIdentifier OfxAction.Load 0 sl] ∧
        (ofxhost_load_plugin (getGlobalHost s).1 plugin (getGlobalHost s).2).2.brk =
          (getGlobalHost s).2.brk ∧
        (ofxhost_load_plugin (getGlobalHost s).1 plugin (getGlobalHost s).2).1 = !loadFails sl := by
      refine ⟨(callMainEntry plugin OfxAction.Load 0
        ((getGlobalHost s).2.emit (Event.setHost plugin.pluginIdentifier (getGlobalHost s).1))).1, ?_⟩
      unfold ofxhost_load_plugin
      simp only [callMainEntry, HostState.emit, loadFails]
      split_ifs <;> simp_all
    obtain ⟨sl, hl1, hl2, hl3⟩ := hl
    by_cases hlf : loadFails sl = true
    · refine ⟨sl, OfxStatus.OK, OfxStatus.OK, OfxStatus.OK, OfxStatus.OK,
        (false, registry.setStatus i OfxPluginStatus.OfxPluginStatError,
          (ofxhost_load_plugin (getGlobalHost s).1 plugin (getGlobalHost s).2).2), ?_, ?_, rfl, ?_, ?_⟩
      · simp [hst, hl3, hlf]
      · simp [hst, hlf, nextStatus]
      · simp [hst, hlf, nextStatus, PluginRegistry.setStatus]
      · simp [hl1, hg1, pluginEvents, hst, hlf]
    · obtain ⟨sd, sc, sk, sx, ha⟩ := use_plugin_actions_trace (getGlobalHost s).1 plugin
        (ofxhost_load_plugin (getGlobalHost s).1 plugin (getGlobalHost s).2).2
      refine ⟨sl, sd, sc, sk, sx,
        (true, registry.setStatus i OfxPluginStatus.OfxPluginStatOK,
          use_plugin_actions (getGlobalHost s).1 plugin
            (ofxhost_load_plugin (getGlobalHost s).1 plugin (getGlobalHost s).2).2), ?_, ?_, rfl, ?_, ?_⟩
      · simp [hst, hl3, hlf, use_plugin_loaded, PluginRegistry.setStatus, hi]
      · simp [hst, hlf, nextStatus]
      · simp [hst, hlf, nextStatus, PluginRegistry.setStatus]
      · simp [ha, hl1, hl2, hg1, hg2, pluginEvents, hst, hlf]
  · by_cases hse : st = OfxPluginStatus.OfxPluginStatError
    · refine ⟨OfxStatus.OK, OfxStatus.OK, OfxStatus.OK, OfxStatus.OK, OfxStatus.OK,
        (false, registry, (getGlobalHost s).2), ?_, ?_, rfl, ?_, ?_⟩
      · simp [hse, use_plugin_loaded, hs]
      · simp [hse, nextStatus]
      · simp [hst, nextStatus, list_set_same _ _ _ hs]
      · simp [hg1, pluginEvents, hse]
    · obtain ⟨sd, sc, sk, sx, ha⟩ := use_plugin_actions_trace (getGlobalHost s).1 plugin
        (getGlobalHost s).2
      refine ⟨OfxStatus.OK, sd, sc, sk, sx,
        (true, registry, use_plugin_actions (getGlobalHost s).1 plugin (getGlobalHost s).2),
        ?_, ?_, rfl, ?_, ?_⟩
      · simp [hst, hse, use_plugin_loaded, hs]
      · simp [hst, hse, nextStatus]
      · simp [hst, nextStatus, list_set_same _ _ _ hs]
      · simp [ha, hg1, hg2, pluginEvents, hst, hse]

theorem newEvents_append (s t : HostState) (evs : List Event) (h : t.trace = s.trace ++ evs) :
    newEvents s t = evs := by
  simp [newEvents, h]

theorem use_plugin_split (registry : PluginRegistry) (i : Nat) (s : HostState)
    (plugin : OfxPlugin) (st : OfxPluginStatus)
    (hp : registry.plugins[i]? = some plugin) (hs : registry.status[i]? = some st) :
    ∃ r P L, use_plugin registry i s = some r ∧
      r.2.2.trace = s.trace ++ (P ++ L) ∧ quietPrefix s P ∧
      (L = [] ∨ ∃ sd sc sk sx, L = actionEvents plugin.pluginIdentifier
        (hostBrk s + 1) (hostBrk s + 2) sd sc sk sx) := by
  obtain ⟨sl, sd, sc, sk, sx, r, hr, -, -, -, ht⟩ := use_plugin_shape registry i s plugin st hp hs
  have hq : quietPrefix s (hostEvents s) := by
    unfold quietPrefix hostEvents hostBrk
    by_cases h0 : s.gHostUse = 0
    · simp only [h0, if_true]
      refine ⟨?_, ?_, ?_, ?_, ?_⟩
      · intro a _; simp [dispatchCount, Event.isDispatch]
      · intro p; simp [freeCount]
      · intro p hlt
        have h1 : ¬ s.brk + 1 = p := by omega
        have h2 : ¬ s.brk + 2 = p := by omega
        simp [mallocCount, Event.isMalloc, h1, h2]
      · intro p; simp
      · intro id a h st; simp
    · simp [h0, dispatchCount, freeCount, mallocCount]
  have hq2 : ∀ sl0, quietPrefix s (hostEvents s ++
      [Event.setHost plugin.pluginIdentifier (getGlobalHost s).1,
        Event.mainEntry plugin.pluginIdentifier OfxAction.Load 0 sl0]) := by
    intro sl0
    obtain ⟨q1, q2, q3, q4, q5⟩ := hq
    refine ⟨?_, ?_, ?_, ?_, ?_⟩
    · intro a ha
      have := q1 a ha
      simp only [dispatchCount] at this
      simp [dispatchCount, List.countP_append, this, Event.isDispatch, Ne.symm ha]
    · intro p
      have := q2 p
      simp only [freeCount] at this
      simp [freeCount, List.count_append, this]
    · intro p hlt
      have := q3 p hlt
      simp only [mallocCount] at this
      simp [mallocCount, List.countP_append, this, Event.isMalloc]
    · intro p; simp [q4 p]
    · intro id a h st hm
      simp only [List.mem_append, List.mem_cons, List.mem_singleton] at hm
      rcases hm with hm | hm | hm | hm
      · exact q5 id a h st hm
      · cases hm
      · cases hm; rfl
      · cases hm
  unfold pluginEvents at ht
  by_cases hst : st = OfxPluginStatus.OfxPluginStatNotLoaded
  · by_cases hlf : loadFails sl = true
    · refine ⟨r, _, [], hr, ?_, hq2 sl, Or.inl rfl⟩
      simp [ht, hst, hlf]
    · refine ⟨r, _, _, hr, ?_, hq2 sl, Or.inr ⟨sd, sc, sk, sx, rfl⟩⟩
      simp [ht, hst, hlf]
  · by_cases hse : st = OfxPluginStatus.OfxPluginStatError
    · refine ⟨r, _, [], hr, ?_, hq, Or.inl rfl⟩
      simp [ht, hse]
    · refine ⟨r, _, _, hr, ?_, hq, Or.inr ⟨sd, sc, sk, sx, rfl⟩⟩
      simp [ht, hst, hse]

theorem use_plugin_in_range (registry : PluginRegistry) (i : Nat) (s : HostState)
    (r : Bool × PluginRegistry × HostState) (hu : use_plugin registry i s = some r) :
    ∃ plugin st, registry.plugins[i]? = some plugin ∧ registry.status[i]? = some st := by
  unfold use_plugin at hu
  cases h1 : registry.plugins[i]? with
  | none => simp [h1] at hu
  | some plugin =>
    cases h2 : registry.status[i]? with
    | none => simp [h1, h2] at hu
    | some st => exact ⟨plugin, st, rfl, rfl⟩

theorem use_plugin_cases (registry : PluginRegistry) (i : Nat) (s : HostState)
    (r : Bool × PluginRegistry × HostState) (hu : use_plugin registry i s = some r) :
    ∃ P L id, quietPrefix s P ∧ newEvents s r.2.2 = P ++ L ∧
      (L = [] ∨
       (∃ sd, describeFails sd = true ∧
          L = [Event.malloc_array (hostBrk s + 1) "mesh effect descriptor",
            Event.init_mesh_effect (hostBrk s + 1),
            Event.mainEntry id OfxAction.Describe (hostBrk s + 1) sd]) ∨
       (∃ sd sc, describeFails sd = false ∧ createFails sc = true ∧
          L = [Event.malloc_array (hostBrk s + 1) "mesh effect descriptor",
            Event.init_mesh_effect (hostBrk s + 1),
            Event.mainEntry id OfxAction.Describe (hostBrk s + 1) sd,
            Event.malloc_array (hostBrk s + 2) "mesh effect descriptor",
            Event.deep_copy_mesh_effect (hostBrk s + 2) (hostBrk s + 1),
            Event.mainEntry id OfxAction.CreateInstance (hostBrk s + 2) sc,
            Event.free_mesh_effect (hostBrk s + 1), Event.free_array (hostBrk s + 1)]) ∨
       (∃ sd sc sk sx, describeFails sd = false ∧ createFails sc = false ∧
          L = [Event.malloc_array (hostBrk s + 1) "mesh effect descriptor",
            Event.init_mesh_effect (hostBrk s + 1),
            Event.mainEntry id OfxAction.Describe (hostBrk s + 1) sd,
            Event.malloc_array (hostBrk s + 2) "mesh effect descriptor",
            Event.deep_copy_mesh_effect (hostBrk s + 2) (hostBrk s + 1),
            Event.mainEntry id OfxAction.CreateInstance (hostBrk s + 2) sc,
            Event.mainEntry id OfxAction.Cook (hostBrk s + 2) sk,
            Event.mainEntry id OfxAction.DestroyInstance (hostBrk s + 2) sx,
            Event.free_mesh_effect (hostBrk s + 2), Event.free_array (hostBrk s + 2),
            Event.free_mesh_effect (hostBrk s + 1), Event.free_array (hostBrk s + 1)])) := by
  obtain ⟨plugin, st, hp, hs⟩ := use_plugin_in_range registry i s r hu
  obtain ⟨r1, P, L, hr, ht, hq, hL⟩ := use_plugin_split registry i s plugin st hp hs
  rw [hu] at hr
  cases hr
  refine ⟨P, L, plugin.pluginIdentifier, hq, newEvents_append s r.2.2 _ ht, ?_⟩
  rcases hL with hL | ⟨sd, sc, sk, sx, hL⟩
  · exact Or.inl hL
  · by_cases hfd : describeFails sd = true
    · exact Or.inr (Or.inl ⟨sd, hfd, by simp [hL, actionEvents, hfd]⟩)
    · simp only [Bool.not_eq_true] at hfd
      by_cases hfc : createFails sc = true
      · exact Or.inr (Or.inr (Or.inl ⟨sd, sc, hfd, hfc, by simp [hL, actionEvents, hfd, hfc]⟩))
      · simp only [Bool.not_eq_true] at hfc
        exact Or.inr (Or.inr (Or.inr ⟨sd, sc, sk, sx, hfd, hfc,
          by simp [hL, actionEvents, hfd, hfc]⟩))

theorem mem_quietPrefix_append {s : HostState} {P L : List Event} (hq : quietPrefix s P)
    {id : String} {a : OfxAction} {h : Ptr} {x : OfxStatus} (ha : a ≠ OfxAction.Load)
    (hm : Event.mainEntry id a h x ∈ P ++ L) : Event.mainEntry id a h x ∈ L := by
  rcases List.mem_append.1 hm with hm | hm
  · exact absurd (hq.2.2.2.2 id a h x hm) ha
  · exact hm

/-- C1: in one `use_plugin` call every lifecycle action is gated on the
previous steps.  The call returns; a createInstance dispatch is preceded, in
the same call, by a describe dispatch whose status is outside
{ErrMissingHostFeature, ErrMemory, Failed, ErrFatal}; a cook or
destroyInstance dispatch is preceded by such a describe and by a
createInstance dispatch on the same handle whose status is outside
{ErrMemory, Failed, ErrFatal}; describe and createInstance are dispatched at
most once; and when describe answers ErrMemory neither createInstance nor cook
nor destroyInstance is dispatched. -/
theorem use_plugin_actions_gated (registry : PluginRegistry) (i : Nat) (s : HostState)
    (plugin : OfxPlugin) (st : OfxPluginStatus)
    (hp : registry.plugins[i]? = some plugin) (hs : registry.status[i]? = some st) :
    ∃ r, use_plugin registry i s = some r ∧
      r.2.2.trace = s.trace ++ newEvents s r.2.2 ∧
      (∀ id inst sc,
        Event.mainEntry id OfxAction.CreateInstance inst sc ∈ newEvents s r.2.2 →
        ∃ pre d sd post,
          newEvents s r.2.2 = pre ++ Event.mainEntry id OfxAction.Describe d sd :: post ∧
          describeFails sd = false ∧
          Event.mainEntry id OfxAction.CreateInstance inst sc ∈ post) ∧
      (∀ id a inst sa, (a = OfxAction.Cook ∨ a = OfxAction.DestroyInstance) →
        Event.mainEntry id a inst sa ∈ newEvents s r.2.2 →
        ∃ pre d sd mid sc post,
          newEvents s r.2.2 = pre ++ Event.mainEntry id OfxAction.Describe d sd :: mid ++
            Event.mainEntry id OfxAction.CreateInstance inst sc :: post ∧
          describeFails sd = false ∧ createFails sc = false ∧
          Event.mainEntry id a inst sa ∈ post) ∧
      dispatchCount OfxAction.Describe (newEvents s r.2.2) ≤ 1 ∧
      dispatchCount OfxAction.CreateInstance (newEvents s r.2.2) ≤ 1 ∧
      (∀ id d, Event.mainEntry id OfxAction.Describe d OfxStatus.ErrMemory ∈ newEvents s r.2.2 →
        dispatchCount OfxAction.CreateInstance (newEvents s r.2.2) = 0 ∧
        dispatchCount OfxAction.Cook (newEvents s r.2.2) = 0 ∧
        dispatchCount OfxAction.DestroyInstance (newEvents s r.2.2) = 0) := by
  obtain ⟨r, P, L, hr, ht, ⟨q1, q2, q3, q4, q5⟩, hL⟩ := use_plugin_split registry i s plugin st hp hs
  have hn : newEvents s r.2.2 = P ++ L := newEvents_append s r.2.2 _ ht
  refine ⟨r, hr, by rw [hn]; exact ht, ?_⟩
  rw [hn]
  have c1 := q1 OfxAction.Describe (by decide)
  have c2 := q1 OfxAction.CreateInstance (by decide)
  have c3 := q1 OfxAction.Cook (by decide)
  have c4 := q1 OfxAction.DestroyInstance (by decide)
  simp only [dispatchCount] at c1 c2 c3 c4
  have notP : ∀ id a h x, a ≠ OfxAction.Load → Event.mainEntry id a h x ∉ P :=
    fun id a h x ha hm => ha (q5 id a h x hm)
  rcases hL with hL | ⟨sd, sc, sk, sx, hL⟩
  · subst hL
    simp only [List.append_nil, dispatchCount, c1, c2, c3, c4]
    refine ⟨?_, ?_, by omega, by omega, ?_⟩
    · intro id inst sc0 hm
      exact absurd hm (notP _ _ _ _ (by decide))
    · intro id a inst sa ha hm
      rcases ha with ha | ha <;> subst ha <;> exact absurd hm (notP _ _ _ _ (by decide))
    · intro id d hm
      exact absurd hm (notP _ _ _ _ (by decide))
  · by_cases hfd : describeFails sd = true
    · -- describe failed: nothing else is dispatched
      have hL2 : L = [Event.malloc_array (hostBrk s + 1) "mesh effect descriptor",
          Event.init_mesh_effect (hostBrk s + 1),
          Event.mainEntry plugin.pluginIdentifier OfxAction.Describe (hostBrk s + 1) sd] := by
        simp [hL, actionEvents, hfd]
      subst hL2
      refine ⟨?_, ?_, ?_, ?_, ?_⟩
      · intro id inst sc0 hm
        simp only [List.mem_append] at hm
        rcases hm with hm | hm
        · exact absurd hm (notP _ _ _ _ (by decide))
        · simp at hm
      · intro id a inst sa ha hm
        simp only [List.mem_append] at hm
        rcases hm with hm | hm
        · rcases ha with ha | ha <;> subst ha <;> exact absurd hm (notP _ _ _ _ (by decide))
        · rcases ha with ha | ha <;> subst ha <;> simp at hm
      · simp [dispatchCount, List.countP_append, c1, List.countP_cons, Event.isDispatch]
      · simp [dispatchCount, List.countP_append, c2, List.countP_cons, Event.isDispatch]
      · intro id d _
        simp [dispatchCount, List.countP_append, c2, c3, c4, List.countP_cons, Event.isDispatch]
    · simp only [Bool.not_eq_true] at hfd
      by_cases hfc : createFails sc = true
      · have hL2 : L = [Event.malloc_array (hostBrk s + 1) "mesh effect descriptor",
            Event.init_mesh_effect (hostBrk s + 1),
            Event.mainEntry plugin.pluginIdentifier OfxAction.Describe (hostBrk s + 1) sd,
            Event.malloc_array (hostBrk s + 2) "mesh effect descriptor",
            Event.deep_copy_mesh_effect (hostBrk s + 2) (hostBrk s + 1),
            Event.mainEntry plugin.pluginIdentifier OfxAction.CreateInstance (hostBrk s + 2) sc,
            Event.free_mesh_effect (hostBrk s + 1), Event.free_array (hostBrk s + 1)] := by
          simp [hL, actionEvents, hfd, hfc]
        subst hL2
        refine ⟨?_, ?_, ?_, ?_, ?_⟩
        · intro id inst sc0 hm
          simp only [List.mem_append] at hm
          rcases hm with hm | hm
          · exact absurd hm (notP _ _ _ _ (by decide))
          · simp at hm
            obtain ⟨h1, h2, h3⟩ := hm
            simp only [h1, h2, h3]
            exact ⟨P ++ [Event.malloc_array (hostBrk s + 1) "mesh effect descriptor",
              Event.init_mesh_effect (hostBrk s + 1)], hostBrk s + 1, sd,
              [Event.malloc_array (hostBrk s + 2) "mesh effect descriptor",
                Event.deep_copy_mesh_effect (hostBrk s + 2) (hostBrk s + 1),
                Event.mainEntry plugin.pluginIdentifier OfxAction.CreateInstance (hostBrk s + 2) sc,
                Event.free_mesh_effect (hostBrk s + 1), Event.free_array (hostBrk s + 1)],
              by simp, hfd, by simp⟩
        · intro id a inst sa ha hm
          simp only [List.mem_append] at hm
          rcases hm with hm | hm
          · rcases ha with ha | ha <;> subst ha <;> exact absurd hm (notP _ _ _ _ (by decide))
          · rcases ha with ha | ha <;> subst ha <;> simp at hm
        · simp [dispatchCount, List.countP_append, c1, List.countP_cons, Event.isDispatch]
        · simp [dispatchCount, List.countP_append, c2, List.countP_cons, Event.isDispatch]
        · intro id d hm
          simp only [List.mem_append] at hm
          rcases hm with hm | hm
          · exact absurd hm (notP _ _ _ _ (by decide))
          · simp at hm
            obtain ⟨-, -, rfl⟩ := hm
            simp [describeFails] at hfd
      · simp only [Bool.not_eq_true] at hfc
        have hL2 : L = [Event.malloc_array (hostBrk s + 1) "mesh effect descriptor",
            Event.init_mesh_effect (hostBrk s + 1),
            Event.mainEntry plugin.pluginIdentifier OfxAction.Describe (hostBrk s + 1) sd,
            Event.malloc_array (hostBrk s + 2) "mesh effect descriptor",
            Event.deep_copy_mesh_effect (hostBrk s + 2) (hostBrk s + 1),
            Event.mainEntry plugin.pluginIdentifier OfxAction.CreateInstance (hostBrk s + 2) sc,
            Event.mainEntry plugin.pluginIdentifier OfxAction.Cook (hostBrk s + 2) sk,
            Event.mainEntry plugin.pluginIdentifier OfxAction.DestroyInstance (hostBrk s + 2) sx,
            Event.free_mesh_effect (hostBrk s + 2), Event.free_array (hostBrk s + 2),
            Event.free_mesh_effect (hostBrk s + 1), Event.free_array (hostBrk s + 1)] := by
          simp [hL, actionEvents, hfd, hfc]
        subst hL2
        refine ⟨?_, ?_, ?_, ?_, ?_⟩
        · intro id inst sc0 hm
          simp only [List.mem_append] at hm
          rcases hm with hm | hm
          · exact absurd hm (notP _ _ _ _ (by decide))
          · simp at hm
            obtain ⟨h1, h2, h3⟩ := hm
            simp only [h1, h2, h3]
            exact ⟨P ++ [Event.malloc_array (hostBrk s + 1) "mesh effect descriptor",
              Event.init_mesh_effect (hostBrk s + 1)], hostBrk s + 1, sd,
              [Event.malloc_array (hostBrk s + 2) "mesh effect descriptor",
                Event.deep_copy_mesh_effect (hostBrk s + 2) (hostBrk s + 1),
                Event.mainEntry plugin.pluginIdentifier OfxAction.CreateInstance (hostBrk s + 2) sc,
                Event.mainEntry plugin.pluginIdentifier OfxAction.Cook (hostBrk s + 2) sk,
                Event.mainEntry plugin.pluginIdentifier OfxAction.DestroyInstance (hostBrk s + 2) sx,
                Event.free_mesh_effect (hostBrk s + 2), Event.free_array (hostBrk s + 2),
                Event.free_mesh_effect (hostBrk s + 1), Event.free_array (hostBrk s + 1)],
              by simp, hfd, by simp⟩
        · intro id a inst sa ha hm
          simp only [List.mem_append] at hm
          rcases hm with hm | hm
          · rcases ha with ha | ha <;> subst ha <;> exact absurd hm (notP _ _ _ _ (by decide))
          · rcases ha with ha | ha <;> subst ha
            · simp at hm
              obtain ⟨h1, h2, h3⟩ := hm
              simp only [h1, h2, h3]
              exact ⟨P ++ [Event.malloc_array (hostBrk s + 1) "mesh effect descriptor",
                Event.init_mesh_effect (hostBrk s + 1)], hostBrk s + 1, sd,
                [Event.malloc_array (hostBrk s + 2) "mesh effect descriptor",
                  Event.deep_copy_mesh_effect (hostBrk s + 2) (hostBrk s + 1)], sc,
                [Event.mainEntry plugin.pluginIdentifier OfxAction.Cook (hostBrk s + 2) sk,
                  Event.mainEntry plugin.pluginIdentifier OfxAction.DestroyInstance
                    (hostBrk s + 2) sx,
                  Event.free_mesh_effect (hostBrk s + 2), Event.free_array (hostBrk s + 2),
                  Event.free_mesh_effect (hostBrk s + 1), Event.free_array (hostBrk s + 1)],
                by simp, hfd, hfc, by simp⟩
            · simp at hm
              obtain ⟨h1, h2, h3⟩ := hm
              simp only [h1, h2, h3]
              exact ⟨P ++ [Event.malloc_array (hostBrk s + 1) "mesh effect descriptor",
                Event.init_mesh_effect (hostBrk s + 1)], hostBrk s + 1, sd,
                [Event.malloc_array (hostBrk s + 2) "mesh effect descriptor",
                  Event.deep_copy_mesh_effect (hostBrk s + 2) (hostBrk s + 1)], sc,
                [Event.mainEntry plugin.pluginIdentifier OfxAction.Cook (hostBrk s + 2) sk,
                  Event.mainEntry plugin.pluginIdentifier OfxAction.DestroyInstance
                    (hostBrk s + 2) sx,
                  Event.free_mesh_effect (hostBrk s + 2), Event.free_array (hostBrk s + 2),
                  Event.free_mesh_effect (hostBrk s + 1), Event.free_array (hostBrk s + 1)],
                by simp, hfd, hfc, by simp⟩
        · simp [dispatchCount, List.countP_append, c1, List.countP_cons, Event.isDispatch]
        · simp [dispatchCount, List.countP_append, c2, List.countP_cons, Event.isDispatch]
        · intro id d hm
          simp only [List.mem_append] at hm
          rcases hm with hm | hm
          · exact absurd hm (notP _ _ _ _ (by decide))
          · simp at hm
            obtain ⟨-, -, rfl⟩ := hm
            simp [describeFails] at hfd

theorem use_plugin_actions_gated_witness :
    (scriptedRegistry OfxStatus.OK OfxStatus.ErrMemory OfxStatus.OK OfxStatus.OK).plugins[0]? =
      some (scriptedPlugin OfxStatus.OK OfxStatus.ErrMemory OfxStatus.OK OfxStatus.OK) ∧
    (scriptedRegistry OfxStatus.OK OfxStatus.ErrMemory OfxStatus.OK OfxStatus.OK).status[0]? =
      some OfxPluginStatus.OfxPluginStatNotLoaded ∧
    ∃ r, use_plugin (scriptedRegistry OfxStatus.OK OfxStatus.ErrMemory OfxStatus.OK OfxStatus.OK)
        0 HostState.init = some r ∧
      dispatchCount OfxAction.CreateInstance (newEvents HostState.init r.2.2) ≤ 1 :=
  ⟨rfl, rfl,
    (use_plugin_actions_gated
      (scriptedRegistry OfxStatus.OK OfxStatus.ErrMemory OfxStatus.OK OfxStatus.OK) 0
      HostState.init (scriptedPlugin OfxStatus.OK OfxStatus.ErrMemory OfxStatus.OK OfxStatus.OK)
      OfxPluginStatus.OfxPluginStatNotLoaded rfl rfl).imp
      (fun _ h => ⟨h.1, h.2.2.2.2.2.1⟩)⟩

/-- Every `use_plugin` call in which describe reports a failure status leaves
the descriptor it allocated without a matching free. -/
theorem describe_failure_leaks_descriptor (registry : PluginRegistry) (i : Nat) (s : HostState)
    (r : Bool × PluginRegistry × HostState) (hu : use_plugin registry i s = some r)
    (id : String) (d : Ptr) (sd : OfxStatus)
    (hd : Event.mainEntry id OfxAction.Describe d sd ∈ newEvents s r.2.2)
    (hf : describeFails sd = true) :
    mallocCount d (newEvents s r.2.2) = 1 ∧ freeCount d (newEvents s r.2.2) = 0 ∧
    Event.free_mesh_effect d ∉ newEvents s r.2.2 := by
  obtain ⟨P, L, pid, hq, hn, hL⟩ := use_plugin_cases registry i s r hu
  rw [hn] at hd ⊢
  have hd2 := mem_quietPrefix_append hq (by decide) hd
  obtain ⟨-, q2, q3, q4, -⟩ := hq
  rcases hL with hL | ⟨sd1, h1, hL⟩ | ⟨sd1, sc1, h1, h2, hL⟩ | ⟨sd1, sc1, sk1, sx1, h1, h2, hL⟩ <;>
    subst hL <;> simp at hd2
  · obtain ⟨-, rfl, -⟩ := hd2
    have m0 := q3 (hostBrk s + 1) (by omega)
    have f0 := q2 (hostBrk s + 1)
    simp only [mallocCount, freeCount] at m0 f0 ⊢
    simp [List.countP_append, List.count_append, m0, f0, q4, Event.isMalloc]
  · obtain ⟨-, -, h3⟩ := hd2
    rw [h3] at hf; rw [hf] at h1; cases h1
  · obtain ⟨-, -, h3⟩ := hd2
    rw [h3] at hf; rw [hf] at h1; cases h1

/-- C3: when describe and createInstance succeed, `use_plugin` ends with cook,
destroyInstance, the release of the instance and the release of the
descriptor, in this order, whatever statuses `sk` and `sx` cook and
destroyInstance answer (Failed, ErrMemory and ErrFatal included): each of cook
and destroyInstance is dispatched once, and the instance and the descriptor
are each allocated once, torn down once and freed once. -/
theorem use_plugin_teardown_after_cook (registry : PluginRegistry) (i : Nat) (s : HostState)
    (r : Bool × PluginRegistry × HostState) (hu : use_plugin registry i s = some r)
    (id : String) (d inst : Ptr) (sd sc : OfxStatus)
    (hd : Event.mainEntry id OfxAction.Describe d sd ∈ newEvents s r.2.2)
    (hdok : describeFails sd = false)
    (hc : Event.mainEntry id OfxAction.CreateInstance inst sc ∈ newEvents s r.2.2)
    (hcok : createFails sc = false) :
    ∃ pre sk sx,
      newEvents s r.2.2 = pre ++
        [Event.mainEntry id OfxAction.Cook inst sk,
         Event.mainEntry id OfxAction.DestroyInstance inst sx,
         Event.free_mesh_effect inst, Event.free_array inst,
         Event.free_mesh_effect d, Event.free_array d] ∧
      dispatchCount OfxAction.Cook (newEvents s r.2.2) = 1 ∧
      dispatchCount OfxAction.DestroyInstance (newEvents s r.2.2) = 1 ∧
      mallocCount inst (newEvents s r.2.2) = 1 ∧ freeCount inst (newEvents s r.2.2) = 1 ∧
      (newEvents s r.2.2).count (Event.free_mesh_effect inst) = 1 ∧
      mallocCount d (newEvents s r.2.2) = 1 ∧ freeCount d (newEvents s r.2.2) = 1 ∧
      (newEvents s r.2.2).count (Event.free_mesh_effect d) = 1 ∧
      d ≠ inst := by
  have _ := hdok
  obtain ⟨P, L, pid, hq, hn, hL⟩ := use_plugin_cases registry i s r hu
  rw [hn] at hd hc ⊢
  have hd2 := mem_quietPrefix_append hq (by decide) hd
  have hc2 := mem_quietPrefix_append hq (by decide) hc
  obtain ⟨q1, q2, q3, q4, -⟩ := hq
  rcases hL with hL | ⟨sd1, h1, hL⟩ | ⟨sd1, sc1, h1, h2, hL⟩ | ⟨sd1, sc1, sk1, sx1, h1, h2, hL⟩ <;>
    subst hL <;> simp at hd2 hc2
  · obtain ⟨-, -, h3⟩ := hc2
    rw [h3] at hcok; rw [hcok] at h2; cases h2
  · obtain ⟨e1, e2, e3⟩ := hd2
    obtain ⟨-, e5, e6⟩ := hc2
    subst e1 e2 e5
    have m1 := q3 (hostBrk s + 1) (by omega)
    have m2 := q3 (hostBrk s + 2) (by omega)
    have f1 := q2 (hostBrk s + 1)
    have f2 := q2 (hostBrk s + 2)
    have k1 := q1 OfxAction.Cook (by decide)
    have k2 := q1 OfxAction.DestroyInstance (by decide)
    have g1 : List.count (Event.free_mesh_effect (hostBrk s + 1)) P = 0 :=
      List.count_eq_zero.2 (q4 _)
    have g2 : List.count (Event.free_mesh_effect (hostBrk s + 2)) P = 0 :=
      List.count_eq_zero.2 (q4 _)
    simp only [mallocCount, freeCount, dispatchCount] at m1 m2 f1 f2 k1 k2 ⊢
    refine ⟨P ++ [Event.malloc_array (hostBrk s + 1) "mesh effect descriptor",
        Event.init_mesh_effect (hostBrk s + 1),
        Event.mainEntry id OfxAction.Describe (hostBrk s + 1) sd1,
        Event.malloc_array (hostBrk s + 2) "mesh effect descriptor",
        Event.deep_copy_mesh_effect (hostBrk s + 2) (hostBrk s + 1),
        Event.mainEntry id OfxAction.CreateInstance (hostBrk s + 2) sc1], sk1, sx1,
      by simp, ?_, ?_, ?_, ?_, ?_, ?_, ?_, ?_, by simp⟩ <;>
    simp [List.countP_append, List.count_append, m1, m2, f1, f2, k1, k2, g1, g2,
      Event.isMalloc, Event.isDispatch]

theorem use_plugin_teardown_after_cook_witness :
    use_plugin (scriptedRegistry OfxStatus.OK OfxStatus.OK OfxStatus.OK OfxStatus.Failed) 0
      HostState.init = some cookFailedRun ∧
    Event.mainEntry "scripted" OfxAction.Describe 3 OfxStatus.OK ∈
      newEvents HostState.init cookFailedRun.2.2 ∧
    describeFails OfxStatus.OK = false ∧
    Event.mainEntry "scripted" OfxAction.CreateInstance 4 OfxStatus.OK ∈
      newEvents HostState.init cookFailedRun.2.2 ∧
    createFails OfxStatus.OK = false ∧
    Event.mainEntry "scripted" OfxAction.Cook 4 OfxStatus.Failed ∈
      newEvents HostState.init cookFailedRun.2.2 ∧
    dispatchCount OfxAction.DestroyInstance (newEvents HostState.init cookFailedRun.2.2) = 1 ∧
    freeCount 4 (newEvents HostState.init cookFailedRun.2.2) = 1 ∧
    freeCount 3 (newEvents HostState.init cookFailedRun.2.2) = 1 := by
  obtain ⟨_, _, _, _, _, h3, _, h5, _, _, h8, _, _⟩ :=
    use_plugin_teardown_after_cook
      (scriptedRegistry OfxStatus.OK OfxStatus.OK OfxStatus.OK OfxStatus.Failed) 0
      HostState.init cookFailedRun rfl "scripted" 3 4 OfxStatus.OK OfxStatus.OK
      (by decide) (by decide) (by decide) (by decide)
  exact ⟨rfl, by decide, by decide, by decide, by decide, by decide, h3, h5, h8⟩

/-- C2 at a failing input: a plugin that loads and then answers describe with
`ErrMemory`, used on a fresh host.  The descriptor is allocated at address 3;
the call returns `true`, and its events contain no `free_mesh_effect 3` and no
`free_array 3`. -/
theorem use_plugin_describe_failure_not_released :
    ∃ r, use_plugin (scriptedRegistry OfxStatus.OK OfxStatus.ErrMemory OfxStatus.OK OfxStatus.OK)
        0 HostState.init = some r ∧
      r.1 = true ∧
      newEvents HostState.init r.2.2 =
        [Event.malloc_array 1 "global host",
         Event.malloc_array 2 "global host properties",
         Event.init_properties 2,
         Event.propSetPointer 2 "kOfxHostPropBeforeMeshReleaseCb",
         Event.propSetPointer 2 "kOfxHostPropBeforeMeshGetCb",
         Event.setHost "scripted" 1,
         Event.mainEntry "scripted" OfxAction.Load 0 OfxStatus.OK,
         Event.malloc_array 3 "mesh effect descriptor",
         Event.init_mesh_effect 3,
         Event.mainEntry "scripted" OfxAction.Describe 3 OfxStatus.ErrMemory] ∧
      mallocCount 3 (newEvents HostState.init r.2.2) = 1 ∧
      freeCount 3 (newEvents HostState.init r.2.2) = 0 ∧
      Event.free_mesh_effect 3 ∉ newEvents HostState.init r.2.2 :=
  ⟨_, rfl, rfl, by decide, by decide, by decide, by decide⟩

/-- Every `use_plugin` call in which createInstance reports a failure status
leaves the instance it allocated without a matching free, and releases the
descriptor once. -/
theorem create_failure_leaks_instance (registry : PluginRegistry) (i : Nat) (s : HostState)
    (r : Bool × PluginRegistry × HostState) (hu : use_plugin registry i s = some r)
    (id : String) (inst : Ptr) (sc : OfxStatus)
    (hc : Event.mainEntry id OfxAction.CreateInstance inst sc ∈ newEvents s r.2.2)
    (hf : createFails sc = true) :
    mallocCount inst (newEvents s r.2.2) = 1 ∧ freeCount inst (newEvents s r.2.2) = 0 ∧
    Event.free_mesh_effect inst ∉ newEvents s r.2.2 ∧
    ∃ d, d ≠ inst ∧ Event.deep_copy_mesh_effect inst d ∈ newEvents s r.2.2 ∧
      mallocCount d (newEvents s r.2.2) = 1 ∧ freeCount d (newEvents s r.2.2) = 1 := by
  obtain ⟨P, L, pid, hq, hn, hL⟩ := use_plugin_cases registry i s r hu
  rw [hn] at hc ⊢
  have hc2 := mem_quietPrefix_append hq (by decide) hc
  obtain ⟨-, q2, q3, q4, -⟩ := hq
  rcases hL with hL | ⟨sd1, h1, hL⟩ | ⟨sd1, sc1, h1, h2, hL⟩ | ⟨sd1, sc1, sk1, sx1, h1, h2, hL⟩ <;>
    subst hL <;> simp at hc2
  · obtain ⟨-, rfl, -⟩ := hc2
    have m1 := q3 (hostBrk s + 1) (by omega)
    have m2 := q3 (hostBrk s + 2) (by omega)
    have f1 := q2 (hostBrk s + 1)
    have f2 := q2 (hostBrk s + 2)
    simp only [mallocCount, freeCount] at m1 m2 f1 f2 ⊢
    refine ⟨?_, ?_, ?_, hostBrk s + 1, by simp, by simp, ?_, ?_⟩ <;>
    simp [List.countP_append, List.count_append, m1, m2, f1, f2, q4, Event.isMalloc]
  · obtain ⟨-, -, h3⟩ := hc2
    rw [h3] at hf; rw [hf] at h2; cases h2

/-- C4 at a failing input: a plugin that loads, describes and then answers
createInstance with `Failed`, used on a fresh host.  The descriptor is at
address 3 and is released once; the instance is allocated at address 4 and the
call's events contain no `free_mesh_effect 4` and no `free_array 4`. -/
theorem use_plugin_create_failure_instance_not_freed :
    ∃ r, use_plugin (scriptedRegistry OfxStatus.OK OfxStatus.OK OfxStatus.Failed OfxStatus.OK)
        0 HostState.init = some r ∧
      r.1 = true ∧
      newEvents HostState.init r.2.2 =
        [Event.malloc_array 1 "global host",
         Event.malloc_array 2 "global host properties",
         Event.init_properties 2,
         Event.propSetPointer 2 "kOfxHostPropBeforeMeshReleaseCb",
         Event.propSetPointer 2 "kOfxHostPropBeforeMeshGetCb",
         Event.setHost "scripted" 1,
         Event.mainEntry "scripted" OfxAction.Load 0 OfxStatus.OK,
         Event.malloc_array 3 "mesh effect descriptor",
         Event.init_mesh_effect 3,
         Event.mainEntry "scripted" OfxAction.Describe 3 OfxStatus.OK,
         Event.malloc_array 4 "mesh effect descriptor",
         Event.deep_copy_mesh_effect 4 3,
         Event.mainEntry "scripted" OfxAction.CreateInstance 4 OfxStatus.Failed,
         Event.free_mesh_effect 3,
         Event.free_array 3] ∧
      mallocCount 4 (newEvents HostState.init r.2.2) = 1 ∧
      freeCount 4 (newEvents HostState.init r.2.2) = 0 ∧
      Event.free_mesh_effect 4 ∉ newEvents HostState.init r.2.2 ∧
      mallocCount 3 (newEvents HostState.init r.2.2) = 1 ∧
      freeCount 3 (newEvents HostState.init r.2.2) = 1 :=
  ⟨_, rfl, rfl, by decide, by decide, by decide, by decide, by decide, by decide⟩

theorem actionEvents_no_load (id : String) (d inst : Ptr) (sd sc sk sx : OfxStatus) :
    dispatchCount OfxAction.Load (actionEvents id d inst sd sc sk sx) = 0 ∧
    setHostCount (actionEvents id d inst sd sc sk sx) = 0 := by
  unfold actionEvents dispatchCount setHostCount
  constructor <;> split_ifs <;> simp [Event.isDispatch, Event.isSetHost]

theorem hostEvents_no_load (s : HostState) :
    dispatchCount OfxAction.Load (hostEvents s) = 0 ∧ setHostCount (hostEvents s) = 0 := by
  unfold hostEvents dispatchCount setHostCount
  constructor <;> split_ifs <;> simp [Event.isDispatch, Event.isSetHost]

theorem use_plugin_load_step (registry : PluginRegistry) (i : Nat) (s : HostState)
    (plugin : OfxPlugin) (st : OfxPluginStatus)
    (hp : registry.plugins[i]? = some plugin) (hs : registry.status[i]? = some st) :
    ∃ r st1, use_plugin registry i s = some r ∧
      r.2.1.plugins = registry.plugins ∧ r.2.1.status[i]? = some st1 ∧
      r.2.2.trace = s.trace ++ newEvents s r.2.2 ∧
      (st ≠ OfxPluginStatus.OfxPluginStatNotLoaded →
        st1 = st ∧ dispatchCount OfxAction.Load (newEvents s r.2.2) = 0 ∧
        setHostCount (newEvents s r.2.2) = 0) ∧
      (st = OfxPluginStatus.OfxPluginStatNotLoaded →
        (st1 = OfxPluginStatus.OfxPluginStatOK ∨ st1 = OfxPluginStatus.OfxPluginStatError) ∧
        dispatchCount OfxAction.Load (newEvents s r.2.2) = 1 ∧
        setHostCount (newEvents s r.2.2) = 1) := by
  have hi : i < registry.status.length := by
    rcases Nat.lt_or_ge i registry.status.length with h | h
    · exact h
    · rw [List.getElem?_eq_none h] at hs; cases hs
  obtain ⟨sl, sd, sc, sk, sx, r, hr, -, hpl, hst, ht⟩ := use_plugin_shape registry i s plugin st hp hs
  have hn := newEvents_append s r.2.2 _ ht
  obtain ⟨a1, a2⟩ := actionEvents_no_load plugin.pluginIdentifier (hostBrk s + 1) (hostBrk s + 2)
    sd sc sk sx
  obtain ⟨b1, b2⟩ := hostEvents_no_load s
  simp only [dispatchCount, setHostCount] at a1 a2 b1 b2
  refine ⟨r, nextStatus st sl, hr, hpl, by simp [hst, hi], by rw [hn]; exact ht, ?_, ?_⟩
  · intro hne
    rw [hn]
    refine ⟨by simp [nextStatus, hne], ?_, ?_⟩ <;>
    · simp only [pluginEvents, dispatchCount, setHostCount, hne, if_false]
      split_ifs <;> simp [List.countP_append, a1, a2, b1, b2]
  · intro he
    rw [hn]
    refine ⟨?_, ?_, ?_⟩
    · unfold nextStatus
      simp only [he, if_true]
      split_ifs <;> simp
    all_goals
      simp only [pluginEvents, dispatchCount, setHostCount, he, if_true]
      split_ifs <;>
        simp [List.countP_append, a1, a2, b1, b2, List.countP_cons, Event.isDispatch,
          Event.isSetHost]

theorem use_plugin_load_order (registry : PluginRegistry) (i : Nat) (s : HostState)
    (plugin : OfxPlugin)
    (hp : registry.plugins[i]? = some plugin)
    (hs : registry.status[i]? = some OfxPluginStatus.OfxPluginStatNotLoaded)
    (r : Bool × PluginRegistry × HostState) (hu : use_plugin registry i s = some r) :
    ∃ pre post host sl, newEvents s r.2.2 =
      pre ++ Event.setHost plugin.pluginIdentifier host ::
        Event.mainEntry plugin.pluginIdentifier OfxAction.Load 0 sl :: post := by
  obtain ⟨sl, sd, sc, sk, sx, r1, hr, -, -, -, ht⟩ := use_plugin_shape registry i s plugin _ hp hs
  rw [hu] at hr
  cases hr
  have hn := newEvents_append s r.2.2 _ ht
  refine ⟨hostEvents s,
    (if loadFails sl then []
     else actionEvents plugin.pluginIdentifier (hostBrk s + 1) (hostBrk s + 2) sd sc sk sx),
    (getGlobalHost s).1, sl, ?_⟩
  rw [hn]
  simp only [pluginEvents, if_true, List.cons_append, List.nil_append]

theorem newEvents_trans (s t u : HostState) (h1 : t.trace = s.trace ++ newEvents s t)
    (h2 : u.trace = t.trace ++ newEvents t u) :
    u.trace = s.trace ++ newEvents s u ∧ newEvents s u = newEvents s t ++ newEvents t u := by
  have h3 : u.trace = s.trace ++ (newEvents s t ++ newEvents t u) := by
    rw [h2, h1, List.append_assoc]
  have h4 := newEvents_append s u _ h3
  exact ⟨by rw [h4]; exact h3, h4⟩

theorem use_plugin_repeat_inv (registry : PluginRegistry) (i : Nat) (s : HostState)
    (plugin : OfxPlugin) (st : OfxPluginStatus)
    (hp : registry.plugins[i]? = some plugin) (hs : registry.status[i]? = some st) (n : Nat) :
    ∃ rn sn stn, use_plugin_repeat registry i s n = some (rn, sn) ∧
      rn.plugins = registry.plugins ∧ rn.status[i]? = some stn ∧
      sn.trace = s.trace ++ newEvents s sn ∧
      dispatchCount OfxAction.Load (newEvents s sn) ≤ 1 ∧ setHostCount (newEvents s sn) ≤ 1 ∧
      (stn = OfxPluginStatus.OfxPluginStatNotLoaded →
        dispatchCount OfxAction.Load (newEvents s sn) = 0 ∧ setHostCount (newEvents s sn) = 0) := by
  induction n with
  | zero =>
    refine ⟨registry, s, st, rfl, rfl, hs, ?_⟩
    simp [newEvents, dispatchCount, setHostCount]
  | succ n ih =>
    obtain ⟨rn, sn, stn, h1, h2, h3, h4, h5, h6, h7⟩ := ih
    obtain ⟨r, st1, k1, k2, k3, k4, k5, k6⟩ := use_plugin_load_step rn i sn plugin stn
      (by rw [h2]; exact hp) h3
    obtain ⟨t1, t2⟩ := newEvents_trans s sn r.2.2 h4 k4
    refine ⟨r.2.1, r.2.2, st1, ?_, by rw [k2, h2], k3, t1, ?_⟩
    · simp [use_plugin_repeat, h1, k1]
    · rw [t2]
      simp only [dispatchCount, setHostCount, List.countP_append] at *
      by_cases hc : stn = OfxPluginStatus.OfxPluginStatNotLoaded
      · obtain ⟨c1, c2, c3⟩ := k6 hc
        obtain ⟨c4, c5⟩ := h7 hc
        refine ⟨by omega, by omega, ?_⟩
        intro hc2
        rcases c1 with c1 | c1 <;> rw [c1] at hc2 <;> cases hc2
      · obtain ⟨c1, c2, c3⟩ := k5 hc
        refine ⟨by omega, by omega, ?_⟩
        intro hc2
        rw [c1] at hc2
        exact absurd hc2 hc

/-- C5: the per-plugin status is a one-shot state machine.  For every number
`n` of earlier `use_plugin` calls on the same registry entry, the next call
returns; if it finds a status other than NotLoaded it leaves the status as it
is and dispatches neither `setHost` nor load; if it finds NotLoaded it leaves
OK or Error and dispatches `setHost` and then load, once each; and over all
`n + 1` calls `setHost` and load are dispatched at most once. -/
theorem use_plugin_status_one_shot (registry : PluginRegistry) (i : Nat) (s : HostState)
    (plugin : OfxPlugin) (st : OfxPluginStatus)
    (hp : registry.plugins[i]? = some plugin) (hs : registry.status[i]? = some st) (n : Nat) :
    ∃ rn sn stn r st1,
      use_plugin_repeat registry i s n = some (rn, sn) ∧ rn.status[i]? = some stn ∧
      use_plugin rn i sn = some r ∧ r.2.1.status[i]? = some st1 ∧
      use_plugin_repeat registry i s (n + 1) = some (r.2.1, r.2.2) ∧
      (stn ≠ OfxPluginStatus.OfxPluginStatNotLoaded →
        st1 = stn ∧ dispatchCount OfxAction.Load (newEvents sn r.2.2) = 0 ∧
        setHostCount (newEvents sn r.2.2) = 0) ∧
      (stn = OfxPluginStatus.OfxPluginStatNotLoaded →
        (st1 = OfxPluginStatus.OfxPluginStatOK ∨ st1 = OfxPluginStatus.OfxPluginStatError) ∧
        dispatchCount OfxAction.Load (newEvents sn r.2.2) = 1 ∧
        setHostCount (newEvents sn r.2.2) = 1 ∧
        ∃ pre post host sl, newEvents sn r.2.2 =
          pre ++ Event.setHost plugin.pluginIdentifier host ::
            Event.mainEntry plugin.pluginIdentifier OfxAction.Load 0 sl :: post) ∧
      dispatchCount OfxAction.Load (newEvents s r.2.2) ≤ 1 ∧
      setHostCount (newEvents s r.2.2) ≤ 1 := by
  obtain ⟨rn, sn, stn, h1, h2, h3, -, -, -, -⟩ := use_plugin_repeat_inv registry i s plugin st hp hs n
  obtain ⟨r, st1, k1, -, k3, -, k5, k6⟩ := use_plugin_load_step rn i sn plugin stn
    (by rw [h2]; exact hp) h3
  obtain ⟨rm, sm, stm, m1, -, -, -, m5, m6, -⟩ :=
    use_plugin_repeat_inv registry i s plugin st hp hs (n + 1)
  have hstep : use_plugin_repeat registry i s (n + 1) = some (r.2.1, r.2.2) := by
    simp [use_plugin_repeat, h1, k1]
  rw [hstep] at m1
  cases m1
  refine ⟨rn, sn, stn, r, st1, h1, h3, k1, k3, hstep, k5, ?_, m5, m6⟩
  intro he
  obtain ⟨e1, e2, e3⟩ := k6 he
  exact ⟨e1, e2, e3, use_plugin_load_order rn i sn plugin (by rw [h2]; exact hp)
    (by rw [← he]; exact h3) r k1⟩

theorem use_plugin_status_one_shot_witness :
    (scriptedRegistry OfxStatus.Failed OfxStatus.OK OfxStatus.OK OfxStatus.OK).plugins[0]? =
      some (scriptedPlugin OfxStatus.Failed OfxStatus.OK OfxStatus.OK OfxStatus.OK) ∧
    (scriptedRegistry OfxStatus.Failed OfxStatus.OK OfxStatus.OK OfxStatus.OK).status[0]? =
      some OfxPluginStatus.OfxPluginStatNotLoaded ∧
    ∃ rn sn r,
      use_plugin_repeat (scriptedRegistry OfxStatus.Failed OfxStatus.OK OfxStatus.OK OfxStatus.OK)
        0 HostState.init 3 = some (rn, sn) ∧
      use_plugin rn 0 sn = some r ∧
      dispatchCount OfxAction.Load (newEvents HostState.init r.2.2) ≤ 1 :=
  ⟨rfl, rfl,
    let ⟨rn, sn, _, r, _, h1, _, h3, _, _, _, _, h8, _⟩ :=
      use_plugin_status_one_shot
        (scriptedRegistry OfxStatus.Failed OfxStatus.OK OfxStatus.OK OfxStatus.OK) 0
        HostState.init (scriptedPlugin OfxStatus.Failed OfxStatus.OK OfxStatus.OK OfxStatus.OK)
        OfxPluginStatus.OfxPluginStatNotLoaded rfl rfl 3
    ⟨rn, sn, r, h1, h3, h8⟩⟩

/-! ## Theorems: parameters.cpp -/

/-! ### The heap -/

theorem Mem.read_zero (m : Mem) : m.read 0 = none := rfl

theorem Mem.read_succ (m : Mem) (q : Nat) : m.read (q + 1) = (m.cells[q]?).getD none := rfl

theorem Mem.read_le_length (m : Mem) (p : Nat) (o : Obj) (h : m.read p = some o) :
    1 ≤ p ∧ p ≤ m.cells.length := by
  rcases p with _ | q
  · simp [Mem.read_zero] at h
  · rw [Mem.read_succ] at h
    by_cases hq : q < m.cells.length
    · constructor <;> omega
    · rw [List.getElem?_eq_none (by omega)] at h
      simp at h

theorem Mem.read_alloc (m : Mem) (o : Obj) (p : Nat) :
    (m.alloc o).2.read p = if p = m.cells.length + 1 then some o else m.read p := by
  rcases p with _ | q
  · simp [Mem.read_zero]
  · simp only [Mem.read_succ, Mem.alloc]
    by_cases hq : q = m.cells.length
    · subst hq; simp
    · simp only [Nat.add_right_cancel_iff, hq, if_false]
      by_cases hlt : q < m.cells.length
      · rw [List.getElem?_append_left hlt]
      · rw [List.getElem?_eq_none (by simp; omega), List.getElem?_eq_none (by omega)]

theorem Mem.length_alloc (m : Mem) (o : Obj) :
    (m.alloc o).2.cells.length = m.cells.length + 1 := by
  simp [Mem.alloc]

theorem Mem.fst_alloc (m : Mem) (o : Obj) : (m.alloc o).1 = m.cells.length + 1 := rfl

theorem Mem.length_store (m : Mem) (p : Nat) (o : Obj) :
    (m.store p o).cells.length = m.cells.length := by
  rcases p with _ | q <;> simp [Mem.store]

theorem Mem.read_store (m : Mem) (p q : Nat) (o x : Obj) (h : m.read p = some x) :
    (m.store p o).read q = if q = p then some o else m.read q := by
  obtain ⟨h1, h2⟩ := m.read_le_length p x h
  rcases p with _ | p0
  · omega
  · rcases q with _ | q0
    · simp [Mem.read_zero]
    · simp only [Mem.read_succ, Mem.store, List.getElem?_set]
      by_cases hq : p0 = q0
      · subst hq
        have : p0 < m.cells.length := by omega
        simp [this]
      · have : ¬ q0 = p0 := fun h => hq h.symm
        simp [hq, this]

theorem Mem.free_eq (m : Mem) (p : Nat) (x : Obj) (h : m.read p = some x) :
    m.free_array p =
      some { cells := m.cells.set (p - 1) none, log := m.log ++ [MemEvent.free p] } := by
  rcases p with _ | p0
  · simp [Mem.read_zero] at h
  · simp [Mem.free_array, h]

theorem Mem.free_live (m : Mem) (p : Nat) (x : Obj) (h : m.read p = some x) :
    ∃ m1, m.free_array p = some m1 :=
  ⟨_, m.free_eq p x h⟩

theorem Mem.free_inv (m m1 : Mem) (p : Nat) (h : m.free_array p = some m1) :
    ∃ x, m.read p = some x := by
  rcases p with _ | p0
  · simp [Mem.free_array] at h
  · cases hr : m.read (p0 + 1) with
    | none => simp [Mem.free_array, hr] at h
    | some x => exact ⟨x, rfl⟩

theorem Mem.read_free (m m1 : Mem) (p q : Nat) (h : m.free_array p = some m1) :
    m1.read q = if q = p then none else m.read q := by
  obtain ⟨x, hr⟩ := m.free_inv m1 p h
  obtain ⟨h1, h2⟩ := m.read_le_length p x hr
  rw [m.free_eq p x hr] at h
  cases h
  rcases p with _ | p0
  · omega
  · rcases q with _ | q0
    · simp [Mem.read_zero]
    · simp only [Mem.read_succ, List.getElem?_set, Nat.add_sub_cancel]
      by_cases hq : p0 = q0
      · subst hq
        have : p0 < m.cells.length := by omega
        simp [this]
      · have : ¬ q0 = p0 := fun h => hq h.symm
        simp [hq, this]

theorem Mem.length_free (m m1 : Mem) (p : Nat) (h : m.free_array p = some m1) :
    m1.cells.length = m.cells.length := by
  obtain ⟨x, hr⟩ := m.free_inv m1 p h
  rw [m.free_eq p x hr] at h
  cases h
  simp

/-! ### Typed reads and writes -/

theorem Mem.readParam_eq (m : Mem) (p : Nat) (x : OfxParamStruct) :
    m.readParam p = some x ↔ m.read p = some (Obj.param x) := by
  unfold Mem.readParam
  cases h : m.read p with
  | none => simp
  | some o => cases o <;> simp

theorem Mem.readStr_eq (m : Mem) (p : Nat) (s : String) :
    m.readStr p = some s ↔ ∃ size, m.read p = some (Obj.chars size s) ∧ s.length < size := by
  unfold Mem.readStr
  cases h : m.read p with
  | none => simp
  | some o =>
    cases o with
    | chars size t =>
      by_cases hl : t.length < size
      · simp only [hl, if_true, Option.some.injEq, Obj.chars.injEq]
        constructor
        · rintro rfl; exact ⟨size, ⟨rfl, rfl⟩, hl⟩
        · rintro ⟨_, ⟨_, rfl⟩, _⟩; rfl
      · simp only [hl, if_false, Option.some.injEq, Obj.chars.injEq, false_iff, not_exists,
          not_and]
        constructor
        · intro h0; cases h0
        · rintro ⟨sz, ⟨rfl, rfl⟩, h2⟩
          exact absurd h2 hl
    | ptrs a => simp
    | param x => simp

theorem Mem.modifyParam_eq (m : Mem) (p : Nat) (f : OfxParamStruct → OfxParamStruct)
    (x : OfxParamStruct) (h : m.readParam p = some x) :
    m.modifyParam p f = some (m.store p (Obj.param (f x))) := by
  simp [Mem.modifyParam, h]

theorem Mem.strcpy_eq (m : Mem) (dst : Nat) (s old : String) (size : Nat)
    (h : m.read dst = some (Obj.chars size old)) (hs : s.length < size) :
    m.strcpy dst s = some (m.store dst (Obj.chars size s)) := by
  simp [Mem.strcpy, h, hs]

/-! ### Frames -/

theorem Mem.Extends.refl (m : Mem) (X : Nat) : Mem.Extends m m X :=
  ⟨Nat.le_refl _, fun _ _ _ h => h⟩

theorem Mem.Extends.alloc {m m1 : Mem} {X : Nat} (h : Mem.Extends m m1 X) (o : Obj) :
    Mem.Extends m (m1.alloc o).2 X := by
  refine ⟨by rw [Mem.length_alloc]; exact Nat.le_succ_of_le h.len, ?_⟩
  intro q hq x hx
  have h1 := h.keep q hq x hx
  have h2 := m1.read_le_length q x h1
  rw [Mem.read_alloc, if_neg (by omega)]
  exact h1

theorem Mem.Extends.store {m m1 : Mem} {X : Nat} (h : Mem.Extends m m1 X) (p : Nat) (o x : Obj)
    (hp : m1.read p = some x) (hfresh : m.read p = none ∨ p = X) :
    Mem.Extends m (m1.store p o) X := by
  refine ⟨by rw [Mem.length_store]; exact h.len, ?_⟩
  intro q hq y hy
  rw [Mem.read_store m1 p q o x hp]
  have hne : q ≠ p := by
    rintro rfl
    rcases hfresh with hf | hf
    · rw [hf] at hy; cases hy
    · exact hq hf
  rw [if_neg hne]
  exact h.keep q hq y hy

theorem Mem.Extends.free {m m1 m2 : Mem} {X : Nat} (h : Mem.Extends m m1 X) (p : Nat)
    (hf : m1.free_array p = some m2) (hfresh : m.read p = none ∨ p = X) :
    Mem.Extends m m2 X := by
  refine ⟨by rw [Mem.length_free m1 m2 p hf]; exact h.len, ?_⟩
  intro q hq y hy
  rw [Mem.read_free m1 m2 p q hf]
  have hne : q ≠ p := by
    rintro rfl
    rcases hfresh with hf | hf
    · rw [hf] at hy; cases hy
    · exact hq hf
  rw [if_neg hne]
  exact h.keep q hq y hy

theorem Mem.Extends.trans {m m1 m2 : Mem} {X Y : Nat} (h1 : Mem.Extends m m1 X)
    (h2 : Mem.Extends m1 m2 Y) (hY : m.read Y = none ∨ Y = X) : Mem.Extends m m2 X := by
  refine ⟨Nat.le_trans h1.len h2.len, ?_⟩
  intro q hq y hy
  have hne : q ≠ Y := by
    rintro rfl
    rcases hY with hf | hf
    · rw [hf] at hy; cases hy
    · exact hq hf
  exact h2.keep q hne y (h1.keep q hq y hy)

theorem Mem.Extends.readParam {m m1 : Mem} {X : Nat} (h : Mem.Extends m m1 X) {p : Nat}
    {x : OfxParamStruct} (hp : p ≠ X) (hx : m.readParam p = some x) :
    m1.readParam p = some x := by
  rw [Mem.readParam_eq] at hx ⊢
  exact h.keep p hp _ hx

theorem Mem.Extends.readStr {m m1 : Mem} {X : Nat} (h : Mem.Extends m m1 X) {p : Nat}
    {s : String} (hp : p ≠ X) (hx : m.readStr p = some s) :
    m1.readStr p = some s := by
  rw [Mem.readStr_eq] at hx ⊢
  obtain ⟨size, h1, h2⟩ := hx
  exact ⟨size, h.keep p hp _ h1, h2⟩

theorem Mem.readStr_ne_of_notChars {m : Mem} {X p : Nat} {s : String} (hX : m.notChars X)
    (hs : m.readStr p = some s) : p ≠ X := by
  rintro rfl
  rw [Mem.readStr_eq] at hs
  obtain ⟨size, h1, _⟩ := hs
  exact hX size s h1

theorem Mem.Extends.viewName {m m1 : Mem} {X : Nat} (h : Mem.Extends m m1 X)
    (hX : m.notChars X) {x : OfxParamStruct} {nm : Option String}
    (hv : m.viewName x = some nm) : m1.viewName x = some nm := by
  unfold Mem.viewName at hv ⊢
  by_cases h0 : x.name = 0
  · simpa [h0] using hv
  · simp only [h0, if_false] at hv ⊢
    cases hs : m.readStr x.name with
    | none => simp [hs] at hv
    | some s =>
      rw [h.readStr (Mem.readStr_ne_of_notChars hX hs) hs]
      simpa [hs] using hv

theorem Mem.Extends.viewString {m m1 : Mem} {X : Nat} (h : Mem.Extends m m1 X)
    (hX : m.notChars X) {x : OfxParamStruct} {str : Option String}
    (hv : m.viewString x = some str) : m1.viewString x = some str := by
  unfold Mem.viewString at hv ⊢
  by_cases h0 : x.type = ParamType.PARAM_TYPE_STRING
  · simp only [h0, if_true] at hv ⊢
    cases hs : m.readStr x.value0 with
    | none => simp [hs] at hv
    | some s =>
      rw [h.readStr (Mem.readStr_ne_of_notChars hX hs) hs]
      simpa [hs] using hv
  · simpa [h0] using hv

theorem Mem.viewParam_eq (m : Mem) (p : Nat) (v : ParamView) :
    m.viewParam p = some v ↔
      ∃ x nm str, m.readParam p = some x ∧ m.viewName x = some nm ∧ m.viewString x = some str ∧
        v = { name := nm, type := x.type,
              value0 := if x.type = ParamType.PARAM_TYPE_STRING then 0 else x.value0,
              value1 := x.value1, value2 := x.value2, value3 := x.value3,
              string := str, properties := x.properties } := by
  cases hx : m.readParam p with
  | none => simp [Mem.viewParam, hx]
  | some x =>
    cases hn : m.viewName x with
    | none => simp [Mem.viewParam, hx, hn]
    | some nm =>
      cases hs : m.viewString x with
      | none => simp [Mem.viewParam, hx, hn, hs]
      | some str =>
        simp only [Mem.viewParam, hx, hn, hs, Option.some.injEq]
        constructor
        · rintro rfl; exact ⟨x, nm, str, rfl, hn, hs, rfl⟩
        · rintro ⟨x1, nm1, str1, h1, h2, h3, h4⟩
          subst h1
          rw [hn] at h2; rw [hs] at h3
          cases h2; cases h3; exact h4.symm

theorem Mem.Extends.viewParam {m m1 : Mem} {X : Nat} (h : Mem.Extends m m1 X)
    (hX : m.notChars X) {p : Nat} {v : ParamView} (hp : p ≠ X)
    (hv : m.viewParam p = some v) : m1.viewParam p = some v := by
  rw [Mem.viewParam_eq] at hv ⊢
  obtain ⟨x, nm, str, h1, h2, h3, h4⟩ := hv
  exact ⟨x, nm, str, h.readParam hp h1, h.viewName hX h2, h.viewString hX h3, h4⟩

theorem Mem.viewList_cons (m : Mem) (p : Nat) (rest : List Ptr) (vs : List ParamView) :
    m.viewList (p :: rest) = some vs ↔
      ∃ v vr, m.viewParam p = some v ∧ m.viewList rest = some vr ∧ vs = v :: vr := by
  cases h1 : m.viewParam p with
  | none => simp [Mem.viewList, h1]
  | some v =>
    cases h2 : m.viewList rest with
    | none => simp [Mem.viewList, h1, h2]
    | some vr =>
      simp only [Mem.viewList, h1, h2, Option.some.injEq]
      constructor
      · rintro rfl; exact ⟨v, vr, rfl, rfl, rfl⟩
      · rintro ⟨_, _, rfl, rfl, rfl⟩; rfl

theorem Mem.Extends.viewList {m m1 : Mem} {X : Nat} (h : Mem.Extends m m1 X)
    (hX : m.notChars X) {a : List Ptr} {vs : List ParamView} (ha : ∀ p ∈ a, p ≠ X)
    (hv : m.viewList a = some vs) : m1.viewList a = some vs := by
  induction a generalizing vs with
  | nil => simpa [Mem.viewList] using hv
  | cons p rest ih =>
    rw [Mem.viewList_cons] at hv ⊢
    obtain ⟨v, vr, h1, h2, h3⟩ := hv
    exact ⟨v, vr, h.viewParam hX (ha p (List.mem_cons_self _ _)) h1,
      ih (fun q hq => ha q (List.mem_cons_of_mem _ hq)) h2, h3⟩

/-! ### Parameter sets in the heap -/

theorem Mem.setPtrs_eq (m : Mem) (set : OfxParamSetStruct) (a : List Ptr)
    (h : m.setPtrs set = some a) :
    (a.length : Int) = set.num_parameters ∧
    ((set.parameters = 0 ∧ a = []) ∨
     (set.parameters ≠ 0 ∧ m.read set.parameters = some (Obj.ptrs a))) := by
  unfold Mem.setPtrs at h
  by_cases h0 : set.parameters = 0
  · simp only [h0, if_true] at h
    by_cases h1 : set.num_parameters = 0
    · simp only [h1, if_true, Option.some.injEq] at h
      subst h
      simp [h0, h1]
    · simp [h1] at h
  · simp only [h0, if_false] at h
    cases hr : m.read set.parameters with
    | none => simp [hr] at h
    | some o =>
      cases o with
      | chars size s => simp [hr] at h
      | param x => simp [hr] at h
      | ptrs b =>
        simp only [hr] at h
        by_cases hl : (b.length : Int) = set.num_parameters
        · simp only [hl, if_true, Option.some.injEq] at h
          subst h
          exact ⟨hl, Or.inr ⟨h0, rfl⟩⟩
        · simp [hl] at h

theorem Mem.setPtrs_readPtrAt (m : Mem) (set : OfxParamSetStruct) (a : List Ptr)
    (h : m.setPtrs set = some a) (j : Nat) (hj : j < a.length) :
    m.readPtrAt set.parameters j = a[j]? := by
  obtain ⟨_, h1 | h1⟩ := m.setPtrs_eq set a h
  · rw [h1.2] at hj; simp at hj
  · simp [Mem.readPtrAt, h1.2]

theorem Mem.viewName_some (m : Mem) (x : OfxParamStruct) (s : String)
    (h : m.viewName x = some (some s)) : x.name ≠ 0 ∧ m.readStr x.name = some s := by
  unfold Mem.viewName at h
  by_cases h0 : x.name = 0
  · simp [h0] at h
  · simp only [h0, if_false] at h
    cases hs : m.readStr x.name with
    | none => simp [hs] at h
    | some t =>
      simp only [hs, Option.some.injEq] at h
      subst h
      exact ⟨h0, rfl⟩

theorem find_parameter_loop_spec (m : Mem) (this : OfxParamSetStruct) (param : String)
    (a : List Ptr)
    (hread : ∀ j, j < a.length → m.readPtrAt this.parameters j = a[j]?) :
    ∀ (suf : List Ptr) (vs : List ParamView) (i : Nat), a.drop i = suf →
      m.viewList suf = some vs → (∀ v ∈ vs, v.name ≠ none) →
      ∃ r, OfxParamSetStruct.find_parameter_loop m this param suf.length i = some r ∧
        ((r = -1 ∧ ∀ v ∈ vs, v.name ≠ some param) ∨
         (∃ k v, r = ((i + k : Nat) : Int) ∧ vs[k]? = some v ∧ v.name = some param ∧
            ∀ j w, j < k → vs[j]? = some w → w.name ≠ some param)) := by
  intro suf
  induction suf with
  | nil =>
    intro vs i _ hv _
    simp only [Mem.viewList, Option.some.injEq] at hv
    subst hv
    exact ⟨-1, rfl, Or.inl ⟨rfl, by simp⟩⟩
  | cons p rest ih =>
    intro vs i hdrop hv hnamed
    rw [Mem.viewList_cons] at hv
    obtain ⟨v, vr, h1, h2, h3⟩ := hv
    subst h3
    have hi : i < a.length := by
      by_contra hc
      rw [List.drop_eq_nil_of_le (by omega)] at hdrop
      cases hdrop
    have hai : a[i]? = some p := by
      have := List.getElem?_drop a i 0
      rw [hdrop] at this
      simpa using this.symm
    have hrest : a.drop (i + 1) = rest := by
      have : a.drop (i + 1) = (a.drop i).tail := by simp [List.tail_drop]
      rw [this, hdrop]; rfl
    rw [Mem.viewParam_eq] at h1
    obtain ⟨x, nm, str, hx, hnm, hstr, hveq⟩ := h1
    have hvn : v.name = nm := by rw [hveq]
    cases nm with
    | none => exact absurd hvn (hnamed v (List.mem_cons_self _ _))
    | some s =>
      obtain ⟨hx0, hxs⟩ := m.viewName_some x s hnm
      by_cases hs : s = param
      · refine ⟨(i : Int), ?_, Or.inr ⟨0, v, by simp, by simp, by rw [hvn, hs], ?_⟩⟩
        · simp [OfxParamSetStruct.find_parameter_loop, hread i hi, hai, hx, hxs, hs]
        · intro j w hj; omega
      · obtain ⟨r, hr, hcase⟩ := ih vr (i + 1) hrest h2
          (fun w hw => hnamed w (List.mem_cons_of_mem _ hw))
        refine ⟨r, ?_, ?_⟩
        · simp [OfxParamSetStruct.find_parameter_loop, hread i hi, hai, hx, hxs, hs, hr]
        · rcases hcase with ⟨hr1, hall⟩ | ⟨k, w, hk1, hk2, hk3, hk4⟩
          · refine Or.inl ⟨hr1, ?_⟩
            intro w hw
            rcases List.mem_cons.1 hw with hw | hw
            · rw [hw, hvn]; simpa using hs
            · exact hall w hw
          · refine Or.inr ⟨k + 1, w, by rw [hk1]; push_cast; ring, by simpa using hk2, hk3, ?_⟩
            intro j u hj hu
            rcases j with _ | j0
            · simp at hu; rw [← hu, hvn]; simpa using hs
            · exact hk4 j0 u (by omega) (by simpa using hu)

theorem Mem.viewList_length (m : Mem) (a : List Ptr) (vs : List ParamView)
    (h : m.viewList a = some vs) : vs.length = a.length := by
  induction a generalizing vs with
  | nil => simp only [Mem.viewList, Option.some.injEq] at h; subst h; rfl
  | cons p rest ih =>
    rw [Mem.viewList_cons] at h
    obtain ⟨v, vr, _, h2, h3⟩ := h
    subst h3
    simp [ih vr h2]

theorem Mem.viewSet_eq (m : Mem) (set : OfxParamSetStruct) (vs : List ParamView)
    (h : m.viewSet set = some vs) :
    ∃ a, m.setPtrs set = some a ∧ m.viewList a = some vs := by
  unfold Mem.viewSet at h
  cases ha : m.setPtrs set with
  | none => simp [ha] at h
  | some a => exact ⟨a, rfl, by simpa [ha] using h⟩

theorem find_parameter_spec (m : Mem) (P : OfxParamSetStruct) (s : String)
    (vs : List ParamView) (hv : m.viewSet P = some vs) (hn : ∀ v ∈ vs, v.name ≠ none) :
    ∃ r : Int, OfxParamSetStruct.find_parameter m P s = some r ∧
      (r = -1 ↔ ∀ v ∈ vs, v.name ≠ some s) ∧
      (r ≠ -1 → 0 ≤ r ∧ r < P.num_parameters ∧
        ∃ (k : Nat) (v : ParamView), r = (k : Int) ∧ vs[k]? = some v ∧ v.name = some s ∧
          ∀ (j : Nat) (w : ParamView), j < k → vs[j]? = some w → w.name ≠ some s) := by
  obtain ⟨a, ha, hva⟩ := m.viewSet_eq P vs hv
  have hlen := m.viewList_length a vs hva
  have hnum := (m.setPtrs_eq P a ha).1
  obtain ⟨r, hr, hcase⟩ := find_parameter_loop_spec m P s a (m.setPtrs_readPtrAt P a ha)
    a vs 0 (by simp) hva hn
  refine ⟨r, ?_, ?_, ?_⟩
  · unfold OfxParamSetStruct.find_parameter
    rw [← hnum]
    simpa using hr
  · rcases hcase with ⟨h1, h2⟩ | ⟨k, v, h1, h2, h3, _⟩
    · exact ⟨fun _ => h2, fun _ => h1⟩
    · constructor
      · intro hneg; rw [h1] at hneg; omega
      · intro hall
        have hmem : v ∈ vs := List.getElem?_mem h2
        exact absurd h3 (hall v hmem)
  · intro hne
    rcases hcase with ⟨h1, _⟩ | ⟨k, v, h1, h2, h3, h4⟩
    · exact absurd h1 hne
    · have hk : k < vs.length := by
        by_contra hc
        rw [List.getElem?_eq_none (by omega)] at h2
        cases h2
      refine ⟨by rw [h1]; omega, by rw [h1, ← hnum, ← hlen]; omega, k, v, ?_, h2, h3, h4⟩
      rw [h1]; simp

/-! ### append_parameters -/

theorem Mem.writePtrAt_eq (m : Mem) (arr i q : Nat) (l : List Ptr)
    (h : m.read arr = some (Obj.ptrs l)) (hi : i < l.length) :
    m.writePtrAt arr i q = some (m.store arr (Obj.ptrs (l.set i q))) := by
  simp [Mem.writePtrAt, h, hi]

theorem Mem.readPtrAt_eq (m : Mem) (arr i : Nat) (l : List Ptr)
    (h : m.read arr = some (Obj.ptrs l)) : m.readPtrAt arr i = l[i]? := by
  simp [Mem.readPtrAt, h]

theorem list_set_append_replicate (xs : List Ptr) (n : Nat) (q : Ptr) :
    (xs ++ List.replicate (n + 1) 0).set xs.length q = (xs ++ [q]) ++ List.replicate n 0 := by
  induction xs with
  | nil => simp [List.replicate_succ]
  | cons x rest ih => simpa using ih

/-- Copy phase of the loop of `append_parameters`: `n` iterations that all
take the branch `i < old_num_parameters`. -/
theorem append_parameters_loop_copy (a : List Ptr) (old new : Nat) (rest : Nat) :
    ∀ (n i : Nat) (cur : Mem) (xs : List Ptr),
      cur.read new = some (Obj.ptrs (xs ++ List.replicate (n + rest) 0)) →
      cur.read old = some (Obj.ptrs a) → new ≠ old →
      xs.length = i → i + n ≤ a.length →
      ∃ cur1, OfxParamSetStruct.append_parameters_loop (a.length : Int) old new n i cur =
          some cur1 ∧
        cur1.cells.length = cur.cells.length ∧
        cur1.read new = some (Obj.ptrs (xs ++ (a.drop i).take n ++ List.replicate rest 0)) ∧
        (∀ q, q ≠ new → cur1.read q = cur.read q) := by
  intro n
  induction n with
  | zero =>
    intro i cur xs hnew _ _ _ _
    exact ⟨cur, rfl, rfl, by simpa using hnew, fun _ _ => rfl⟩
  | succ n ih =>
    intro i cur xs hnew hold hne hlen hle
    subst hlen
    have hi : xs.length < a.length := by omega
    have hnew2 : cur.read new = some (Obj.ptrs (xs ++ List.replicate (n + rest + 1) 0)) := by
      have hx : n + 1 + rest = n + rest + 1 := by omega
      rw [hnew, hx]
    have hw := cur.writePtrAt_eq new xs.length a[xs.length] _ hnew2 (by simp)
    rw [list_set_append_replicate] at hw
    have hnew3 : (cur.store new (Obj.ptrs (xs ++ [a[xs.length]] ++
        List.replicate (n + rest) 0))).read new =
        some (Obj.ptrs (xs ++ [a[xs.length]] ++ List.replicate (n + rest) 0)) := by
      rw [Mem.read_store cur new new _ _ hnew, if_pos rfl]
    have hold3 : (cur.store new (Obj.ptrs (xs ++ [a[xs.length]] ++
        List.replicate (n + rest) 0))).read old = some (Obj.ptrs a) := by
      rw [Mem.read_store cur new old _ _ hnew, if_neg (Ne.symm hne)]
      exact hold
    obtain ⟨cur1, h1, h2, h3, h4⟩ := ih (xs.length + 1) _ (xs ++ [a[xs.length]]) hnew3 hold3 hne
      (by simp) (by omega)
    refine ⟨cur1, ?_, ?_, ?_, ?_⟩
    · have hlt : ((xs.length : Int) < (a.length : Int)) := by exact_mod_cast hi
      simp only [OfxParamSetStruct.append_parameters_loop, hlt, if_true]
      rw [Mem.readPtrAt_eq cur old xs.length a hold, List.getElem?_eq_getElem hi]
      simp only [Option.bind_eq_bind, Option.some_bind]
      rw [hw]
      simpa using h1
    · rw [h2, Mem.length_store]
    · rw [h3, List.drop_eq_getElem_cons hi, List.take_succ_cons]
      simp
    · intro q hq
      rw [h4 q hq, Mem.read_store cur new q _ _ hnew, if_neg hq]

/-- Allocation phase of the loop of `append_parameters`: `n` iterations that
all take the branch `new OfxParamStruct()`. -/
theorem append_parameters_loop_new (old_num : Int) (old new : Nat) :
    ∀ (n i : Nat) (cur : Mem) (xs : List Ptr),
      cur.read new = some (Obj.ptrs (xs ++ List.replicate n 0)) →
      xs.length = i → ¬ ((i : Int) < old_num) →
      ∃ cur1, OfxParamSetStruct.append_parameters_loop old_num old new n i cur = some cur1 ∧
        cur1.cells.length = cur.cells.length + n ∧
        cur1.read new = some (Obj.ptrs (xs ++ List.range' (cur.cells.length + 1) n)) ∧
        (∀ q, q ∈ List.range' (cur.cells.length + 1) n →
          cur1.read q = some (Obj.param new_OfxParamStruct)) ∧
        (∀ q, q ≠ new → q ≤ cur.cells.length → cur1.read q = cur.read q) := by
  intro n
  induction n with
  | zero =>
    intro i cur xs hnew _ _
    exact ⟨cur, rfl, rfl, by simpa using hnew, by simp, fun _ _ _ => rfl⟩
  | succ n ih =>
    intro i cur xs hnew hlen hge
    subst hlen
    obtain ⟨hn1, hn2⟩ := cur.read_le_length new _ hnew
    have hneq : new ≠ cur.cells.length + 1 := by omega
    have hnewA : (cur.alloc (Obj.param new_OfxParamStruct)).2.read new =
        some (Obj.ptrs (xs ++ List.replicate (n + 1) 0)) := by
      rw [Mem.read_alloc, if_neg hneq]; exact hnew
    have hw := (cur.alloc (Obj.param new_OfxParamStruct)).2.writePtrAt_eq new xs.length
      (cur.cells.length + 1) _ hnewA (by simp)
    rw [list_set_append_replicate] at hw
    have hnew3 : ((cur.alloc (Obj.param new_OfxParamStruct)).2.store new
        (Obj.ptrs (xs ++ [cur.cells.length + 1] ++ List.replicate n 0))).read new =
        some (Obj.ptrs (xs ++ [cur.cells.length + 1] ++ List.replicate n 0)) := by
      rw [Mem.read_store _ new new _ _ hnewA, if_pos rfl]
    have hge2 : ¬ (((xs.length + 1 : Nat) : Int) < old_num) := by push_cast; omega
    obtain ⟨cur1, h1, h2, h3, h4, h5⟩ := ih (xs.length + 1) _ (xs ++ [cur.cells.length + 1])
      hnew3 (by simp) hge2
    rw [Mem.length_store, Mem.length_alloc] at h2 h3 h4 h5
    refine ⟨cur1, ?_, ?_, ?_, ?_, ?_⟩
    · simp only [OfxParamSetStruct.append_parameters_loop, hge, if_false]
      simp only [Option.bind_eq_bind, Mem.fst_alloc]
      rw [hw]
      simpa using h1
    · rw [h2]; omega
    · rw [h3, List.range'_succ]
      simp
    · intro q hq
      rw [List.range'_succ] at hq
      rcases List.mem_cons.1 hq with hq | hq
      · subst hq
        rw [h5 _ (Ne.symm hneq) (by omega), Mem.read_store _ new _ _ _ hnewA,
          if_neg (Ne.symm hneq), Mem.read_alloc, if_pos rfl]
      · exact h4 q hq
    · intro q hq hle
      rw [h5 q hq (by omega), Mem.read_store _ new q _ _ hnewA, if_neg hq, Mem.read_alloc,
        if_neg (by omega)]

theorem append_parameters_loop_add (old_num : Int) (old new : Nat) :
    ∀ (n1 n2 i : Nat) (cur : Mem),
      OfxParamSetStruct.append_parameters_loop old_num old new (n1 + n2) i cur =
        (OfxParamSetStruct.append_parameters_loop old_num old new n1 i cur).bind
          (OfxParamSetStruct.append_parameters_loop old_num old new n2 (i + n1)) := by
  intro n1
  induction n1 with
  | zero =>
    intro n2 i cur
    simp [OfxParamSetStruct.append_parameters_loop]
  | succ n1 ih =>
    intro n2 i cur
    have hx : n1 + 1 + n2 = (n1 + n2) + 1 := by omega
    have hy : i + (n1 + 1) = i + 1 + n1 := by omega
    rw [hx, hy]
    simp only [OfxParamSetStruct.append_parameters_loop]
    split_ifs
    · cases h1 : cur.readPtrAt old i with
      | none => simp
      | some q =>
        cases h2 : cur.writePtrAt new i q with
        | none => simp [h2]
        | some m1 => simp [h2, ih]
    · cases h2 : (cur.alloc (Obj.param new_OfxParamStruct)).2.writePtrAt new i
          (cur.alloc (Obj.param new_OfxParamStruct)).1 with
      | none => simp [h2]
      | some m1 => simp [h2, ih]

theorem append_parameters_spec (m : Mem) (P : OfxParamSetStruct) (a : List Ptr) (c : Nat)
    (ha : m.setPtrs P = some a) :
    ∃ m1, OfxParamSetStruct.append_parameters m P (c : Int) =
        some (m1, { P with num_parameters := P.num_parameters + (c : Int),
                           parameters := m.cells.length + 1 }) ∧
      m1.cells.length = m.cells.length + 1 + c ∧
      m1.read (m.cells.length + 1) =
        some (Obj.ptrs (a ++ List.range' (m.cells.length + 2) c)) ∧
      (∀ q, q ∈ List.range' (m.cells.length + 2) c →
        m1.read q = some (Obj.param new_OfxParamStruct)) ∧
      (∀ q, q ≤ m.cells.length → q ≠ P.parameters → m1.read q = m.read q) ∧
      (P.parameters ≠ 0 → m1.read P.parameters = none) := by
  obtain ⟨hnum, hcase⟩ := m.setPtrs_eq P a ha
  have hnn : ¬ (P.num_parameters + (c : Int) < 0) := by omega
  have htn : (P.num_parameters + (c : Int)).toNat = a.length + c := by omega
  have hnew0 : (m.alloc (Obj.ptrs (List.replicate (a.length + c) 0))).2.read
      (m.cells.length + 1) = some (Obj.ptrs ([] ++ List.replicate (a.length + c) 0)) := by
    rw [Mem.read_alloc, if_pos rfl]; rfl
  unfold OfxParamSetStruct.append_parameters
  simp only [hnn, if_false, htn, Mem.fst_alloc]
  rcases hcase with ⟨hp0, ha0⟩ | ⟨hp0, hra⟩
  · -- the set had no array
    subst ha0
    have hnum0 : P.num_parameters = 0 := by simpa using hnum.symm
    simp only [List.length_nil, Nat.zero_add] at hnew0 ⊢
    obtain ⟨cur1, h1, h2, h3, h4, h5⟩ := append_parameters_loop_new P.num_parameters
      P.parameters (m.cells.length + 1) c 0 _ [] hnew0 rfl (by rw [hnum0]; simp)
    rw [Mem.length_alloc] at h2 h3 h4 h5
    refine ⟨cur1, ?_, ?_, ?_, ?_, ?_, ?_⟩
    · rw [hp0] at h1
      simp [h1, hp0]
    · rw [h2]
    · simpa using h3
    · exact h4
    · intro q hq _
      rw [h5 q (by omega) (by omega), Mem.read_alloc, if_neg (by omega)]
    · intro h; exact absurd hp0 h
  · -- the old array is copied, then freed
    obtain ⟨ho1, ho2⟩ := m.read_le_length _ _ hra
    have hne : m.cells.length + 1 ≠ P.parameters := by omega
    have hold0 : (m.alloc (Obj.ptrs (List.replicate (a.length + c) 0))).2.read P.parameters =
        some (Obj.ptrs a) := by
      rw [Mem.read_alloc, if_neg (by omega)]; exact hra
    obtain ⟨cur1, h1, h2, h3, h4⟩ := append_parameters_loop_copy a P.parameters
      (m.cells.length + 1) c a.length 0 _ [] hnew0 hold0 hne rfl (by omega)
    simp only [List.drop_zero, List.take_length, List.nil_append] at h3
    rw [Mem.length_alloc] at h2
    have h3b : cur1.read (m.cells.length + 1) = some (Obj.ptrs (a ++ List.replicate c 0)) := h3
    obtain ⟨cur2, k1, k2, k3, k4, k5⟩ := append_parameters_loop_new (a.length : Int)
      P.parameters (m.cells.length + 1) c a.length cur1 a h3b rfl (by omega)
    rw [h2] at k2 k3 k4 k5
    have hold2 : cur2.read P.parameters = some (Obj.ptrs a) := by
      rw [k5 _ (Ne.symm hne) (by omega), h4 _ (Ne.symm hne)]; exact hold0
    obtain ⟨m2, hfree⟩ := cur2.free_live P.parameters _ hold2
    refine ⟨m2, ?_, ?_, ?_, ?_, ?_, ?_⟩
    · rw [append_parameters_loop_add, ← hnum, h1]
      simp only [Option.some_bind, Nat.zero_add, k1, hp0, ne_eq, not_false_eq_true, if_true,
        hfree]
    · rw [Mem.length_free cur2 m2 _ hfree, k2]
    · rw [Mem.read_free cur2 m2 _ _ hfree, if_neg hne, k3]
    · intro q hq
      have hq2 : m.cells.length + 2 ≤ q := (List.mem_range'_1.1 hq).1
      rw [Mem.read_free cur2 m2 _ _ hfree, if_neg (by omega)]
      exact k4 q hq
    · intro q hq hqne
      rw [Mem.read_free cur2 m2 _ _ hfree, if_neg hqne, k5 q (by omega) (by omega),
        h4 q (by omega), Mem.read_alloc, if_neg (by omega)]
    · intro _
      rw [Mem.read_free cur2 m2 _ _ hfree, if_pos rfl]

theorem Mem.viewList_append (m : Mem) (l1 l2 : List Ptr) (v1 v2 : List ParamView)
    (h1 : m.viewList l1 = some v1) (h2 : m.viewList l2 = some v2) :
    m.viewList (l1 ++ l2) = some (v1 ++ v2) := by
  induction l1 generalizing v1 with
  | nil =>
    simp only [Mem.viewList, Option.some.injEq] at h1
    subst h1
    simpa using h2
  | cons p rest ih =>
    rw [Mem.viewList_cons] at h1
    obtain ⟨v, vr, k1, k2, k3⟩ := h1
    subst k3
    rw [List.cons_append, Mem.viewList_cons]
    exact ⟨v, vr ++ v2, k1, ih vr k2, rfl⟩

theorem Mem.viewParam_default (m : Mem) (q : Nat)
    (h : m.read q = some (Obj.param new_OfxParamStruct)) : m.viewParam q = some defaultView := by
  rw [Mem.viewParam_eq]
  exact ⟨new_OfxParamStruct, none, none, (m.readParam_eq q _).2 h, rfl, rfl, rfl⟩

theorem Mem.viewList_default (m : Mem) (l : List Ptr)
    (h : ∀ q, q ∈ l → m.read q = some (Obj.param new_OfxParamStruct)) :
    m.viewList l = some (List.replicate l.length defaultView) := by
  induction l with
  | nil => rfl
  | cons p rest ih =>
    rw [Mem.viewList_cons]
    exact ⟨defaultView, _, m.viewParam_default p (h p (List.mem_cons_self _ _)),
      ih (fun q hq => h q (List.mem_cons_of_mem _ hq)), rfl⟩

theorem Mem.viewList_mem_param (m : Mem) (a : List Ptr) (vs : List ParamView)
    (h : m.viewList a = some vs) (p : Nat) (hp : p ∈ a) :
    ∃ x, m.read p = some (Obj.param x) := by
  induction a generalizing vs with
  | nil => cases hp
  | cons q rest ih =>
    rw [Mem.viewList_cons] at h
    obtain ⟨v, vr, k1, k2, _⟩ := h
    rcases List.mem_cons.1 hp with hp | hp
    · subst hp
      rw [Mem.viewParam_eq] at k1
      obtain ⟨x, _, _, hx, _⟩ := k1
      exact ⟨x, (m.readParam_eq p x).1 hx⟩
    · exact ih vr k2 hp

/-- The array of a well-formed set is not a `char` array and is none of the
set's parameters. -/
theorem Mem.setPtrs_frame (m : Mem) (P : OfxParamSetStruct) (a : List Ptr)
    (vs : List ParamView) (ha : m.setPtrs P = some a) (hv : m.viewList a = some vs) :
    m.notChars P.parameters ∧ ∀ p, p ∈ a → p ≠ P.parameters := by
  obtain ⟨_, hcase⟩ := m.setPtrs_eq P a ha
  rcases hcase with ⟨hp0, ha0⟩ | ⟨hp0, hra⟩
  · refine ⟨?_, ?_⟩
    · intro size s; rw [hp0, Mem.read_zero]; simp
    · intro p hp; rw [ha0] at hp; cases hp
  · refine ⟨?_, ?_⟩
    · intro size s; rw [hra]; simp
    · intro p hp hpe
      obtain ⟨x, hx⟩ := m.viewList_mem_param a vs hv p hp
      rw [hpe, hra] at hx
      cases hx

/-- View-level effect of `append_parameters(c)` on a well-formed set: the
call returns, the old entries keep their addresses and their views, and `c`
default-constructed parameters follow. -/
theorem append_parameters_view (m : Mem) (P : OfxParamSetStruct) (a : List Ptr)
    (vs : List ParamView) (c : Nat) (ha : m.setPtrs P = some a)
    (hv : m.viewList a = some vs) :
    ∃ m1 P1, OfxParamSetStruct.append_parameters m P (c : Int) = some (m1, P1) ∧
      P1 = { P with num_parameters := P.num_parameters + (c : Int),
                    parameters := m.cells.length + 1 } ∧
      m1.cells.length = m.cells.length + 1 + c ∧
      m1.setPtrs P1 = some (a ++ List.range' (m.cells.length + 2) c) ∧
      m1.viewList (a ++ List.range' (m.cells.length + 2) c) =
        some (vs ++ List.replicate c defaultView) ∧
      (∀ q, q ∈ List.range' (m.cells.length + 2) c →
        m1.read q = some (Obj.param new_OfxParamStruct)) ∧
      Mem.Extends m m1 P.parameters := by
  obtain ⟨m1, h1, h2, h3, h4, h5, h6⟩ := append_parameters_spec m P a c ha
  obtain ⟨hnum, _⟩ := m.setPtrs_eq P a ha
  obtain ⟨hnc, hne⟩ := m.setPtrs_frame P a vs ha hv
  have hext : Mem.Extends m m1 P.parameters := by
    refine ⟨by omega, ?_⟩
    intro q hq o ho
    rw [h5 q (m.read_le_length q o ho).2 hq]
    exact ho
  refine ⟨m1, _, h1, rfl, h2, ?_, ?_, h4, hext⟩
  · simp only [Mem.setPtrs, Nat.add_one_ne_zero, if_false, h3]
    simp [hnum]
  · refine m1.viewList_append _ _ _ _ (hext.viewList hnc hne hv) ?_
    have := m1.viewList_default _ h4
    simpa using this

/-! ### ensure_parameter -/

theorem Mem.viewSet_of (m : Mem) (P : OfxParamSetStruct) (a : List Ptr) (vs : List ParamView)
    (ha : m.setPtrs P = some a) (hv : m.viewList a = some vs) : m.viewSet P = some vs := by
  simp [Mem.viewSet, ha, hv]

/-- C8: in a parameter set whose parameters all have names, `find_parameter`
returns; the result is -1 exactly when no parameter is named `s`; otherwise it
is an index `k` below the count such that parameter `k` is named `s` (the same
string) and no parameter before `k` is. -/
theorem find_parameter_first_match (m : Mem) (P : OfxParamSetStruct) (s : String)
    (vs : List ParamView) (hv : m.viewSet P = some vs) (hn : ∀ v ∈ vs, v.name ≠ none) :
    ∃ r : Int, OfxParamSetStruct.find_parameter m P s = some r ∧
      (r = -1 ↔ ∀ v ∈ vs, v.name ≠ some s) ∧
      (r ≠ -1 → 0 ≤ r ∧ r < P.num_parameters ∧
        ∃ (k : Nat) (v : ParamView), r = (k : Int) ∧ vs[k]? = some v ∧ v.name = some s ∧
          ∀ (j : Nat) (w : ParamView), j < k → vs[j]? = some w → w.name ≠ some s) :=
  find_parameter_spec m P s vs hv hn

/-! ### OfxParamStruct::deep_copy_from -/

theorem Mem.read_fresh (m : Mem) (q : Nat) (h : m.cells.length < q) : m.read q = none := by
  cases hx : m.read q with
  | none => rfl
  | some o => have := m.read_le_length q o hx; omega

theorem Mem.viewName_none (m : Mem) (x : OfxParamStruct) (h : m.viewName x = some none) :
    x.name = 0 := by
  unfold Mem.viewName at h
  by_cases h0 : x.name = 0
  · exact h0
  · simp only [h0, if_false] at h
    cases hs : m.readStr x.name with
    | none => simp [hs] at h
    | some t => simp [hs] at h

theorem deep_copy_name_spec (m : Mem) (this other : Nat) (t o : OfxParamStruct)
    (nm : Option String) (hthis : m.read this = some (Obj.param t))
    (hother : m.read other = some (Obj.param o)) (hne : this ≠ other)
    (hname : m.viewName o = some nm) :
    ∃ m1 b, OfxParamStruct.deep_copy_name m this other = some m1 ∧
      m1.read this = some (Obj.param { t with name := b }) ∧
      m1.viewName { t with name := b } = some nm ∧
      (b = 0 ∨ m.cells.length < b) ∧ Mem.Extends m m1 this := by
  have hro : m.readParam other = some o := (m.readParam_eq _ _).2 hother
  have hrt : m.readParam this = some t := (m.readParam_eq _ _).2 hthis
  -- this->name = other.name
  let mA := m.store this (Obj.param { t with name := o.name })
  have hmodA : m.modifyParam this (fun x => { x with name := o.name }) = some mA :=
    m.modifyParam_eq _ _ _ hrt
  have hthisA : mA.read this = some (Obj.param { t with name := o.name }) := by
    show (m.store _ _).read _ = _
    rw [Mem.read_store m _ _ _ _ hthis, if_pos rfl]
  have hotherA : mA.read other = some (Obj.param o) := by
    show (m.store _ _).read _ = _
    rw [Mem.read_store m _ _ _ _ hthis, if_neg (Ne.symm hne)]; exact hother
  have hextA : Mem.Extends m mA this := (Mem.Extends.refl m this).store _ _ _ hthis (Or.inr rfl)
  cases nm with
  | none =>
    have h0 := m.viewName_none o hname
    refine ⟨mA, 0, ?_, ?_, ?_, Or.inl rfl, hextA⟩
    · unfold OfxParamStruct.deep_copy_name
      simp only [hro, Option.bind_eq_bind, Option.some_bind, hmodA,
        (mA.readParam_eq _ _).2 hthisA]
      simp [h0]
    · rw [hthisA, h0]
    · simp [Mem.viewName]
  | some s =>
    obtain ⟨h0, hs⟩ := m.viewName_some o s hname
    obtain ⟨size, hbuf, hsz⟩ := (m.readStr_eq _ _).1 hs
    have hbne : o.name ≠ this := by
      intro hc; rw [hc, hthis] at hbuf; cases hbuf
    have hbufA : mA.read o.name = some (Obj.chars size s) := by
      show (m.store _ _).read _ = _
      rw [Mem.read_store m _ _ _ _ hthis, if_neg hbne]; exact hbuf
    have hsA : mA.readStr o.name = some s := (mA.readStr_eq _ _).2 ⟨size, hbufA, hsz⟩
    have hlenA : mA.cells.length = m.cells.length := Mem.length_store _ _ _
    obtain ⟨ht1, ht2⟩ := m.read_le_length _ _ hthis
    obtain ⟨ho1, ho2⟩ := m.read_le_length _ _ hother
    obtain ⟨hb1, hb2⟩ := m.read_le_length _ _ hbuf
    -- this->name = malloc_array(...)
    let mB := (mA.alloc (Obj.chars (s.length + 1) "")).2
    have hthisB : mB.read this = some (Obj.param { t with name := o.name }) := by
      show (mA.alloc _).2.read _ = _
      rw [Mem.read_alloc, if_neg (by omega)]; exact hthisA
    let mC := mB.store this (Obj.param { t with name := m.cells.length + 1 })
    have hmodC : mB.modifyParam this (fun x => { x with name := m.cells.length + 1 }) = some mC :=
      mB.modifyParam_eq this _ { t with name := o.name } ((mB.readParam_eq _ _).2 hthisB)
    have hthisC : mC.read this = some (Obj.param { t with name := m.cells.length + 1 }) := by
      show (mB.store _ _).read _ = _
      rw [Mem.read_store mB _ _ _ _ hthisB, if_pos rfl]
    have hotherC : mC.read other = some (Obj.param o) := by
      show ((mA.alloc _).2.store _ _).read _ = _
      rw [Mem.read_store mB _ _ _ _ hthisB, if_neg (Ne.symm hne), Mem.read_alloc,
        if_neg (by omega)]
      exact hotherA
    have hbufC : mC.read o.name = some (Obj.chars size s) := by
      show ((mA.alloc _).2.store _ _).read _ = _
      rw [Mem.read_store mB _ _ _ _ hthisB, if_neg hbne, Mem.read_alloc, if_neg (by omega)]
      exact hbufA
    have hnewC : mC.read (m.cells.length + 1) = some (Obj.chars (s.length + 1) "") := by
      show ((mA.alloc _).2.store _ _).read _ = _
      rw [Mem.read_store mB _ _ _ _ hthisB, if_neg (by omega), Mem.read_alloc,
        if_pos (by omega)]
    -- strcpy(this->name, other.name)
    let mD := mC.store (m.cells.length + 1) (Obj.chars (s.length + 1) s)
    have hcpy : mC.strcpy (m.cells.length + 1) s = some mD :=
      mC.strcpy_eq _ s "" _ hnewC (Nat.lt_succ_self _)
    have hthisD : mD.read this = some (Obj.param { t with name := m.cells.length + 1 }) := by
      show (mC.store _ _).read _ = _
      rw [Mem.read_store mC _ _ _ _ hnewC, if_neg (by omega)]; exact hthisC
    have hnewD : mD.read (m.cells.length + 1) = some (Obj.chars (s.length + 1) s) := by
      show (mC.store _ _).read _ = _
      rw [Mem.read_store mC _ _ _ _ hnewC, if_pos rfl]
    have hextD : Mem.Extends m mD this :=
      ((hextA.alloc _).store _ _ _ hthisB (Or.inr rfl)).store _ _ _ hnewC
        (Or.inl (m.read_fresh _ (by omega)))
    refine ⟨mD, m.cells.length + 1, ?_, hthisD, ?_, Or.inr (by omega), hextD⟩
    · unfold OfxParamStruct.deep_copy_name
      simp only [hro, Option.bind_eq_bind, Option.some_bind, hmodA,
        (mA.readParam_eq _ _).2 hthisA, (mA.readParam_eq _ _).2 hotherA, hsA, ne_eq, h0,
        not_false_eq_true, if_true, Mem.fst_alloc, hlenA]
      show (mB.modifyParam this _).bind _ = _
      rw [hmodC]
      simp only [Option.some_bind, (mC.readParam_eq _ _).2 hthisC,
        (mC.readParam_eq _ _).2 hotherC, (mC.readStr_eq _ _).2 ⟨size, hbufC, hsz⟩, hcpy]
    · have : mD.readStr (m.cells.length + 1) = some s :=
        (mD.readStr_eq _ _).2 ⟨_, hnewD, Nat.lt_succ_self _⟩
      simp [Mem.viewName, this]

theorem deep_copy_value_spec (m : Mem) (this other : Nat) (t o : OfxParamStruct)
    (hthis : m.read this = some (Obj.param t)) (hother : m.read other = some (Obj.param o)) :
    OfxParamStruct.deep_copy_value m this other =
      some (m.store this (Obj.param
        { t with type := o.type, value0 := o.value0, value1 := o.value1, value2 := o.value2,
                 value3 := o.value3 })) := by
  unfold OfxParamStruct.deep_copy_value
  simp only [(m.readParam_eq _ _).2 hother, Option.bind_eq_bind, Option.some_bind]
  exact m.modifyParam_eq _ _ _ ((m.readParam_eq _ _).2 hthis)

theorem deep_copy_properties_spec (m : Mem) (this other : Nat) (t o : OfxParamStruct)
    (hthis : m.read this = some (Obj.param t)) (hother : m.read other = some (Obj.param o)) :
    OfxParamStruct.deep_copy_properties m this other =
      some (m.store this (Obj.param { t with properties := o.properties })) := by
  unfold OfxParamStruct.deep_copy_properties
  simp only [(m.readParam_eq _ _).2 hother, Option.bind_eq_bind, Option.some_bind]
  exact m.modifyParam_eq _ _ _ ((m.readParam_eq _ _).2 hthis)

/-- The method `realloc_string` on a parameter whose string pointer is null:
a fresh buffer holding the empty string. -/
theorem realloc_string_null (m : Mem) (this size : Nat) (x : OfxParamStruct)
    (hthis : m.read this = some (Obj.param x)) (h0 : x.value0 = 0) (hsize : 0 < size) :
    ∃ m1, OfxParamStruct.realloc_string m this size = some m1 ∧
      m1.cells.length = m.cells.length + 1 ∧
      m1.read this = some (Obj.param { x with value0 := m.cells.length + 1 }) ∧
      m1.read (m.cells.length + 1) = some (Obj.chars size "") ∧
      (∀ q, q ≠ this → q ≤ m.cells.length → m1.read q = m.read q) := by
  obtain ⟨ht1, ht2⟩ := m.read_le_length _ _ hthis
  let mB := (m.alloc (Obj.chars size "")).2
  have hthisB : mB.read this = some (Obj.param x) := by
    show (m.alloc _).2.read _ = _
    rw [Mem.read_alloc, if_neg (by omega)]; exact hthis
  let mC := mB.store this (Obj.param { x with value0 := m.cells.length + 1 })
  have hmodC : mB.modifyParam this (fun x => { x with value0 := m.cells.length + 1 }) = some mC :=
    mB.modifyParam_eq this _ x ((mB.readParam_eq _ _).2 hthisB)
  have hthisC : mC.read this = some (Obj.param { x with value0 := m.cells.length + 1 }) := by
    show (mB.store _ _).read _ = _
    rw [Mem.read_store mB _ _ _ _ hthisB, if_pos rfl]
  have hnewC : mC.read (m.cells.length + 1) = some (Obj.chars size "") := by
    show ((m.alloc _).2.store _ _).read _ = _
    rw [Mem.read_store mB _ _ _ _ hthisB, if_neg (by omega), Mem.read_alloc, if_pos rfl]
  let mD := mC.store (m.cells.length + 1) (Obj.chars size "")
  have hcpy : mC.strcpy (m.cells.length + 1) "" = some mD :=
    mC.strcpy_eq _ "" "" _ hnewC (by simpa using hsize)
  refine ⟨mD, ?_, ?_, ?_, ?_, ?_⟩
  · unfold OfxParamStruct.realloc_string
    simp only [(m.readParam_eq _ _).2 hthis, Option.bind_eq_bind, Option.some_bind, h0, ne_eq,
      not_true_eq_false, if_false, Mem.fst_alloc]
    show (mB.modifyParam this _).bind _ = _
    rw [hmodC]
    simp only [Option.some_bind, (mC.readParam_eq _ _).2 hthisC, hcpy]
  · show ((mB.store _ _).store _ _).cells.length = _
    rw [Mem.length_store, Mem.length_store]
    exact Mem.length_alloc _ _
  · show (mC.store _ _).read _ = _
    rw [Mem.read_store mC _ _ _ _ hnewC, if_neg (by omega)]; exact hthisC
  · show (mC.store _ _).read _ = _
    rw [Mem.read_store mC _ _ _ _ hnewC, if_pos rfl]
  · intro q hq hle
    show (((m.alloc _).2.store _ _).store _ _).read _ = _
    rw [Mem.read_store mC _ _ _ _ hnewC, if_neg (by omega), Mem.read_store mB _ _ _ _ hthisB,
      if_neg hq, Mem.read_alloc, if_neg (by omega)]

theorem deep_copy_string_spec (m : Mem) (this other : Nat) (t o : OfxParamStruct)
    (str : Option String) (hthis : m.read this = some (Obj.param t))
    (hother : m.read other = some (Obj.param o)) (hne : this ≠ other)
    (htype : t.type = o.type) (hstr : m.viewString o = some str) :
    ∃ m1 b, OfxParamStruct.deep_copy_string m this other = some m1 ∧
      m1.read this = some (Obj.param { t with value0 := b }) ∧
      m1.viewString { t with value0 := b } = some str ∧
      (t.type = ParamType.PARAM_TYPE_STRING → m.cells.length < b) ∧
      (t.type ≠ ParamType.PARAM_TYPE_STRING → b = t.value0) ∧
      Mem.Extends m m1 this := by
  by_cases hty : t.type = ParamType.PARAM_TYPE_STRING
  · have htyo : o.type = ParamType.PARAM_TYPE_STRING := by rw [← htype]; exact hty
    -- the source buffer
    have hsv : ∃ sv, m.readStr o.value0 = some sv ∧ str = some sv := by
      unfold Mem.viewString at hstr
      simp only [htyo, if_true] at hstr
      cases hs : m.readStr o.value0 with
      | none => simp [hs] at hstr
      | some sv => exact ⟨sv, rfl, by simpa [hs] using hstr.symm⟩
    obtain ⟨sv, hsv, hstreq⟩ := hsv
    obtain ⟨size, hbuf, hsz⟩ := (m.readStr_eq _ _).1 hsv
    have hbne : o.value0 ≠ this := by
      intro hc; rw [hc, hthis] at hbuf; cases hbuf
    obtain ⟨ht1, ht2⟩ := m.read_le_length _ _ hthis
    obtain ⟨ho1, ho2⟩ := m.read_le_length _ _ hother
    obtain ⟨hb1, hb2⟩ := m.read_le_length _ _ hbuf
    -- this->value[0].as_char = NULL
    let mA := m.store this (Obj.param { t with value0 := 0 })
    have hmodA : m.modifyParam this (fun x => { x with value0 := 0 }) = some mA :=
      m.modifyParam_eq _ _ _ ((m.readParam_eq _ _).2 hthis)
    have hthisA : mA.read this = some (Obj.param { t with value0 := 0 }) := by
      show (m.store _ _).read _ = _
      rw [Mem.read_store m _ _ _ _ hthis, if_pos rfl]
    have hlenA : mA.cells.length = m.cells.length := Mem.length_store _ _ _
    have hframeA : ∀ q, q ≠ this → mA.read q = m.read q := by
      intro q hq
      show (m.store _ _).read _ = _
      rw [Mem.read_store m _ _ _ _ hthis, if_neg hq]
    -- realloc_string(n + 1)
    obtain ⟨mB, hB1, hB2, hB3, hB4, hB5⟩ := realloc_string_null mA this (sv.length + 1) _ hthisA
      rfl (Nat.succ_pos _)
    rw [hlenA] at hB2 hB3 hB4 hB5
    have hotherB : mB.read other = some (Obj.param o) := by
      rw [hB5 _ (Ne.symm hne) (by omega), hframeA _ (Ne.symm hne)]; exact hother
    have hbufB : mB.read o.value0 = some (Obj.chars size sv) := by
      rw [hB5 _ hbne (by omega), hframeA _ hbne]; exact hbuf
    -- strcpy(this->value[0].as_char, other.value[0].as_char)
    let mC := mB.store (m.cells.length + 1) (Obj.chars (sv.length + 1) sv)
    have hcpy : mB.strcpy (m.cells.length + 1) sv = some mC :=
      mB.strcpy_eq _ sv "" _ hB4 (Nat.lt_succ_self _)
    have hthisC : mC.read this = some (Obj.param { t with value0 := m.cells.length + 1 }) := by
      show (mB.store _ _).read _ = _
      rw [Mem.read_store mB _ _ _ _ hB4, if_neg (by omega)]; exact hB3
    have hnewC : mC.read (m.cells.length + 1) = some (Obj.chars (sv.length + 1) sv) := by
      show (mB.store _ _).read _ = _
      rw [Mem.read_store mB _ _ _ _ hB4, if_pos rfl]
    have hextC : Mem.Extends m mC this := by
      refine ⟨by show (mB.store _ _).cells.length ≥ _; rw [Mem.length_store]; omega, ?_⟩
      intro q hq x hx
      obtain ⟨_, hq2⟩ := m.read_le_length _ _ hx
      show (mB.store _ _).read _ = _
      rw [Mem.read_store mB _ _ _ _ hB4, if_neg (by omega), hB5 _ hq (by omega), hframeA _ hq]
      exact hx
    refine ⟨mC, m.cells.length + 1, ?_, hthisC, ?_, fun _ => by omega,
      fun h => absurd hty h, hextC⟩
    · unfold OfxParamStruct.deep_copy_string
      simp only [(m.readParam_eq _ _).2 hthis, Option.bind_eq_bind, Option.some_bind, hty,
        if_true, (m.readParam_eq _ _).2 hother, hsv, hmodA, hB1,
        (mB.readParam_eq _ _).2 hB3, (mB.readParam_eq _ _).2 hotherB,
        (mB.readStr_eq _ _).2 ⟨size, hbufB, hsz⟩, hcpy]
    · have : mC.readStr (m.cells.length + 1) = some sv :=
        (mC.readStr_eq _ _).2 ⟨_, hnewC, Nat.lt_succ_self _⟩
      simp [Mem.viewString, hty, this, hstreq]
  · have htyo : ¬ o.type = ParamType.PARAM_TYPE_STRING := by rw [← htype]; exact hty
    have hstr0 : str = none := by
      unfold Mem.viewString at hstr
      simpa [htyo] using hstr.symm
    refine ⟨m, t.value0, ?_, ?_, ?_, fun h => absurd h hty, fun _ => rfl,
      Mem.Extends.refl m this⟩
    · unfold OfxParamStruct.deep_copy_string
      simp [(m.readParam_eq _ _).2 hthis, hty]
    · rw [hthis]
    · simp [Mem.viewString, hty, hstr0]

theorem Mem.notChars_param (m : Mem) (p : Nat) (x : OfxParamStruct)
    (h : m.read p = some (Obj.param x)) : m.notChars p := by
  intro size s hc
  rw [h] at hc
  cases hc

/-- The method `OfxParamStruct::deep_copy_from` from a well-formed parameter
into another live parameter: the call returns, the target gets the view of the
source, its buffers are new blocks, and no other block changes. -/
theorem param_deep_copy_spec (m : Mem) (this other : Nat) (t : OfxParamStruct) (v : ParamView)
    (hthis : m.read this = some (Obj.param t)) (hne : this ≠ other)
    (hv : m.viewParam other = some v) :
    ∃ m1 t1, OfxParamStruct.deep_copy_from m this other = some m1 ∧
      m1.read this = some (Obj.param t1) ∧ m1.viewParam this = some v ∧
      (t1.name = 0 ∨ m.cells.length < t1.name) ∧
      (t1.type = ParamType.PARAM_TYPE_STRING → m.cells.length < t1.value0) ∧
      Mem.Extends m m1 this := by
  obtain ⟨o, nm, str, hro, hnm, hstr, hveq⟩ := (m.viewParam_eq _ _).1 hv
  have hother : m.read other = some (Obj.param o) := (m.readParam_eq _ _).1 hro
  have hnc : m.notChars this := m.notChars_param _ _ hthis
  -- the name
  obtain ⟨m1, b1, h1, h1this, h1name, h1fresh, h1ext⟩ :=
    deep_copy_name_spec m this other t o nm hthis hother hne hnm
  have h1other : m1.read other = some (Obj.param o) := h1ext.keep _ (Ne.symm hne) _ hother
  have h1str : m1.viewString o = some str := h1ext.viewString hnc hstr
  have h1nc : m1.notChars this := m1.notChars_param _ _ h1this
  -- the type and the value slots
  have h2 := deep_copy_value_spec m1 this other _ o h1this h1other
  let t2 : OfxParamStruct :=
    { type := o.type, name := b1, value0 := o.value0, value1 := o.value1, value2 := o.value2,
      value3 := o.value3, properties := t.properties }
  let m2 := m1.store this (Obj.param t2)
  have h2this : m2.read this = some (Obj.param t2) := by
    show (m1.store _ _).read _ = _
    rw [Mem.read_store m1 _ _ _ _ h1this, if_pos rfl]
  have h12 : Mem.Extends m1 m2 this :=
    (Mem.Extends.refl m1 this).store _ _ _ h1this (Or.inr rfl)
  have h2other : m2.read other = some (Obj.param o) := h12.keep _ (Ne.symm hne) _ h1other
  have h2str : m2.viewString o = some str := h12.viewString h1nc h1str
  have h2name : m2.viewName t2 = some nm := h12.viewName h1nc h1name
  have h2nc : m2.notChars this := m2.notChars_param _ _ h2this
  -- the string buffer
  obtain ⟨m3, b3, h3, h3this, h3str, h3fresh, h3same, h23⟩ :=
    deep_copy_string_spec m2 this other t2 o str h2this h2other hne rfl h2str
  have h3other : m3.read other = some (Obj.param o) := h23.keep _ (Ne.symm hne) _ h2other
  have h3name : m3.viewName t2 = some nm := h23.viewName h2nc h2name
  have h3nc : m3.notChars this := m3.notChars_param _ _ h3this
  -- the properties
  have h4 := deep_copy_properties_spec m3 this other _ o h3this h3other
  let t4 : OfxParamStruct :=
    { type := o.type, name := b1, value0 := b3, value1 := o.value1, value2 := o.value2,
      value3 := o.value3, properties := o.properties }
  let m4 := m3.store this (Obj.param t4)
  have h4this : m4.read this = some (Obj.param t4) := by
    show (m3.store _ _).read _ = _
    rw [Mem.read_store m3 _ _ _ _ h3this, if_pos rfl]
  have h34 : Mem.Extends m3 m4 this :=
    (Mem.Extends.refl m3 this).store _ _ _ h3this (Or.inr rfl)
  have h4name : m4.viewName t4 = some nm := h34.viewName h3nc h3name
  have h4str : m4.viewString t4 = some str := h34.viewString h3nc h3str
  have hext : Mem.Extends m m4 this :=
    ((h1ext.trans h12 (Or.inr rfl)).trans h23 (Or.inr rfl)).trans h34 (Or.inr rfl)
  have hlen12 : m.cells.length ≤ m2.cells.length := (h1ext.trans h12 (Or.inr rfl)).len
  refine ⟨m4, t4, ?_, h4this, ?_, h1fresh, ?_, hext⟩
  · unfold OfxParamStruct.deep_copy_from
    simp only [h1, Option.bind_eq_bind, Option.some_bind, h2]
    show (OfxParamStruct.deep_copy_string m2 this other).bind _ = _
    rw [h3]
    exact h4
  · rw [Mem.viewParam_eq]
    refine ⟨t4, nm, str, (m4.readParam_eq _ _).2 h4this, h4name, h4str, ?_⟩
    rw [hveq]
    by_cases hty : o.type = ParamType.PARAM_TYPE_STRING
    · simp [t4, hty]
    · have : b3 = o.value0 := h3same hty
      simp [t4, hty, this]
  · intro hty
    have := h3fresh hty
    show m.cells.length < b3
    omega

/-! ### OfxParamSetStruct::deep_copy_from -/

theorem Mem.viewList_getElem (m : Mem) (a : List Ptr) (vs : List ParamView)
    (h : m.viewList a = some vs) (i : Nat) (p : Nat) (hp : a[i]? = some p) :
    ∃ v, vs[i]? = some v ∧ m.viewParam p = some v := by
  induction a generalizing vs i with
  | nil => simp at hp
  | cons q rest ih =>
    rw [Mem.viewList_cons] at h
    obtain ⟨v, vr, k1, k2, k3⟩ := h
    subst k3
    rcases i with _ | j
    · simp only [List.getElem?_cons_zero, Option.some.injEq] at hp
      subst hp
      exact ⟨v, by simp, k1⟩
    · simp only [List.getElem?_cons_succ] at hp
      obtain ⟨w, hw1, hw2⟩ := ih vr k2 j hp
      exact ⟨w, by simpa using hw1, hw2⟩

theorem list_take_succ_of_getElem {α : Type} (l : List α) (i : Nat) (x : α)
    (h : l[i]? = some x) : l.take (i + 1) = l.take i ++ [x] := by
  rw [List.take_succ, h]
  rfl

theorem deep_copy_loop_spec (m0 : Mem) (tgt other : OfxParamSetStruct) (fresh a : List Ptr)
    (vs : List ParamView) (hsrc : m0.setPtrs other = some a) (hvs : m0.viewList a = some vs)
    (hlen : fresh.length = a.length)
    (hfresh : ∀ q, q ∈ fresh → m0.cells.length < q) (hnodup : fresh.Nodup)
    (hAf : tgt.parameters ∉ fresh) :
    ∀ (n i : Nat) (cur : Mem), i + n = a.length →
      CopyInv m0 tgt.parameters fresh vs i cur →
      ∃ cur1, OfxParamSetStruct.deep_copy_loop tgt other n i cur = some cur1 ∧
        CopyInv m0 tgt.parameters fresh vs a.length cur1 := by
  intro n
  induction n with
  | zero =>
    intro i cur hi hinv
    have hia : i = a.length := by omega
    subst hia
    exact ⟨cur, rfl, hinv⟩
  | succ n ih =>
    intro i cur hi hinv
    obtain ⟨hext, harr, hdone, htodo, howned⟩ := hinv
    have hia : i < a.length := by omega
    have hif : i < fresh.length := by omega
    -- the two pointers read by this iteration
    have hdst : fresh[i]? = some fresh[i] := List.getElem?_eq_getElem hif
    have hsrcp : a[i]? = some a[i] := List.getElem?_eq_getElem hia
    have hrd : cur.readPtrAt tgt.parameters i = some fresh[i] := by
      rw [Mem.readPtrAt_eq cur _ _ _ harr, hdst]
    obtain ⟨_, hcase⟩ := m0.setPtrs_eq other a hsrc
    have hoarr : m0.read other.parameters = some (Obj.ptrs a) := by
      rcases hcase with ⟨_, h0⟩ | ⟨_, h1⟩
      · rw [h0] at hia; simp at hia
      · exact h1
    have hone : other.parameters ≠ 0 := by
      intro hc; rw [hc, Mem.read_zero] at hoarr; cases hoarr
    have hrs : cur.readPtrAt other.parameters i = some a[i] := by
      rw [Mem.readPtrAt_eq cur _ _ _ (hext.keep _ hone _ hoarr), hsrcp]
    -- the source parameter is unchanged so far
    obtain ⟨v, hv1, hv2⟩ := m0.viewList_getElem a vs hvs i a[i] hsrcp
    obtain ⟨xsrc, hxsrc⟩ := m0.viewList_mem_param a vs hvs a[i] (List.getElem_mem _)
    have hsle := (m0.read_le_length _ _ hxsrc).2
    have hs0 : a[i] ≠ 0 := Nat.ne_of_gt (m0.read_le_length _ _ hxsrc).1
    have hnc0 : m0.notChars 0 := by intro size s; rw [Mem.read_zero]; simp
    have hvcur : cur.viewParam a[i] = some v := hext.viewParam hnc0 hs0 hv2
    -- the target parameter
    have hdmem : fresh[i] ∈ fresh.drop i := by
      rw [List.drop_eq_getElem_cons hif]; exact List.mem_cons_self _ _
    obtain ⟨xd, hxd⟩ := htodo _ hdmem
    have hdgt : m0.cells.length < fresh[i] := hfresh _ (List.getElem_mem _)
    have hdne : fresh[i] ≠ a[i] := Nat.ne_of_gt (Nat.lt_of_le_of_lt hsle hdgt)
    obtain ⟨cur1, t1, hc1, hc2, hc3, hc4, hc5, hc6⟩ :=
      param_deep_copy_spec cur fresh[i] a[i] xd v hxd hdne hvcur
    have hlen1 : m0.cells.length ≤ cur.cells.length := hext.len
    have hncd : cur.notChars fresh[i] := cur.notChars_param _ _ hxd
    -- distinctness of the target parameters
    have htake_ne : ∀ q, q ∈ fresh.take i → q ≠ fresh[i] := by
      intro q hq hc
      have hsplit : fresh = fresh.take i ++ fresh.drop i := (List.take_append_drop i fresh).symm
      rw [hsplit] at hnodup
      exact (List.nodup_append.1 hnodup).2.2 hq (hc ▸ hdmem)
    have hdrop_ne : ∀ q, q ∈ fresh.drop (i + 1) → q ≠ fresh[i] := by
      intro q hq hc
      have hd : (fresh.drop i).Nodup := by
        have hsplit : fresh = fresh.take i ++ fresh.drop i :=
          (List.take_append_drop i fresh).symm
        rw [hsplit] at hnodup
        exact (List.nodup_append.1 hnodup).2.1
      rw [List.drop_eq_getElem_cons hif] at hd
      exact (List.nodup_cons.1 hd).1 (hc ▸ hq)
    -- the invariant after the iteration
    have hinv1 : CopyInv m0 tgt.parameters fresh vs (i + 1) cur1 := by
      refine ⟨hext.trans hc6 (Or.inl (m0.read_fresh _ hdgt)), ?_, ?_, ?_, ?_⟩
      · exact hc6.keep _ (fun hc => hAf (by rw [hc]; exact List.getElem_mem _)) _ harr
      · rw [list_take_succ_of_getElem fresh i _ hdst, list_take_succ_of_getElem vs i _ hv1]
        exact cur1.viewList_append _ _ _ _ (hc6.viewList hncd htake_ne hdone)
          (by rw [Mem.viewList_cons]; exact ⟨v, [], hc3, rfl, rfl⟩)
      · intro q hq
        obtain ⟨x, hx⟩ := htodo q (List.mem_of_mem_drop (by
          rw [← List.drop_drop] at hq
          exact hq))
        exact ⟨x, hc6.keep _ (hdrop_ne q hq) _ hx⟩
      · intro q hq
        rw [list_take_succ_of_getElem fresh i _ hdst] at hq
        rcases List.mem_append.1 hq with hq | hq
        · obtain ⟨hq1, x, hx1, hx2, hx3⟩ := howned q hq
          exact ⟨hq1, x, hc6.keep _ (htake_ne q hq) _ hx1, hx2, hx3⟩
        · rw [List.mem_singleton.1 hq]
          refine ⟨hdgt, t1, hc2, ?_, ?_⟩
          · rcases hc4 with h | h
            · exact Or.inl h
            · exact Or.inr (by omega)
          · intro hty
            have := hc5 hty
            omega
    obtain ⟨cur2, hk1, hk2⟩ := ih (i + 1) cur1 (by omega) hinv1
    refine ⟨cur2, ?_, hk2⟩
    simp only [OfxParamSetStruct.deep_copy_loop, hrd, hrs, Option.bind_eq_bind, Option.some_bind,
      hc1, hk1]

theorem Mem.setPtrs_new (m : Mem) : m.setPtrs new_OfxParamSetStruct = some [] := by
  simp [Mem.setPtrs, new_OfxParamSetStruct]

/-- The method `OfxParamSetStruct::deep_copy_from` into a freshly constructed
set: the call returns and leaves the loop invariant at the source's count. -/
theorem set_deep_copy_spec (m : Mem) (P : OfxParamSetStruct) (a : List Ptr)
    (vs : List ParamView) (ha : m.setPtrs P = some a) (hv : m.viewList a = some vs) :
    ∃ m1, OfxParamSetStruct.deep_copy_from m new_OfxParamSetStruct P =
        some (m1, { num_parameters := P.num_parameters, parameters := m.cells.length + 1,
                    effect_properties := P.effect_properties }) ∧
      CopyInv m (m.cells.length + 1) (List.range' (m.cells.length + 2) a.length) vs a.length
        m1 := by
  obtain ⟨hnum, _⟩ := m.setPtrs_eq P a ha
  obtain ⟨m1, P1, h1, h2, h3, h4, h5, h6, h7⟩ :=
    append_parameters_view m new_OfxParamSetStruct [] [] a.length m.setPtrs_new rfl
  simp only [List.nil_append] at h4 h5
  have hP1 : P1 = ⟨(a.length : Int), m.cells.length + 1, 0⟩ := by
    rw [h2]; simp [new_OfxParamSetStruct]
  subst hP1
  have harr : m1.read (m.cells.length + 1) =
      some (Obj.ptrs (List.range' (m.cells.length + 2) a.length)) := by
    rcases (m1.setPtrs_eq _ _ h4).2 with ⟨k1, _⟩ | ⟨_, k2⟩
    · simp at k1
    · exact k2
  have hinv0 : CopyInv m (m.cells.length + 1) (List.range' (m.cells.length + 2) a.length) vs 0
      m1 := by
    refine ⟨h7, harr, by simp [Mem.viewList], ?_, by simp⟩
    intro q hq
    exact ⟨_, h6 q (by simpa using hq)⟩
  obtain ⟨m2, hl1, hl2⟩ := deep_copy_loop_spec m ⟨(a.length : Int), m.cells.length + 1, 0⟩ P
    (List.range' (m.cells.length + 2) a.length) a vs ha hv (by simp)
    (fun q hq => by have := (List.mem_range'_1.1 hq).1; omega)
    (List.nodup_range' _ _) (by simp) a.length 0 m1 (by omega) hinv0
  refine ⟨m2, ?_, hl2⟩
  unfold OfxParamSetStruct.deep_copy_from
  rw [← hnum, h1]
  simp only [Option.bind_eq_bind, Option.some_bind, Int.toNat_ofNat, hl1]

theorem Mem.viewParam_agree (m1 m2 : Mem) (L q : Nat) (v : ParamView)
    (hown : m1.ownedAbove L q) (hag : ∀ p, L < p → m2.read p = m1.read p)
    (hv : m1.viewParam q = some v) : m2.viewParam q = some v := by
  obtain ⟨hq, x, hx, hname, hstr⟩ := hown
  rw [Mem.viewParam_eq] at hv ⊢
  obtain ⟨x1, nm, str, k1, k2, k3, k4⟩ := hv
  have hxeq : x1 = x := by
    rw [Mem.readParam_eq, hx] at k1
    cases k1; rfl
  subst hxeq
  refine ⟨x1, nm, str, ?_, ?_, ?_, k4⟩
  · rw [Mem.readParam_eq, hag q hq]; exact hx
  · unfold Mem.viewName at k2 ⊢
    by_cases h0 : x1.name = 0
    · simpa [h0] using k2
    · have hL : L < x1.name := by
        rcases hname with h | h
        · exact absurd h h0
        · exact h
      have : m2.readStr x1.name = m1.readStr x1.name := by
        unfold Mem.readStr; rw [hag _ hL]
      simpa [h0, this] using k2
  · unfold Mem.viewString at k3 ⊢
    by_cases hty : x1.type = ParamType.PARAM_TYPE_STRING
    · have : m2.readStr x1.value0 = m1.readStr x1.value0 := by
        unfold Mem.readStr; rw [hag _ (hstr hty)]
      simpa [hty, this] using k3
    · simpa [hty] using k3

theorem Mem.viewList_agree (m1 m2 : Mem) (L : Nat) (hag : ∀ p, L < p → m2.read p = m1.read p)
    (l : List Ptr) (vs : List ParamView) (hown : ∀ q, q ∈ l → m1.ownedAbove L q)
    (hv : m1.viewList l = some vs) : m2.viewList l = some vs := by
  induction l generalizing vs with
  | nil => simpa [Mem.viewList] using hv
  | cons p rest ih =>
    rw [Mem.viewList_cons] at hv ⊢
    obtain ⟨v, vr, k1, k2, k3⟩ := hv
    exact ⟨v, vr, m1.viewParam_agree m2 L p v (hown p (List.mem_cons_self _ _)) hag k1,
      ih vr (fun q hq => hown q (List.mem_cons_of_mem _ hq)) k2, k3⟩

/-- What `OfxParamSetStruct::deep_copy_from` into a freshly constructed set
establishes, for a well-formed source with views `vs`. -/
theorem set_deep_copy_facts (m : Mem) (P : OfxParamSetStruct) (vs : List ParamView)
    (hv : m.viewSet P = some vs) :
    ∃ m1 P1 a a1, OfxParamSetStruct.deep_copy_from m new_OfxParamSetStruct P = some (m1, P1) ∧
      P1.num_parameters = P.num_parameters ∧ P1.effect_properties = P.effect_properties ∧
      m.cells.length < P1.parameters ∧
      m.setPtrs P = some a ∧ m1.setPtrs P = some a ∧ m1.setPtrs P1 = some a1 ∧
      m1.viewList a = some vs ∧ m1.viewList a1 = some vs ∧
      (∀ q, q ∈ a1 → m1.ownedAbove m.cells.length q) ∧ Mem.Extends m m1 0 := by
  obtain ⟨a, ha, hva⟩ := m.viewSet_eq P vs hv
  obtain ⟨hnum, hcase⟩ := m.setPtrs_eq P a ha
  have hlen := m.viewList_length a vs hva
  obtain ⟨m1, h1, hext, harr, hdone, _, howned⟩ := set_deep_copy_spec m P a vs ha hva
  have hnc0 : m.notChars 0 := by intro size s; rw [Mem.read_zero]; simp
  have hne0 : ∀ p, p ∈ a → p ≠ 0 := by
    intro p hp
    obtain ⟨x, hx⟩ := m.viewList_mem_param a vs hva p hp
    exact Nat.ne_of_gt (m.read_le_length _ _ hx).1
  have htake : List.take a.length (List.range' (m.cells.length + 2) a.length) =
      List.range' (m.cells.length + 2) a.length := List.take_of_length_le (by simp)
  have htakev : List.take a.length vs = vs := List.take_of_length_le (by omega)
  rw [htake, htakev] at hdone
  rw [htake] at howned
  refine ⟨m1, _, a, List.range' (m.cells.length + 2) a.length, h1, rfl, rfl,
    Nat.lt_succ_self _, ha, ?_, ?_, hext.viewList hnc0 hne0 hva, hdone, howned, hext⟩
  · rcases hcase with ⟨hp0, ha0⟩ | ⟨hp0, hra⟩
    · subst ha0
      have hnum0 : P.num_parameters = 0 := by simpa using hnum.symm
      simp [Mem.setPtrs, hp0, hnum0]
    · simp [Mem.setPtrs, hp0, hext.keep _ hp0 _ hra, hnum]
  · simp [Mem.setPtrs, harr, hnum]

/-- C9: `deep_copy_from` applied to a freshly constructed set returns; the copy
has the count of the source and, index by index, parameters with the same
view (name, type, value slots, string content for a String parameter,
properties) as the source, which is itself unchanged; the copy's
`effect_properties` is the source's pointer. -/
theorem deep_copy_from_same_view (m : Mem) (P : OfxParamSetStruct) (vs : List ParamView)
    (hv : m.viewSet P = some vs) :
    ∃ m1 P1, OfxParamSetStruct.deep_copy_from m new_OfxParamSetStruct P = some (m1, P1) ∧
      P1.num_parameters = P.num_parameters ∧
      m1.viewSet P1 = some vs ∧ m1.viewSet P = some vs ∧
      (∀ (i : Nat) (v : ParamView), vs[i]? = some v →
        ∃ p p1, m1.readPtrAt P.parameters i = some p ∧
        m1.readPtrAt P1.parameters i = some p1 ∧ m1.viewParam p = some v ∧
        m1.viewParam p1 = some v) ∧
      P1.effect_properties = P.effect_properties := by
  obtain ⟨m1, P1, a, a1, h1, h2, h3, _, h5, h6, h7, h8, h9, _, _⟩ := set_deep_copy_facts m P vs hv
  refine ⟨m1, P1, h1, h2, m1.viewSet_of P1 a1 vs h7 h9, m1.viewSet_of P a vs h6 h8, ?_, h3⟩
  intro i v hiv
  have hl := m1.viewList_length a vs h8
  have hl1 := m1.viewList_length a1 vs h9
  have hi : i < vs.length := by
    by_contra hc
    rw [List.getElem?_eq_none (by omega)] at hiv
    cases hiv
  obtain ⟨w, hw1, hw2⟩ := m1.viewList_getElem a vs h8 i a[i] (List.getElem?_eq_getElem (by omega))
  obtain ⟨w1, hw3, hw4⟩ := m1.viewList_getElem a1 vs h9 i a1[i]
    (List.getElem?_eq_getElem (by omega))
  rw [hiv] at hw1 hw3
  cases hw1
  cases hw3
  refine ⟨a[i], a1[i], ?_, ?_, hw2, hw4⟩
  · rw [m1.setPtrs_readPtrAt P a h6 i (by omega)]; exact List.getElem?_eq_getElem (by omega)
  · rw [m1.setPtrs_readPtrAt P1 a1 h7 i (by omega)]; exact List.getElem?_eq_getElem (by omega)

theorem Mem.store_agree (m : Mem) (L p : Nat) (o : Obj) (hp : p ≤ L) :
    ∀ q, L < q → (m.store p o).read q = m.read q := by
  intro q hq
  cases hx : m.read p with
  | some x => rw [Mem.read_store m p q o x hx, if_neg (by omega)]
  | none =>
    rcases p with _ | p0
    · rfl
    · rcases q with _ | q0
      · rfl
      · simp only [Mem.read_succ, Mem.store, List.getElem?_set]
        have : ¬ p0 = q0 := by omega
        simp [this]

theorem Mem.free_agree (m m2 : Mem) (L p : Nat) (hp : p ≤ L) (hf : m.free_array p = some m2) :
    ∀ q, L < q → m2.read q = m.read q := by
  intro q hq
  rw [Mem.read_free m m2 p q hf, if_neg (by omega)]

/-- C10: after `deep_copy_from` into a freshly constructed set, the copy's
array, parameters, name buffers and string buffers are blocks allocated by the
call (addresses above every block of the heap before the call), so each name
buffer and each string buffer of the copy is a different block from the
source's; and whatever is then done to blocks that existed before the call
(overwriting or freeing a source buffer in particular) leaves the view of the
copy, string values included, unchanged. -/
theorem deep_copy_from_buffers_independent (m : Mem) (P : OfxParamSetStruct)
    (vs : List ParamView) (hv : m.viewSet P = some vs) :
    ∃ m1 P1 a a1, OfxParamSetStruct.deep_copy_from m new_OfxParamSetStruct P = some (m1, P1) ∧
      m1.setPtrs P = some a ∧ m1.setPtrs P1 = some a1 ∧ m1.viewSet P1 = some vs ∧
      (∀ (i : Nat) (p p1 : Ptr) (x x1 : OfxParamStruct), a[i]? = some p → a1[i]? = some p1 →
        m1.readParam p = some x → m1.readParam p1 = some x1 →
        p1 ≠ p ∧ x1.type = x.type ∧
        (x.name ≠ 0 → x1.name ≠ 0 ∧ x1.name ≠ x.name ∧
          ∃ s, m1.readStr x.name = some s ∧ m1.readStr x1.name = some s) ∧
        (x.type = ParamType.PARAM_TYPE_STRING → x1.value0 ≠ x.value0 ∧
          ∃ s, m1.readStr x.value0 = some s ∧ m1.readStr x1.value0 = some s)) ∧
      (∀ m2 : Mem, (∀ q, m.cells.length < q → m2.read q = m1.read q) →
        m2.viewSet P1 = some vs) ∧
      (∀ (i : Nat) (p : Ptr) (x : OfxParamStruct), a[i]? = some p → m1.readParam p = some x →
        ∀ (o : Obj) (m2 : Mem),
          (m2 = m1.store x.name o ∨ m1.free_array x.name = some m2 ∨
           (x.type = ParamType.PARAM_TYPE_STRING ∧
             (m2 = m1.store x.value0 o ∨ m1.free_array x.value0 = some m2))) →
          m2.viewSet P1 = some vs) := by
  obtain ⟨m1, P1, a, a1, h1, h2, h3, h4, h5, h6, h7, h8, h9, h10, h11⟩ :=
    set_deep_copy_facts m P vs hv
  have hagree : ∀ m2 : Mem, (∀ q, m.cells.length < q → m2.read q = m1.read q) →
      m2.viewSet P1 = some vs := by
    intro m2 hag
    have hs : m2.setPtrs P1 = some a1 := by
      have hne : P1.parameters ≠ 0 := Nat.ne_of_gt (Nat.lt_of_le_of_lt (Nat.zero_le _) h4)
      unfold Mem.setPtrs at h7 ⊢
      simp only [hne, if_false] at h7 ⊢
      rw [hag _ h4]; exact h7
    exact m2.viewSet_of P1 a1 vs hs (m1.viewList_agree m2 _ hag a1 vs h10 h9)
  -- the buffers of a source parameter are blocks of the old heap
  have hsrc : ∀ (i : Nat) (p : Ptr) (x : OfxParamStruct), a[i]? = some p →
      m1.readParam p = some x →
      ∃ v, vs[i]? = some v ∧ m1.viewParam p = some v ∧ p ≤ m.cells.length ∧
        x.name ≤ m.cells.length ∧
        (x.type = ParamType.PARAM_TYPE_STRING → x.value0 ≤ m.cells.length) := by
    intro i p x hip hx
    have hva : m.viewList a = some vs := by
      obtain ⟨a0, k1, k2⟩ := m.viewSet_eq P vs hv
      rw [h5] at k1; cases k1; exact k2
    obtain ⟨v, hv1, hv2⟩ := m.viewList_getElem a vs hva i p hip
    obtain ⟨v1, hv3, hv4⟩ := m1.viewList_getElem a vs h8 i p hip
    rw [hv1] at hv3; cases hv3
    obtain ⟨x0, nm, str, k1, k2, k3, _⟩ := (m.viewParam_eq _ _).1 hv2
    have hp0 : p ≠ 0 := Nat.ne_of_gt (m.read_le_length _ _ ((m.readParam_eq _ _).1 k1)).1
    have hx0 : x0 = x := by
      have := h11.readParam hp0 k1
      rw [hx] at this; cases this; rfl
    subst hx0
    refine ⟨v, hv1, hv4, (m.read_le_length _ _ ((m.readParam_eq _ _).1 k1)).2, ?_, ?_⟩
    · by_cases hn0 : x0.name = 0
      · rw [hn0]; exact Nat.zero_le _
      · cases nm with
        | none => exact absurd (m.viewName_none x0 k2) hn0
        | some s =>
          obtain ⟨size, hb, _⟩ := (m.readStr_eq _ _).1 (m.viewName_some x0 s k2).2
          exact (m.read_le_length _ _ hb).2
    · intro hty
      unfold Mem.viewString at k3
      simp only [hty, if_true] at k3
      cases hs : m.readStr x0.value0 with
      | none => simp [hs] at k3
      | some s =>
        obtain ⟨size, hb, _⟩ := (m.readStr_eq _ _).1 hs
        exact (m.read_le_length _ _ hb).2
  refine ⟨m1, P1, a, a1, h1, h6, h7, m1.viewSet_of P1 a1 vs h7 h9, ?_, hagree, ?_⟩
  · intro i p p1 x x1 hip hip1 hx hx1
    obtain ⟨v, hv1, hv2, hple, hnle, hsle⟩ := hsrc i p x hip hx
    obtain ⟨w, hw1, hw2⟩ := m1.viewList_getElem a1 vs h9 i p1 hip1
    rw [hv1] at hw1; cases hw1
    obtain ⟨hp1gt, y, hy, hyname, hystr⟩ := h10 p1 (List.getElem?_mem hip1)
    have hyx : y = x1 := by
      rw [Mem.readParam_eq, hy] at hx1; cases hx1; rfl
    subst hyx
    obtain ⟨x', nm, str, k1, k2, k3, k4⟩ := (m1.viewParam_eq _ _).1 hv2
    rw [hx] at k1; cases k1
    obtain ⟨y', nm1, str1, j1, j2, j3, j4⟩ := (m1.viewParam_eq _ _).1 hw2
    rw [(m1.readParam_eq _ _).2 hy] at j1; cases j1
    have hnmeq : nm1 = nm := by
      have := congrArg ParamView.name (k4.symm.trans j4); simpa using this.symm
    have hstreq : str1 = str := by
      have := congrArg ParamView.string (k4.symm.trans j4); simpa using this.symm
    have htyeq : y.type = x.type := by
      have := congrArg ParamView.type (k4.symm.trans j4); simpa using this.symm
    subst hnmeq hstreq
    refine ⟨Nat.ne_of_gt (Nat.lt_of_le_of_lt hple hp1gt), htyeq, ?_, ?_⟩
    · intro hn0
      cases nm1 with
      | none => exact absurd (m1.viewName_none x k2) hn0
      | some s =>
        obtain ⟨e1, e2⟩ := m1.viewName_some y s j2
        have : m.cells.length < y.name := by
          rcases hyname with h | h
          · exact absurd h e1
          · exact h
        exact ⟨e1, Nat.ne_of_gt (Nat.lt_of_le_of_lt hnle this), s,
          (m1.viewName_some x s k2).2, e2⟩
    · intro hty
      have hty1 : y.type = ParamType.PARAM_TYPE_STRING := by rw [htyeq]; exact hty
      have hgt := hystr hty1
      have hle := hsle hty
      refine ⟨Nat.ne_of_gt (Nat.lt_of_le_of_lt hle hgt), ?_⟩
      unfold Mem.viewString at k3 j3
      simp only [hty, hty1, if_true] at k3 j3
      cases hs : m1.readStr x.value0 with
      | none => simp [hs] at k3
      | some s =>
        cases hs1 : m1.readStr y.value0 with
        | none => simp [hs1] at j3
        | some s1 =>
          simp only [hs, Option.some.injEq] at k3
          simp only [hs1, Option.some.injEq] at j3
          rw [← k3] at j3
          cases j3
          exact ⟨s, rfl, rfl⟩
  · intro i p x hip hx o m2 hcase
    obtain ⟨v, _, _, _, hnle, hsle⟩ := hsrc i p x hip hx
    apply hagree
    rcases hcase with h | h | ⟨hty, h | h⟩
    · rw [h]; exact m1.store_agree _ _ o hnle
    · exact m1.free_agree m2 _ _ hnle h
    · rw [h]; exact m1.store_agree _ _ o (hsle hty)
    · exact m1.free_agree m2 _ _ (hsle hty) h

/-! ### Concrete runs -/

theorem find_parameter_first_match_witness :
    sampleMem.viewSet sampleSet = some sampleViews ∧ (∀ v ∈ sampleViews, v.name ≠ none) ∧
    OfxParamSetStruct.find_parameter sampleMem sampleSet "label" = some 1 ∧
    ∃ r : Int, OfxParamSetStruct.find_parameter sampleMem sampleSet "label" = some r ∧
      (r = -1 ↔ ∀ v ∈ sampleViews, v.name ≠ some "label") :=
  ⟨by decide, by decide, by decide,
    (find_parameter_first_match sampleMem sampleSet "label" sampleViews (by decide)
      (by decide)).imp (fun _ h => ⟨h.1, h.2.1⟩)⟩

theorem deep_copy_from_same_view_witness :
    sampleMem.viewSet sampleSet = some sampleViews ∧
    ∃ m1 P1, OfxParamSetStruct.deep_copy_from sampleMem new_OfxParamSetStruct sampleSet =
        some (m1, P1) ∧
      P1.num_parameters = 2 ∧ m1.viewSet P1 = some sampleViews ∧ P1.effect_properties = 9 :=
  ⟨by decide,
    let ⟨m1, P1, h1, h2, h3, _, _, h6⟩ :=
      deep_copy_from_same_view sampleMem sampleSet sampleViews (by decide)
    ⟨m1, P1, h1, h2, h3, h6⟩⟩

theorem deep_copy_from_buffers_independent_witness :
    sampleMem.viewSet sampleSet = some sampleViews ∧
    ∃ m1 P1, OfxParamSetStruct.deep_copy_from sampleMem new_OfxParamSetStruct sampleSet =
        some (m1, P1) ∧
      ∀ m2 : Mem, (∀ q, sampleMem.cells.length < q → m2.read q = m1.read q) →
        m2.viewSet P1 = some sampleViews :=
  ⟨by decide,
    let ⟨m1, P1, _, _, h1, _, _, _, _, h6, _⟩ :=
      deep_copy_from_buffers_independent sampleMem sampleSet sampleViews (by decide)
    ⟨m1, P1, h1, h6⟩⟩

/-! ## Theorems: parameter types and suites -/

theorem parse_parameter_type_keyword (k : ParamTypeKeywords) (s : String) (t : ParamType)
    (h : parse_parameter_type k s = t) (ht : t ≠ ParamType.PARAM_TYPE_UNKNOWN) :
    k.keyword t = some s := by
  unfold parse_parameter_type at h
  by_cases h1 : s = k.kOfxParamTypeInteger
  · rw [if_pos h1] at h; subst h; exact congrArg some h1.symm
  rw [if_neg h1] at h
  by_cases h2 : s = k.kOfxParamTypeInteger2D
  · rw [if_pos h2] at h; subst h; exact congrArg some h2.symm
  rw [if_neg h2] at h
  by_cases h3 : s = k.kOfxParamTypeInteger3D
  · rw [if_pos h3] at h; subst h; exact congrArg some h3.symm
  rw [if_neg h3] at h
  by_cases h4 : s = k.kOfxParamTypeDouble
  · rw [if_pos h4] at h; subst h; exact congrArg some h4.symm
  rw [if_neg h4] at h
  by_cases h5 : s = k.kOfxParamTypeDouble2D
  · rw [if_pos h5] at h; subst h; exact congrArg some h5.symm
  rw [if_neg h5] at h
  by_cases h6 : s = k.kOfxParamTypeDouble3D
  · rw [if_pos h6] at h; subst h; exact congrArg some h6.symm
  rw [if_neg h6] at h
  by_cases h7 : s = k.kOfxParamTypeRGB
  · rw [if_pos h7] at h; subst h; exact congrArg some h7.symm
  rw [if_neg h7] at h
  by_cases h8 : s = k.kOfxParamTypeRGBA
  · rw [if_pos h8] at h; subst h; exact congrArg some h8.symm
  rw [if_neg h8] at h
  by_cases h9 : s = k.kOfxParamTypeBoolean
  · rw [if_pos h9] at h; subst h; exact congrArg some h9.symm
  rw [if_neg h9] at h
  by_cases h10 : s = k.kOfxParamTypeChoice
  · rw [if_pos h10] at h; subst h; exact congrArg some h10.symm
  rw [if_neg h10] at h
  by_cases h11 : s = k.kOfxParamTypeString
  · rw [if_pos h11] at h; subst h; exact congrArg some h11.symm
  rw [if_neg h11] at h
  by_cases h12 : s = k.kOfxParamTypeCustom
  · rw [if_pos h12] at h; subst h; exact congrArg some h12.symm
  rw [if_neg h12] at h
  by_cases h13 : s = k.kOfxParamTypePushButton
  · rw [if_pos h13] at h; subst h; exact congrArg some h13.symm
  rw [if_neg h13] at h
  by_cases h14 : s = k.kOfxParamTypeGroup
  · rw [if_pos h14] at h; subst h; exact congrArg some h14.symm
  rw [if_neg h14] at h
  by_cases h15 : s = k.kOfxParamTypePage
  · rw [if_pos h15] at h; subst h; exact congrArg some h15.symm
  rw [if_neg h15] at h
  exact absurd h.symm ht

theorem parse_parameter_type_unknown (k : ParamTypeKeywords) (s : String) :
    parse_parameter_type k s = ParamType.PARAM_TYPE_UNKNOWN ↔ ∀ t, k.keyword t ≠ some s := by
  constructor
  · intro h t
    unfold parse_parameter_type at h
    by_cases h1 : s = k.kOfxParamTypeInteger
    · rw [if_pos h1] at h; exact ParamType.noConfusion h
    rw [if_neg h1] at h
    by_cases h2 : s = k.kOfxParamTypeInteger2D
    · rw [if_pos h2] at h; exact ParamType.noConfusion h
    rw [if_neg h2] at h
    by_cases h3 : s = k.kOfxParamTypeInteger3D
    · rw [if_pos h3] at h; exact ParamType.noConfusion h
    rw [if_neg h3] at h
    by_cases h4 : s = k.kOfxParamTypeDouble
    · rw [if_pos h4] at h; exact ParamType.noConfusion h
    rw [if_neg h4] at h
    by_cases h5 : s = k.kOfxParamTypeDouble2D
    · rw [if_pos h5] at h; exact ParamType.noConfusion h
    rw [if_neg h5] at h
    by_cases h6 : s = k.kOfxParamTypeDouble3D
    · rw [if_pos h6] at h; exact ParamType.noConfusion h
    rw [if_neg h6] at h
    by_cases h7 : s = k.kOfxParamTypeRGB
    · rw [if_pos h7] at h; exact ParamType.noConfusion h
    rw [if_neg h7] at h
    by_cases h8 : s = k.kOfxParamTypeRGBA
    · rw [if_pos h8] at h; exact ParamType.noConfusion h
    rw [if_neg h8] at h
    by_cases h9 : s = k.kOfxParamTypeBoolean
    · rw [if_pos h9] at h; exact ParamType.noConfusion h
    rw [if_neg h9] at h
    by_cases h10 : s = k.kOfxParamTypeChoice
    · rw [if_pos h10] at h; exact ParamType.noConfusion h
    rw [if_neg h10] at h
    by_cases h11 : s = k.kOfxParamTypeString
    · rw [if_pos h11] at h; exact ParamType.noConfusion h
    rw [if_neg h11] at h
    by_cases h12 : s = k.kOfxParamTypeCustom
    · rw [if_pos h12] at h; exact ParamType.noConfusion h
    rw [if_neg h12] at h
    by_cases h13 : s = k.kOfxParamTypePushButton
    · rw [if_pos h13] at h; exact ParamType.noConfusion h
    rw [if_neg h13] at h
    by_cases h14 : s = k.kOfxParamTypeGroup
    · rw [if_pos h14] at h; exact ParamType.noConfusion h
    rw [if_neg h14] at h
    by_cases h15 : s = k.kOfxParamTypePage
    · rw [if_pos h15] at h; exact ParamType.noConfusion h
    rw [if_neg h15] at h
    cases t <;> intro hc
    · exact Option.noConfusion hc
    all_goals
      have hc2 := (Option.some.inj hc).symm
      contradiction
  · intro h
    by_contra hc
    exact h _ (parse_parameter_type_keyword k s _ rfl hc)

theorem mem_declaredParamTypes (t : ParamType) (ht : t ≠ ParamType.PARAM_TYPE_UNKNOWN) :
    t ∈ declaredParamTypes := by
  cases t <;> first | exact absurd rfl ht | simp [declaredParamTypes]

theorem parse_parameter_type_spec (k : ParamTypeKeywords) (hd : k.all.Nodup) (s : String) :
    (∀ t, k.keyword t = some s → parse_parameter_type k s = t) ∧
    (parse_parameter_type k s = ParamType.PARAM_TYPE_UNKNOWN ↔ some s ∉ k.all) ∧
    (∀ s2, some s ∈ k.all → some s2 ∈ k.all → s ≠ s2 →
      parse_parameter_type k s ≠ parse_parameter_type k s2) := by
  have hmem : ∀ x, some x ∈ k.all ↔ ∃ t, k.keyword t = some x := by
    intro x
    unfold ParamTypeKeywords.all
    rw [List.mem_map]
    constructor
    · rintro ⟨t, _, h⟩; exact ⟨t, h⟩
    · rintro ⟨t, h⟩
      refine ⟨t, mem_declaredParamTypes t ?_, h⟩
      rintro rfl
      simp [ParamTypeKeywords.keyword] at h
  have hfound : ∀ x t, k.keyword t = some x → parse_parameter_type k x = t := by
    intro x t h
    have hne : parse_parameter_type k x ≠ ParamType.PARAM_TYPE_UNKNOWN := by
      intro hc
      exact (parse_parameter_type_unknown k x).1 hc t h
    have h2 := parse_parameter_type_keyword k x _ rfl hne
    have ht : t ≠ ParamType.PARAM_TYPE_UNKNOWN := by
      rintro rfl
      simp [ParamTypeKeywords.keyword] at h
    exact List.inj_on_of_nodup_map hd (mem_declaredParamTypes _ hne)
      (mem_declaredParamTypes _ ht) (h2.trans h.symm)
  refine ⟨hfound s, ?_, ?_⟩
  · rw [parse_parameter_type_unknown, hmem]
    constructor
    · rintro h ⟨t, ht⟩; exact h t ht
    · intro h t ht; exact h ⟨t, ht⟩
  · intro s2 h1 h2 hne hc
    obtain ⟨t1, ht1⟩ := (hmem s).1 h1
    obtain ⟨t2, ht2⟩ := (hmem s2).1 h2
    rw [hfound s t1 ht1, hfound s2 t2 ht2] at hc
    rw [hc, ht2] at ht1
    exact hne (Option.some.inj ht1).symm

/-- C12: with fifteen pairwise distinct keywords, `parse_parameter_type` (a
total function) returns the type whose keyword is `s`; it returns
`PARAM_TYPE_UNKNOWN` exactly when `s` is none of the keywords; and two
different keywords are parsed to different types. -/
theorem parse_parameter_type_exact (k : ParamTypeKeywords) (hd : k.all.Nodup) (s : String) :
    k.all.length = 15 ∧
    (∀ t, k.keyword t = some s → parse_parameter_type k s = t) ∧
    (parse_parameter_type k s = ParamType.PARAM_TYPE_UNKNOWN ↔ some s ∉ k.all) ∧
    (∀ s2, some s ∈ k.all → some s2 ∈ k.all → s ≠ s2 →
      parse_parameter_type k s ≠ parse_parameter_type k s2) :=
  ⟨rfl, parse_parameter_type_spec k hd s⟩

theorem parse_parameter_type_exact_witness :
    openfxParamTypeKeywords.all.Nodup ∧
    parse_parameter_type openfxParamTypeKeywords "OfxParamTypeRGBA" = ParamType.PARAM_TYPE_RGBA ∧
    parse_parameter_type openfxParamTypeKeywords "OfxParamTypeRgba" =
      ParamType.PARAM_TYPE_UNKNOWN ∧
    (parse_parameter_type openfxParamTypeKeywords "OfxParamTypeRgba" =
        ParamType.PARAM_TYPE_UNKNOWN ↔
      some "OfxParamTypeRgba" ∉ openfxParamTypeKeywords.all) :=
  ⟨by decide, by decide, by decide,
    (parse_parameter_type_exact openfxParamTypeKeywords (by decide) "OfxParamTypeRgba").2.2.1⟩

/-- C13: `parameter_type_dimensions` is the fixed table: 1 for Integer, Double,
Boolean, String, Choice, Custom, PushButton, Group and Page; 2 for Integer2D
and Double2D; 3 for Integer3D, Double3D and RGB; 4 for RGBA; 1 for Unknown.
The result is always between 1 and 4. -/
theorem parameter_type_dimensions_table :
    parameter_type_dimensions ParamType.PARAM_TYPE_INTEGER = 1 ∧
    parameter_type_dimensions ParamType.PARAM_TYPE_DOUBLE = 1 ∧
    parameter_type_dimensions ParamType.PARAM_TYPE_BOOLEAN = 1 ∧
    parameter_type_dimensions ParamType.PARAM_TYPE_STRING = 1 ∧
    parameter_type_dimensions ParamType.PARAM_TYPE_CHOICE = 1 ∧
    parameter_type_dimensions ParamType.PARAM_TYPE_CUSTOM = 1 ∧
    parameter_type_dimensions ParamType.PARAM_TYPE_PUSH_BUTTON = 1 ∧
    parameter_type_dimensions ParamType.PARAM_TYPE_GROUP = 1 ∧
    parameter_type_dimensions ParamType.PARAM_TYPE_PAGE = 1 ∧
    parameter_type_dimensions ParamType.PARAM_TYPE_INTEGER_2D = 2 ∧
    parameter_type_dimensions ParamType.PARAM_TYPE_DOUBLE_2D = 2 ∧
    parameter_type_dimensions ParamType.PARAM_TYPE_INTEGER_3D = 3 ∧
    parameter_type_dimensions ParamType.PARAM_TYPE_DOUBLE_3D = 3 ∧
    parameter_type_dimensions ParamType.PARAM_TYPE_RGB = 3 ∧
    parameter_type_dimensions ParamType.PARAM_TYPE_RGBA = 4 ∧
    parameter_type_dimensions ParamType.PARAM_TYPE_UNKNOWN = 1 ∧
    ∀ t, 1 ≤ parameter_type_dimensions t ∧ parameter_type_dimensions t ≤ 4 := by
  refine ⟨rfl, rfl, rfl, rfl, rfl, rfl, rfl, rfl, rfl, rfl, rfl, rfl, rfl, rfl, rfl, rfl, ?_⟩
  intro t
  cases t <;> decide

/-- C14: with three pairwise distinct suite names, `fetchSuite` returns a
table exactly when the version is 1 and the name is one of the three names,
and then it is that suite's table; the three tables are different; any other
version gives `NULL`; and the result does not depend on the host handle. -/
theorem fetchSuite_exact (k : SuiteNames)
    (h12 : k.kOfxMeshEffectSuite ≠ k.kOfxParameterSuite)
    (h13 : k.kOfxMeshEffectSuite ≠ k.kOfxPropertySuite)
    (h23 : k.kOfxParameterSuite ≠ k.kOfxPropertySuite)
    (host : Ptr) (s : String) (v : Int) :
    (fetchSuite k host s v ≠ none ↔
      v = 1 ∧ (s = k.kOfxMeshEffectSuite ∨ s = k.kOfxParameterSuite ∨
        s = k.kOfxPropertySuite)) ∧
    fetchSuite k host k.kOfxMeshEffectSuite 1 = some SuiteTable.gMeshEffectSuiteV1 ∧
    fetchSuite k host k.kOfxParameterSuite 1 = some SuiteTable.gParameterSuiteV1 ∧
    fetchSuite k host k.kOfxPropertySuite 1 = some SuiteTable.gPropertySuiteV1 ∧
    SuiteTable.gMeshEffectSuiteV1 ≠ SuiteTable.gParameterSuiteV1 ∧
    SuiteTable.gMeshEffectSuiteV1 ≠ SuiteTable.gPropertySuiteV1 ∧
    SuiteTable.gParameterSuiteV1 ≠ SuiteTable.gPropertySuiteV1 ∧
    (v ≠ 1 → fetchSuite k host s v = none) ∧
    (∀ host2, fetchSuite k host2 s v = fetchSuite k host s v) := by
  refine ⟨?_, ?_, ?_, ?_, by decide, by decide, by decide, ?_, fun _ => rfl⟩
  · unfold fetchSuite
    by_cases hv : v = 1
    · subst hv
      by_cases h1 : s = k.kOfxMeshEffectSuite
      · simp [h1]
      · by_cases h2 : s = k.kOfxParameterSuite
        · simp [h2, Ne.symm h12]
        · by_cases h3 : s = k.kOfxPropertySuite
          · simp [h3, Ne.symm h13, Ne.symm h23]
          · simp [h1, h2, h3]
    · simp [hv]
  · simp [fetchSuite]
  · simp [fetchSuite, Ne.symm h12]
  · simp [fetchSuite, Ne.symm h13, Ne.symm h23]
  · intro hv
    simp [fetchSuite, hv]

theorem fetchSuite_exact_witness :
    openfxSuiteNames.kOfxMeshEffectSuite ≠ openfxSuiteNames.kOfxParameterSuite ∧
    openfxSuiteNames.kOfxMeshEffectSuite ≠ openfxSuiteNames.kOfxPropertySuite ∧
    openfxSuiteNames.kOfxParameterSuite ≠ openfxSuiteNames.kOfxPropertySuite ∧
    fetchSuite openfxSuiteNames 0 "OfxMeshEffectSuite" 1 = some SuiteTable.gMeshEffectSuiteV1 ∧
    fetchSuite openfxSuiteNames 0 "OfxMeshEffectSuite" 2 = none ∧
    (2 ≠ (1 : Int) → fetchSuite openfxSuiteNames 0 "OfxMeshEffectSuite" 2 = none) :=
  ⟨by decide, by decide, by decide, by decide, by decide,
    (fetchSuite_exact openfxSuiteNames (by decide) (by decide) (by decide) 0
      "OfxMeshEffectSuite" 2).2.2.2.2.2.2.2.1⟩

/-! ## Theorems: set_type -/

theorem Mem.log_store (m : Mem) (p : Nat) (o : Obj) : (m.store p o).log = m.log := by
  cases p <;> rfl

/-- The method `realloc_string` on a parameter whose string pointer is null,
as an equation: one allocation, then two stores. -/
theorem realloc_string_null_eq (m : Mem) (this size : Nat) (x : OfxParamStruct)
    (hthis : m.read this = some (Obj.param x)) (h0 : x.value0 = 0) (hsize : 0 < size) :
    OfxParamStruct.realloc_string m this size =
      some (((m.alloc (Obj.chars size "")).2.store this
        (Obj.param { x with value0 := m.cells.length + 1 })).store (m.cells.length + 1)
          (Obj.chars size "")) := by
  obtain ⟨ht1, ht2⟩ := m.read_le_length _ _ hthis
  let mB := (m.alloc (Obj.chars size "")).2
  have hthisB : mB.read this = some (Obj.param x) := by
    show (m.alloc _).2.read _ = _
    rw [Mem.read_alloc, if_neg (by omega)]; exact hthis
  let mC := mB.store this (Obj.param { x with value0 := m.cells.length + 1 })
  have hmodC : mB.modifyParam this (fun x => { x with value0 := m.cells.length + 1 }) = some mC :=
    mB.modifyParam_eq this _ x ((mB.readParam_eq _ _).2 hthisB)
  have hthisC : mC.read this = some (Obj.param { x with value0 := m.cells.length + 1 }) := by
    show (mB.store _ _).read _ = _
    rw [Mem.read_store mB _ _ _ _ hthisB, if_pos rfl]
  have hnewC : mC.read (m.cells.length + 1) = some (Obj.chars size "") := by
    show ((m.alloc _).2.store _ _).read _ = _
    rw [Mem.read_store mB _ _ _ _ hthisB, if_neg (by omega), Mem.read_alloc, if_pos rfl]
  have hcpy : mC.strcpy (m.cells.length + 1) "" =
      some (mC.store (m.cells.length + 1) (Obj.chars size "")) :=
    mC.strcpy_eq _ "" "" _ hnewC (by simpa using hsize)
  unfold OfxParamStruct.realloc_string
  simp only [(m.readParam_eq _ _).2 hthis, Option.bind_eq_bind, Option.some_bind, h0, ne_eq,
    not_true_eq_false, if_false, Mem.fst_alloc]
  show (mB.modifyParam this _).bind _ = _
  rw [hmodC]
  simp only [Option.some_bind, (mC.readParam_eq _ _).2 hthisC, hcpy]

theorem set_type_same (m : Mem) (this : Nat) (x : OfxParamStruct) (t : ParamType)
    (hthis : m.readParam this = some x) (h : x.type = t) :
    OfxParamStruct.set_type m this t = some m := by
  simp [OfxParamStruct.set_type, hthis, h]

/-- The method `set_type` when the type changes. -/
theorem set_type_change (m : Mem) (this : Nat) (x : OfxParamStruct) (t : ParamType)
    (hthis : m.readParam this = some x) (hne : x.type ≠ t)
    (hbuf : x.type = ParamType.PARAM_TYPE_STRING →
      ∃ size s, m.read x.value0 = some (Obj.chars size s)) :
    ∃ (m1 : Mem) (y : OfxParamStruct), OfxParamStruct.set_type m this t = some m1 ∧
      m1.readParam this = some y ∧ y.type = t ∧
      (x.type = ParamType.PARAM_TYPE_STRING →
        m1.log = m.log ++ [MemEvent.free x.value0] ∧ y.value0 = 0) ∧
      (x.type ≠ ParamType.PARAM_TYPE_STRING → t ≠ ParamType.PARAM_TYPE_STRING →
        m1.log = m.log ∧ y.value0 = x.value0) ∧
      (t = ParamType.PARAM_TYPE_STRING →
        m1.log = m.log ++ [MemEvent.malloc (m.cells.length + 1)] ∧
        y.value0 = m.cells.length + 1 ∧
        m1.read (m.cells.length + 1) = some (Obj.chars 1 "")) := by
  have hr := (m.readParam_eq _ _).1 hthis
  obtain ⟨ht1, ht2⟩ := m.read_le_length _ _ hr
  by_cases hS : x.type = ParamType.PARAM_TYPE_STRING
  · -- the old buffer is released; the new type is not String
    obtain ⟨size, s, hb⟩ := hbuf hS
    have htS : t ≠ ParamType.PARAM_TYPE_STRING := fun h => hne (hS.trans h.symm)
    have hpne : this ≠ x.value0 := by
      intro h
      rw [← h, hr] at hb
      cases hb
    let m0 : Mem := { cells := m.cells.set (x.value0 - 1) none,
                      log := m.log ++ [MemEvent.free x.value0] }
    have hfree : m.free_array x.value0 = some m0 := m.free_eq _ _ hb
    have hr0 : m0.read this = some (Obj.param x) := by
      rw [m.read_free m0 _ _ hfree, if_neg hpne]; exact hr
    let mA := m0.store this (Obj.param { x with value0 := 0 })
    have hmodA : m0.modifyParam this (fun x => { x with value0 := 0 }) = some mA :=
      m0.modifyParam_eq this _ x ((m0.readParam_eq _ _).2 hr0)
    have hrA : mA.read this = some (Obj.param { x with value0 := 0 }) := by
      show (m0.store _ _).read _ = _
      rw [Mem.read_store m0 _ _ _ _ hr0, if_pos rfl]
    let m2 := mA.store this (Obj.param { x with value0 := 0, type := t })
    have hmod2 : mA.modifyParam this (fun x => { x with type := t }) = some m2 :=
      mA.modifyParam_eq this _ _ ((mA.readParam_eq _ _).2 hrA)
    have hr2 : m2.read this = some (Obj.param { x with value0 := 0, type := t }) := by
      show (mA.store _ _).read _ = _
      rw [Mem.read_store mA _ _ _ _ hrA, if_pos rfl]
    refine ⟨m2, { x with value0 := 0, type := t }, ?_, (m2.readParam_eq _ _).2 hr2, rfl, ?_, ?_, ?_⟩
    · unfold OfxParamStruct.set_type
      have hne2 : ¬ ParamType.PARAM_TYPE_STRING = t := fun h => hne (hS.trans h)
      simp only [hthis, Option.bind_eq_bind, Option.some_bind, hS, hne2, if_false, if_true, hfree,
        hmodA, hmod2, (m2.readParam_eq _ _).2 hr2, htS]
    · intro _
      refine ⟨?_, rfl⟩
      show ((m0.store _ _).store _ _).log = _
      rw [Mem.log_store, Mem.log_store]
    · intro h; exact absurd hS h
    · intro h; exact absurd h htS
  · let m2 := m.store this (Obj.param { x with type := t })
    have hmod2 : m.modifyParam this (fun x => { x with type := t }) = some m2 :=
      m.modifyParam_eq this _ _ hthis
    have hr2 : m2.read this = some (Obj.param { x with type := t }) := by
      show (m.store _ _).read _ = _
      rw [Mem.read_store m _ _ _ _ hr, if_pos rfl]
    have hlen2 : m2.cells.length = m.cells.length := Mem.length_store _ _ _
    by_cases htS : t = ParamType.PARAM_TYPE_STRING
    · let m3 := m2.store this (Obj.param { x with type := t, value0 := 0 })
      have hmod3 : m2.modifyParam this (fun x => { x with value0 := 0 }) = some m3 :=
        m2.modifyParam_eq this _ _ ((m2.readParam_eq _ _).2 hr2)
      have hr3 : m3.read this = some (Obj.param { x with type := t, value0 := 0 }) := by
        show (m2.store _ _).read _ = _
        rw [Mem.read_store m2 _ _ _ _ hr2, if_pos rfl]
      have hlen3 : m3.cells.length = m.cells.length := by
        show (m2.store _ _).cells.length = _
        rw [Mem.length_store]; exact hlen2
      let mB := (m3.alloc (Obj.chars 1 "")).2
      let mC := mB.store this (Obj.param { x with type := t, value0 := m.cells.length + 1 })
      let mD := mC.store (m.cells.length + 1) (Obj.chars 1 "")
      have hre : OfxParamStruct.realloc_string m3 this 1 = some mD := by
        have h := realloc_string_null_eq m3 this 1 _ hr3 rfl Nat.one_pos
        rw [hlen3] at h
        exact h
      have hthisB : mB.read this = some (Obj.param { x with type := t, value0 := 0 }) := by
        show (m3.alloc _).2.read _ = _
        rw [Mem.read_alloc, if_neg (by omega)]; exact hr3
      have hthisC : mC.read this =
          some (Obj.param { x with type := t, value0 := m.cells.length + 1 }) := by
        show (mB.store _ _).read _ = _
        rw [Mem.read_store _ _ _ _ _ hthisB, if_pos rfl]
      have hnew : mC.read (m.cells.length + 1) = some (Obj.chars 1 "") := by
        show (mB.store _ _).read _ = _
        rw [Mem.read_store _ _ _ _ _ hthisB, if_neg (by omega)]
        show (m3.alloc _).2.read _ = _
        rw [Mem.read_alloc, if_pos (by omega)]
      refine ⟨mD, { x with type := t, value0 := m.cells.length + 1 }, ?_, ?_, rfl, ?_, ?_, ?_⟩
      · unfold OfxParamStruct.set_type
        simp only [hthis, Option.bind_eq_bind, Option.some_bind, hne, if_false, hS, hmod2,
          (m2.readParam_eq _ _).2 hr2]
        simp only [htS, if_true, hmod3, Option.some_bind]
        exact hre
      · rw [Mem.readParam_eq]
        show (mC.store _ _).read _ = _
        rw [Mem.read_store _ _ _ _ _ hnew, if_neg (by omega)]
        exact hthisC
      · intro h; exact absurd h hS
      · intro _ h; exact absurd htS h
      · intro _
        refine ⟨?_, rfl, ?_⟩
        · show ((mB.store _ _).store _ _).log = _
          rw [Mem.log_store, Mem.log_store]
          show m3.log ++ [MemEvent.malloc (m3.cells.length + 1)] = _
          rw [hlen3]
          show ((m.store _ _).store _ _).log ++ _ = _
          rw [Mem.log_store, Mem.log_store]
        · show (mC.store _ _).read _ = _
          rw [Mem.read_store _ _ _ _ _ hnew, if_pos rfl]
    · refine ⟨m2, { x with type := t }, ?_, (m2.readParam_eq _ _).2 hr2, rfl, ?_, ?_, ?_⟩
      · unfold OfxParamStruct.set_type
        simp only [hthis, Option.bind_eq_bind, Option.some_bind, hne, if_false, hS, hmod2,
          (m2.readParam_eq _ _).2 hr2, htS]
      · intro h; exact absurd h hS
      · intro _ _
        exact ⟨Mem.log_store _ _ _, rfl⟩
      · intro h; exact absurd h htS

/-- C11: `set_type` is idempotent.  On a parameter that already has type `t`,
`set_type(t)` returns the heap unchanged, allocation log included.  From any
parameter (whose string buffer, if its type is String, is live), `set_type(t)`
returns, leaves the type `t`, and a second `set_type(t)` changes nothing; for
`t` = String on a parameter of another type the two calls together allocate
exactly one block, a one-byte buffer holding the empty string, which the
parameter still points to after the second call. -/
theorem set_type_idempotent (m : Mem) (this : Nat) (x : OfxParamStruct) (t : ParamType)
    (hthis : m.readParam this = some x)
    (hbuf : x.type = ParamType.PARAM_TYPE_STRING →
      ∃ size s, m.read x.value0 = some (Obj.chars size s)) :
    (x.type = t → OfxParamStruct.set_type m this t = some m) ∧
    ∃ (m1 : Mem) (y : OfxParamStruct), OfxParamStruct.set_type m this t = some m1 ∧
      m1.readParam this = some y ∧ y.type = t ∧
      OfxParamStruct.set_type m1 this t = some m1 ∧
      (t = ParamType.PARAM_TYPE_STRING → x.type ≠ ParamType.PARAM_TYPE_STRING →
        m1.log = m.log ++ [MemEvent.malloc (m.cells.length + 1)] ∧
        y.value0 = m.cells.length + 1 ∧
        m1.read (m.cells.length + 1) = some (Obj.chars 1 "")) := by
  refine ⟨set_type_same m this x t hthis, ?_⟩
  by_cases h : x.type = t
  · refine ⟨m, x, set_type_same m this x t hthis h, hthis, h, set_type_same m this x t hthis h, ?_⟩
    intro h1 h2
    exact absurd (h.trans h1) h2
  · obtain ⟨m1, y, h1, h2, h3, _, _, h6⟩ := set_type_change m this x t hthis h hbuf
    exact ⟨m1, y, h1, h2, h3, set_type_same m1 this y t h2 h3, fun ht _ => h6 ht⟩

theorem set_type_idempotent_witness :
    sampleMem.readParam 2 = some
      { type := ParamType.PARAM_TYPE_DOUBLE, name := 3, value0 := 42, value1 := 0, value2 := 0,
        value3 := 0, properties := new_OfxParamStruct.properties } ∧
    ∃ (m1 : Mem) (y : OfxParamStruct),
      OfxParamStruct.set_type sampleMem 2 ParamType.PARAM_TYPE_STRING = some m1 ∧
      m1.readParam 2 = some y ∧ y.type = ParamType.PARAM_TYPE_STRING ∧
      OfxParamStruct.set_type m1 2 ParamType.PARAM_TYPE_STRING = some m1 ∧
      (ParamType.PARAM_TYPE_STRING = ParamType.PARAM_TYPE_STRING →
        ParamType.PARAM_TYPE_DOUBLE ≠ ParamType.PARAM_TYPE_STRING →
        m1.log = sampleMem.log ++ [MemEvent.malloc (sampleMem.cells.length + 1)] ∧
        y.value0 = sampleMem.cells.length + 1 ∧
        m1.read (sampleMem.cells.length + 1) = some (Obj.chars 1 "")) :=
  ⟨by decide,
    (set_type_idempotent sampleMem 2
      { type := ParamType.PARAM_TYPE_DOUBLE, name := 3, value0 := 42, value1 := 0, value2 := 0,
        value3 := 0, properties := new_OfxParamStruct.properties }
      ParamType.PARAM_TYPE_STRING (by decide) (fun h => absurd h (by decide))).2⟩

/-! ## Theorems: the global host -/

theorem int_wrap_id (x : Int) (h1 : INT_MIN ≤ x) (h2 : x ≤ INT_MAX) : int_wrap x = x := by
  have h1b : (-2147483648 : Int) ≤ x := h1
  have h2b : x ≤ (2147483647 : Int) := h2
  unfold int_wrap
  omega

theorem getGlobalHost_init : getGlobalHost HostState.init = (1, hostAlive 1) := rfl

theorem getGlobalHost_held (c : Int) (hc : c ≠ 0) :
    getGlobalHost (hostHeld c) = (1, hostHeld (int_wrap (c + 1))) := by
  simp [getGlobalHost, hostHeld, hostAlive, hc]

theorem hostAlive_eq_held (u : Nat) : hostAlive u = hostHeld (u : Int) := rfl

theorem getGlobalHost_alive (u : Nat) (hu : 1 ≤ u) (hmax : (u : Int) + 1 ≤ INT_MAX) :
    getGlobalHost (hostAlive u) = (1, hostAlive (u + 1)) := by
  have h : ((u : Int) ≠ 0) := by omega
  have hmax2 : (u : Int) + 1 ≤ 2147483647 := hmax
  rw [hostAlive_eq_held, getGlobalHost_held _ h, hostAlive_eq_held,
    int_wrap_id _ (by show (-2147483648 : Int) ≤ _; omega) hmax]
  simp

theorem releaseGlobalHost_alive (u : Nat) (hu : 1 ≤ u) (hmax : (u : Int) + 1 ≤ INT_MAX) :
    releaseGlobalHost (hostAlive (u + 1)) = some (hostAlive u) := by
  have h : ¬ ((u : Int) = 0) := by omega
  have hmax2 : (u : Int) + 1 ≤ 2147483647 := hmax
  have hw : int_wrap (u : Int) = (u : Int) :=
    int_wrap_id _ (by show (-2147483648 : Int) ≤ _; omega)
      (by show _ ≤ (2147483647 : Int); omega)
  simp [releaseGlobalHost, hostAlive, hw, h]

theorem releaseGlobalHost_last : releaseGlobalHost (hostAlive 1) = some hostGone := by
  decide

/-- A sequence of calls on a live host during which the use count stays
positive until the last call and never exceeds `INT_MAX`. -/
theorem hostCalls_alive (cs : List HostCall) : ∀ (u : Nat), 1 ≤ u →
    ((u : Int) + acquires cs ≤ INT_MAX) →
    (∀ k, k < cs.length → releases (cs.take k) < u + acquires (cs.take k)) →
    hostCalls cs (hostAlive u) = some (List.replicate (acquires cs) 1,
      if releases cs < u + acquires cs then hostAlive (u + acquires cs - releases cs)
      else hostGone) := by
  induction cs with
  | nil =>
    intro u hu _ _
    have h : 0 < u := hu
    simp [hostCalls, acquires, releases, h]
  | cons c cs ih =>
    intro u hu hmax hk
    have hmax2 : (u : Int) + acquires (c :: cs) ≤ 2147483647 := hmax
    cases c with
    | acquire =>
      have ha : acquires (HostCall.acquire :: cs) = acquires cs + 1 := by simp [acquires]
      have hr : releases (HostCall.acquire :: cs) = releases cs := by simp [releases]
      rw [ha] at hmax2
      have hk2 : ∀ k, k < cs.length →
          releases (cs.take k) < (u + 1) + acquires (cs.take k) := by
        intro k hlt
        have := hk (k + 1) (by simp; omega)
        simp [acquires, releases, List.take_succ_cons] at this ⊢
        omega
      have h1 := ih (u + 1) (by omega) (by show _ ≤ (2147483647 : Int); push_cast; omega) hk2
      have hg := getGlobalHost_alive u hu (by show _ ≤ (2147483647 : Int); push_cast at hmax2; omega)
      simp only [hostCalls, hg, h1, ha, hr, List.replicate_succ]
      have e1 : u + (acquires cs + 1) = u + 1 + acquires cs := by omega
      rw [e1]
    | release =>
      have ha : acquires (HostCall.release :: cs) = acquires cs := by simp [acquires]
      have hr : releases (HostCall.release :: cs) = releases cs + 1 := by simp [releases]
      rw [ha] at hmax2
      cases cs with
      | nil =>
        rcases Nat.eq_or_lt_of_le hu with h1 | h1
        · subst h1
          simp [hostCalls, releaseGlobalHost_last, acquires, releases]
        · obtain ⟨v, rfl⟩ : ∃ v, u = v + 1 := ⟨u - 1, by omega⟩
          have hv : 1 ≤ v := by omega
          have h2 : 1 < v + 1 := by omega
          have hrel := releaseGlobalHost_alive v hv
            (by show _ ≤ (2147483647 : Int); push_cast at hmax2; omega)
          simp [hostCalls, hrel, acquires, releases, h2]
      | cons c2 cs2 =>
        have hu2 := hk 1 (by simp)
        simp [acquires, releases] at hu2
        obtain ⟨v, rfl⟩ : ∃ v, u = v + 1 := ⟨u - 1, by omega⟩
        have hv : 1 ≤ v := by omega
        have hk2 : ∀ k, k < (c2 :: cs2).length →
            releases ((c2 :: cs2).take k) < v + acquires ((c2 :: cs2).take k) := by
          intro k hlt
          have := hk (k + 1) (by simp at hlt ⊢; omega)
          simp only [List.take_succ_cons] at this
          simp only [acquires, releases, List.count_cons_self,
            List.count_cons_of_ne (show HostCall.acquire ≠ HostCall.release by decide)]
            at this ⊢
          omega
        have h1 := ih v hv (by show _ ≤ (2147483647 : Int); push_cast at hmax2; omega) hk2
        have hrel := releaseGlobalHost_alive v hv
          (by show _ ≤ (2147483647 : Int); push_cast at hmax2; omega)
        simp only [hostCalls, hrel, h1, ha, hr]
        have e1 : (releases (c2 :: cs2) + 1 < v + 1 + acquires (c2 :: cs2)) ↔
            (releases (c2 :: cs2) < v + acquires (c2 :: cs2)) := by omega
        have e2 : v + 1 + acquires (c2 :: cs2) - (releases (c2 :: cs2) + 1) =
            v + acquires (c2 :: cs2) - releases (c2 :: cs2) := by omega
        simp only [e1, e2]

/-- A sequence of calls from the initial state, with at most `INT_MAX`
acquisitions, during which the host is held from the first call to the last
one. -/
theorem hostCalls_init (cs : List HostCall) (hN : 1 ≤ acquires cs)
    (hmax : (acquires cs : Int) ≤ INT_MAX)
    (hheld : ∀ k, k < cs.length → 0 < k → releases (cs.take k) < acquires (cs.take k)) :
    hostCalls cs HostState.init = some (List.replicate (acquires cs) 1,
      if releases cs < acquires cs then hostAlive (acquires cs - releases cs)
      else hostGone) := by
  have hmax2 : (acquires cs : Int) ≤ 2147483647 := hmax
  cases cs with
  | nil => simp [acquires] at hN
  | cons c cs =>
    cases c with
    | release =>
      cases cs with
      | nil => simp [acquires] at hN
      | cons c2 cs2 =>
        have := hheld 1 (by simp) (by omega)
        simp [acquires, releases] at this
    | acquire =>
      have ha : acquires (HostCall.acquire :: cs) = acquires cs + 1 := by simp [acquires]
      have hr : releases (HostCall.acquire :: cs) = releases cs := by simp [releases]
      rw [ha] at hmax2
      have hk2 : ∀ k, k < cs.length → releases (cs.take k) < 1 + acquires (cs.take k) := by
        intro k hlt
        have := hheld (k + 1) (by simp; omega) (by omega)
        simp [acquires, releases, List.take_succ_cons] at this ⊢
        omega
      have h1 := hostCalls_alive cs 1 (by omega)
        (by show _ ≤ (2147483647 : Int); push_cast at hmax2 ⊢; omega) hk2
      simp only [hostCalls, getGlobalHost_init, h1, ha, hr, List.replicate_succ]
      have e1 : (releases cs < 1 + acquires cs) ↔ (releases cs < acquires cs + 1) := by omega
      have e2 : 1 + acquires cs - releases cs = acquires cs + 1 - releases cs := by omega
      simp only [e1, e2]

/-- The sequence of `n` acquisitions followed by `k ≤ n` releases holds the
host from its first call to its last one. -/
theorem acquire_release_held (n k : Nat) (hk : k ≤ n) :
    acquires (List.replicate n HostCall.acquire ++ List.replicate k HostCall.release) = n ∧
    releases (List.replicate n HostCall.acquire ++ List.replicate k HostCall.release) = k ∧
    ∀ j, j < (List.replicate n HostCall.acquire ++ List.replicate k HostCall.release).length →
      0 < j →
      releases ((List.replicate n HostCall.acquire ++
        List.replicate k HostCall.release).take j) <
      acquires ((List.replicate n HostCall.acquire ++
        List.replicate k HostCall.release).take j) := by
  refine ⟨by simp [acquires, List.count_replicate], by simp [releases, List.count_replicate], ?_⟩
  intro j hj hpos
  simp only [List.length_append, List.length_replicate] at hj
  simp only [acquires, releases, List.take_append_eq_append_take, List.take_replicate,
    List.length_replicate, List.count_append, List.count_replicate]
  simp
  omega

theorem hostCalls_acquire_cons (cs : List HostCall) (s : HostState) :
    hostCalls (HostCall.acquire :: cs) s =
      (hostCalls cs (getGlobalHost s).2).map (fun r => ((getGlobalHost s).1 :: r.1, r.2)) := by
  cases h : hostCalls cs (getGlobalHost s).2 <;> simp [hostCalls, h]

theorem int_wrap_succ (c : Int) (j : Nat) :
    int_wrap (int_wrap (c + 1) + (j : Int)) = int_wrap (c + ((j + 1 : Nat) : Int)) := by
  unfold int_wrap
  push_cast
  omega

/-- Acquisitions on the first host while the counter does not come back to 0:
each returns the first host, and the counter ends at the wrapped sum. -/
theorem hostCalls_acquires_held (k : Nat) : ∀ (c : Int) (rest : List HostCall),
    int_wrap c = c → (∀ j : Nat, j < k → int_wrap (c + (j : Int)) ≠ 0) →
    hostCalls (List.replicate k HostCall.acquire ++ rest) (hostHeld c) =
      (hostCalls rest (hostHeld (int_wrap (c + (k : Int))))).map
        (fun r => (List.replicate k 1 ++ r.1, r.2)) := by
  induction k with
  | zero =>
    intro c rest hc _
    rw [List.replicate_zero, List.nil_append, Nat.cast_zero, Int.add_zero, hc]
    cases hostCalls rest (hostHeld c) <;> simp
  | succ k ih =>
    intro c rest hc hne
    have h0 : c ≠ 0 := by
      have := hne 0 (Nat.succ_pos _)
      rw [Nat.cast_zero, Int.add_zero, hc] at this
      exact this
    have hidem : int_wrap (int_wrap (c + 1)) = int_wrap (c + 1) := by
      unfold int_wrap; omega
    have hne2 : ∀ j : Nat, j < k → int_wrap (int_wrap (c + 1) + (j : Int)) ≠ 0 := by
      intro j hj
      rw [int_wrap_succ]
      exact hne (j + 1) (Nat.succ_lt_succ hj)
    rw [List.replicate_succ, List.cons_append, hostCalls_acquire_cons, getGlobalHost_held c h0,
      ih _ rest hidem hne2, int_wrap_succ]
    cases hostCalls rest (hostHeld (int_wrap (c + ((k + 1 : Nat) : Int)))) <;>
      simp [List.replicate_succ]

theorem hostCalls_releases_nil (k : Nat) : ∀ (s s1 : HostState) (hs : List Ptr),
    hostCalls (List.replicate k HostCall.release) s = some (hs, s1) → hs = [] := by
  induction k with
  | zero =>
    intro s s1 hs h
    simp only [List.replicate_zero, hostCalls, Option.some.injEq, Prod.mk.injEq] at h
    exact h.1.symm
  | succ k ih =>
    intro s s1 hs h
    rw [List.replicate_succ] at h
    cases hr : releaseGlobalHost s with
    | none => simp [hostCalls, hr] at h
    | some s2 =>
      simp only [hostCalls, hr] at h
      exact ih s2 s1 hs h

theorem getGlobalHost_second : getGlobalHost (hostHeld 0) = (3, secondHost) := by
  decide

/-- When the counter has wrapped around to 0 after `K + 1` acquisitions, with
the first host still alive, acquisition `K + 2` allocates a second host: the
acquisitions do not all return the same handle, whatever releases follow. -/
theorem second_host_after_wrap (K : Nat) (h0 : int_wrap (1 + (K : Int)) = 0)
    (hne : ∀ j : Nat, j < K → int_wrap (1 + (j : Int)) ≠ 0) (M : Nat) :
    hostCalls (List.replicate (K + 2) HostCall.acquire) HostState.init =
      some (List.replicate (K + 1) 1 ++ [3], secondHost) ∧
    ¬ ∃ (h : Ptr) (s1 : HostState),
      hostCalls (List.replicate (K + 2) HostCall.acquire ++ List.replicate M HostCall.release)
        HostState.init = some (List.replicate (K + 2) h, s1) := by
  have hshape : ∀ rest : List HostCall,
      hostCalls (List.replicate (K + 2) HostCall.acquire ++ rest) HostState.init =
        (hostCalls rest secondHost).map
          (fun r => (List.replicate (K + 1) 1 ++ (3 :: r.1), r.2)) := by
    intro rest
    have e : List.replicate (K + 2) HostCall.acquire ++ rest =
        HostCall.acquire :: (List.replicate K HostCall.acquire ++ (HostCall.acquire :: rest)) := by
      rw [List.replicate_succ, List.replicate_succ', List.cons_append, List.append_assoc,
        List.singleton_append]
    rw [e, hostCalls_acquire_cons, getGlobalHost_init, hostAlive_eq_held,
      hostCalls_acquires_held K _ _ (by decide) (by simpa using hne), hostCalls_acquire_cons]
    have e2 : int_wrap (((1 : Nat) : Int) + (K : Int)) = 0 := by simpa using h0
    rw [e2, getGlobalHost_second]
    cases hostCalls rest secondHost <;> simp [List.replicate_succ]
  refine ⟨?_, ?_⟩
  · have := hshape []
    rw [List.append_nil] at this
    rw [this]
    rfl
  · rintro ⟨h, s1, hrun⟩
    rw [hshape] at hrun
    cases hrel : hostCalls (List.replicate M HostCall.release) secondHost with
    | none => rw [hrel] at hrun; cases hrun
    | some r =>
      rw [hrel] at hrun
      have hnil := hostCalls_releases_nil M secondHost r.2 r.1 hrel
      simp only [Option.map_some', Option.some.injEq, Prod.mk.injEq] at hrun
      rw [hnil] at hrun
      have hl := hrun.1
      have e3 : List.replicate (K + 2) h = List.replicate (K + 1) h ++ [h] :=
        List.replicate_succ' (K + 1) h
      rw [e3] at hl
      have hlast := List.append_inj_right hl (by simp)
      have hfirst := List.append_inj_left hl (by simp)
      have h3 : (3 : Ptr) = h := by simpa using hlast
      have h1 : (1 : Ptr) = h := by
        rw [List.replicate_succ, List.replicate_succ] at hfirst
        exact (List.cons.inj hfirst).1
      rw [← h3] at h1
      exact absurd h1 (by decide)

/-- C15 as stated fails once the `int` use counter has wrapped around: after
`2^32` acquisitions the counter is back at 0 while the first host (address 1)
is alive, so acquisition `2^32 + 1` allocates a second host (address 3).  For
`N = 2^32 + 1` the `N` acquisitions therefore do not all return the same
handle, whatever handle that would be and whatever state the `N - 1` releases
lead to. -/
theorem global_host_refcount_overflow :
    hostCalls (List.replicate 4294967297 HostCall.acquire) HostState.init =
      some (List.replicate 4294967296 1 ++ [3], secondHost) ∧
    ¬ ∃ (h : Ptr) (s1 : HostState),
      hostCalls (List.replicate 4294967297 HostCall.acquire ++
        List.replicate 4294967296 HostCall.release) HostState.init =
        some (List.replicate 4294967297 h, s1) :=
  second_host_after_wrap 4294967295 (by unfold int_wrap; omega)
    (by intro j hj; unfold int_wrap; omega) 4294967296

/-- C15, amended to at most `INT_MAX` acquisitions: reference counting of the
global host, from the initial state, for every `N` with `1 ≤ N ≤ INT_MAX`.
`N` calls of `getGlobalHost` followed by `N` calls of `releaseGlobalHost` all
return the same non-null handle (address 1) and leave the host torn down:
handle null, count 0, the host (address 1) and its property set (address 2)
each allocated once and freed once.  `N` acquires followed by `N - 1`
releases leave the host alive with count 1, nothing freed, all `N` acquires
having returned the same non-null handle, and one more `getGlobalHost`
returns that handle and allocates nothing (it adds no event and does not move
the allocator). -/
theorem global_host_refcount (N : Nat) (hN : 1 ≤ N) (hmax : (N : Int) ≤ INT_MAX) :
    (∃ s1,
      hostCalls (List.replicate N HostCall.acquire ++ List.replicate N HostCall.release)
        HostState.init = some (List.replicate N 1, s1) ∧
      s1.gHost = 0 ∧ s1.gHostUse = 0 ∧
      mallocCount 1 s1.trace = 1 ∧ freeCount 1 s1.trace = 1 ∧
      mallocCount 2 s1.trace = 1 ∧ freeCount 2 s1.trace = 1) ∧
    (∃ s1,
      hostCalls (List.replicate N HostCall.acquire ++ List.replicate (N - 1) HostCall.release)
        HostState.init = some (List.replicate N 1, s1) ∧
      s1.gHost = 1 ∧ s1.gHostUse = 1 ∧
      mallocCount 1 s1.trace = 1 ∧ freeCount 1 s1.trace = 0 ∧
      mallocCount 2 s1.trace = 1 ∧ freeCount 2 s1.trace = 0 ∧
      (getGlobalHost s1).1 = 1 ∧ (getGlobalHost s1).2.gHostUse = 2 ∧
      (getGlobalHost s1).2.trace = s1.trace ∧ (getGlobalHost s1).2.brk = s1.brk) := by
  constructor
  · obtain ⟨h1, h2, h3⟩ := acquire_release_held N N (Nat.le_refl _)
    have h := hostCalls_init _ (by omega) (by rw [h1]; exact hmax) h3
    rw [h1, h2, if_neg (Nat.lt_irrefl _)] at h
    exact ⟨hostGone, h, rfl, rfl, by decide, by decide, by decide, by decide⟩
  · obtain ⟨h1, h2, h3⟩ := acquire_release_held N (N - 1) (Nat.sub_le _ _)
    have h := hostCalls_init _ (by omega) (by rw [h1]; exact hmax) h3
    have e1 : N - 1 < N := by omega
    have e2 : N - (N - 1) = 1 := by omega
    rw [h1, h2, if_pos e1, e2] at h
    exact ⟨hostAlive 1, h, rfl, rfl, by decide, by decide, by decide, by decide, rfl, rfl, rfl,
      rfl⟩

theorem global_host_refcount_witness :
    1 ≤ 3 ∧ ((3 : Nat) : Int) ≤ INT_MAX ∧
    ∃ s1,
      hostCalls [HostCall.acquire, HostCall.acquire, HostCall.acquire, HostCall.release,
        HostCall.release, HostCall.release] HostState.init = some ([1, 1, 1], s1) ∧
      s1.gHost = 0 ∧ s1.gHostUse = 0 ∧
      mallocCount 1 s1.trace = 1 ∧ freeCount 1 s1.trace = 1 ∧
      mallocCount 2 s1.trace = 1 ∧ freeCount 2 s1.trace = 1 :=
  ⟨by decide, by decide, (global_host_refcount 3 (by decide) (by decide)).1⟩

/-! ## Theorems: the host across `use_plugin` -/

theorem HostState.sameHost_trans {a b c : HostState} (h1 : a.sameHost b) (h2 : b.sameHost c) :
    a.sameHost c :=
  ⟨h1.1.trans h2.1, h1.2.1.trans h2.2.1, h1.2.2.trans h2.2.2⟩

theorem ofxhost_load_plugin_host (host : Ptr) (plugin : OfxPlugin) (s : HostState) :
    (ofxhost_load_plugin host plugin s).2.sameHost s := by
  unfold ofxhost_load_plugin HostState.sameHost
  simp only [callMainEntry, HostState.emit]
  split_ifs <;> simp

theorem ofxhost_get_descriptor_host (host : Ptr) (plugin : OfxPlugin) (s : HostState) :
    (ofxhost_get_descriptor host plugin s).2.2.sameHost s := by
  unfold ofxhost_get_descriptor HostState.sameHost
  simp only [malloc_array, callMainEntry, HostState.emit]
  split_ifs <;> simp

theorem ofxhost_create_instance_host (plugin : OfxPlugin) (d : Ptr) (s : HostState) :
    (ofxhost_create_instance plugin d s).2.2.sameHost s := by
  unfold ofxhost_create_instance HostState.sameHost
  simp only [malloc_array, callMainEntry, HostState.emit]
  split_ifs <;> simp

theorem ofxhost_cook_host (plugin : OfxPlugin) (inst : Ptr) (s : HostState) :
    (ofxhost_cook plugin inst s).2.sameHost s := by
  unfold ofxhost_cook HostState.sameHost
  simp only [callMainEntry, HostState.emit]
  split_ifs <;> simp

theorem ofxhost_destroy_instance_host (plugin : OfxPlugin) (inst : Ptr) (s : HostState) :
    (ofxhost_destroy_instance plugin inst s).sameHost s := by
  simp [ofxhost_destroy_instance, HostState.sameHost, callMainEntry, HostState.emit, free_array]

theorem ofxhost_release_descriptor_host (d : Ptr) (s : HostState) :
    (ofxhost_release_descriptor d s).sameHost s := by
  simp [ofxhost_release_descriptor, HostState.sameHost, HostState.emit, free_array]

theorem use_plugin_actions_host (host : Ptr) (plugin : OfxPlugin) (s : HostState) :
    (use_plugin_actions host plugin s).sameHost s := by
  have hd := ofxhost_get_descriptor_host host plugin s
  unfold use_plugin_actions
  dsimp only
  split_ifs with h1 h2
  · exact HostState.sameHost_trans (ofxhost_release_descriptor_host _ _)
      (HostState.sameHost_trans (ofxhost_destroy_instance_host _ _ _)
        (HostState.sameHost_trans (ofxhost_cook_host _ _ _)
          (HostState.sameHost_trans (ofxhost_create_instance_host _ _ _) hd)))
  · exact HostState.sameHost_trans (ofxhost_release_descriptor_host _ _)
      (HostState.sameHost_trans (ofxhost_create_instance_host _ _ _) hd)
  · exact hd

theorem use_plugin_host (registry : PluginRegistry) (i : Nat) (s : HostState)
    (r : Bool × PluginRegistry × HostState) (hu : use_plugin registry i s = some r) :
    r.2.2.sameHost (getGlobalHost s).2 := by
  obtain ⟨plugin, st, hp, hs⟩ := use_plugin_in_range registry i s r hu
  have hi : i < registry.status.length := by
    rcases Nat.lt_or_ge i registry.status.length with h | h
    · exact h
    · rw [List.getElem?_eq_none h] at hs; cases hs
  unfold use_plugin at hu
  simp only [hp, hs] at hu
  by_cases hst : st = OfxPluginStatus.OfxPluginStatNotLoaded
  · simp only [hst, if_true] at hu
    by_cases hl : (ofxhost_load_plugin (getGlobalHost s).1 plugin (getGlobalHost s).2).1 = true
    · simp [hl, use_plugin_loaded, PluginRegistry.setStatus, hi] at hu
      rw [← hu]
      exact HostState.sameHost_trans (use_plugin_actions_host _ _ _)
        (ofxhost_load_plugin_host _ _ _)
    · simp [hl] at hu
      rw [← hu]
      exact ofxhost_load_plugin_host _ _ _
  · simp only [hst, if_false, use_plugin_loaded, hs] at hu
    by_cases hse : st = OfxPluginStatus.OfxPluginStatError
    · simp [hse] at hu
      rw [← hu]
      exact ⟨rfl, rfl, rfl⟩
    · simp [hse] at hu
      rw [← hu]
      exact use_plugin_actions_host _ _ _

theorem getGlobalHost_host (s : HostState) :
    (getGlobalHost s).2.gHost = (getGlobalHost s).1 ∧
    (getGlobalHost s).2.gHostUse = int_wrap (s.gHostUse + 1) ∧
    (getGlobalHost s).1 = (if s.gHostUse = 0 then s.brk + 1 else s.gHost) := by
  unfold getGlobalHost
  by_cases h : s.gHostUse = 0 <;> simp [h, malloc_array, HostState.emit]

/-- One `use_plugin` call dispatches no unload, hands `setHost` nothing but
the handle that `getGlobalHost` returned, and keeps the host consistent. -/
theorem use_plugin_no_unload (registry : PluginRegistry) (i : Nat) (s : HostState)
    (r : Bool × PluginRegistry × HostState) (hu : use_plugin registry i s = some r) :
    dispatchCount OfxAction.Unload (newEvents s r.2.2) = 0 ∧
    (∀ id h, Event.setHost id h ∈ newEvents s r.2.2 → h = (getGlobalHost s).1) ∧
    r.2.2.gHost = (getGlobalHost s).1 ∧ r.2.2.gHostUse = int_wrap (s.gHostUse + 1) ∧
    (s.hostBound → (getGlobalHost s).1 ≠ 0 ∧ r.2.2.hostBound) := by
  obtain ⟨plugin, st, hp, hs⟩ := use_plugin_in_range registry i s r hu
  obtain ⟨sl, sd, sc, sk, sx, r1, hr, -, -, -, ht⟩ := use_plugin_shape registry i s plugin st hp hs
  rw [hu] at hr
  cases hr
  have hn := newEvents_append s r.2.2 _ ht
  obtain ⟨g1, g2, g3⟩ := getGlobalHost_host s
  obtain ⟨k1, k2, -⟩ := use_plugin_host registry i s r hu
  refine ⟨?_, ?_, k1.trans g1, k2.trans g2, ?_⟩
  · rw [hn]
    unfold pluginEvents actionEvents hostEvents dispatchCount
    split_ifs <;> simp [Event.isDispatch]
  · intro id h hm
    rw [hn] at hm
    unfold pluginEvents actionEvents hostEvents at hm
    split_ifs at hm <;> simp at hm <;> exact hm.2
  · intro hb
    have hne : (getGlobalHost s).1 ≠ 0 := by
      rw [g3]
      by_cases h0 : s.gHostUse = 0
      · rw [if_pos h0]; exact Nat.succ_ne_zero _
      · rw [if_neg h0]; exact hb h0
    refine ⟨hne, fun _ => ?_⟩
    rw [k1.trans g1]
    exact hne

/-- Repeated `use_plugin` calls dispatch no unload and never call
`setHost(NULL)`; a plugin whose status is OK keeps it and sees neither
`setHost` nor load. -/
theorem use_plugin_repeat_bound (registry : PluginRegistry) (i : Nat) (s : HostState)
    (plugin : OfxPlugin) (st : OfxPluginStatus)
    (hp : registry.plugins[i]? = some plugin) (hs : registry.status[i]? = some st) (n : Nat) :
    ∃ rn sn stn, use_plugin_repeat registry i s n = some (rn, sn) ∧
      rn.plugins = registry.plugins ∧ rn.status[i]? = some stn ∧
      sn.trace = s.trace ++ newEvents s sn ∧
      dispatchCount OfxAction.Unload (newEvents s sn) = 0 ∧
      (s.hostBound → sn.hostBound ∧ ∀ id, Event.setHost id 0 ∉ newEvents s sn) ∧
      (st = OfxPluginStatus.OfxPluginStatOK →
        stn = OfxPluginStatus.OfxPluginStatOK ∧
        dispatchCount OfxAction.Load (newEvents s sn) = 0 ∧
        setHostCount (newEvents s sn) = 0) := by
  induction n with
  | zero =>
    refine ⟨registry, s, st, rfl, rfl, hs, ?_⟩
    simp [newEvents, dispatchCount, setHostCount]
  | succ n ih =>
    obtain ⟨rn, sn, stn, h1, h2, h3, h4, h5, h6, h7⟩ := ih
    obtain ⟨r, st1, k1, k2, k3, k4, k5, -⟩ := use_plugin_load_step rn i sn plugin stn
      (by rw [h2]; exact hp) h3
    obtain ⟨u1, u2, -, -, u5⟩ := use_plugin_no_unload rn i sn r k1
    obtain ⟨t1, t2⟩ := newEvents_trans s sn r.2.2 h4 k4
    refine ⟨r.2.1, r.2.2, st1, ?_, by rw [k2, h2], k3, t1, ?_, ?_, ?_⟩
    · simp [use_plugin_repeat, h1, k1]
    · rw [t2]
      simp only [dispatchCount, List.countP_append] at *
      omega
    · intro hb
      obtain ⟨b1, b2⟩ := h6 hb
      obtain ⟨b3, b4⟩ := u5 b1
      refine ⟨b4, ?_⟩
      intro id hm
      rw [t2] at hm
      rcases List.mem_append.1 hm with hm | hm
      · exact b2 id hm
      · exact b3 (u2 id 0 hm).symm
    · intro hok
      obtain ⟨c1, c2, c3⟩ := h7 hok
      obtain ⟨d1, d2, d3⟩ := k5 (by rw [c1]; decide)
      refine ⟨d1.trans c1, ?_, ?_⟩
      · rw [t2]
        simp only [dispatchCount, List.countP_append] at *
        omega
      · rw [t2]
        simp only [setHostCount, List.countP_append] at *
        omega

/-- C16: the host never unloads or unbinds a plugin implicitly.  Over any
number `n` of `use_plugin` calls on a registry entry, all of which return,
no unload action is dispatched; from a state whose global host is consistent
(a non-zero use count comes with a non-null handle, which holds initially and
is kept by `getGlobalHost` and `use_plugin`) no `setHost(NULL)` is called; and a plugin whose
status is OK keeps status OK and receives neither `setHost` nor load.  The
function `ofxhost_unload_plugin` dispatches unload and then calls
`setHost(NULL)`, whatever status unload answers. -/
theorem use_plugin_never_unloads (registry : PluginRegistry) (i : Nat) (s : HostState)
    (plugin : OfxPlugin) (st : OfxPluginStatus)
    (hp : registry.plugins[i]? = some plugin) (hs : registry.status[i]? = some st) (n : Nat) :
    (∃ rn sn, use_plugin_repeat registry i s n = some (rn, sn) ∧
      dispatchCount OfxAction.Unload (newEvents s sn) = 0 ∧
      ((s.gHostUse ≠ 0 → s.gHost ≠ 0) → ∀ id, Event.setHost id 0 ∉ newEvents s sn) ∧
      (st = OfxPluginStatus.OfxPluginStatOK →
        rn.status[i]? = some OfxPluginStatus.OfxPluginStatOK ∧
        dispatchCount OfxAction.Load (newEvents s sn) = 0 ∧
        setHostCount (newEvents s sn) = 0)) ∧
    (∀ s0, newEvents s0 (ofxhost_unload_plugin plugin s0) =
      [Event.mainEntry plugin.pluginIdentifier OfxAction.Unload 0
          (plugin.mainEntry s0.trace OfxAction.Unload 0),
        Event.setHost plugin.pluginIdentifier 0]) := by
  obtain ⟨rn, sn, stn, h1, -, h3, -, h5, h6, h7⟩ :=
    use_plugin_repeat_bound registry i s plugin st hp hs n
  refine ⟨⟨rn, sn, h1, h5, fun hb => (h6 hb).2, ?_⟩, ?_⟩
  · intro hok
    obtain ⟨c1, c2, c3⟩ := h7 hok
    exact ⟨by rw [h3, c1], c2, c3⟩
  · intro s0
    simp [newEvents, ofxhost_unload_plugin, callMainEntry, HostState.emit]

theorem use_plugin_never_unloads_witness :
    (scriptedRegistry OfxStatus.OK OfxStatus.OK OfxStatus.OK OfxStatus.Failed).plugins[0]? =
      some (scriptedPlugin OfxStatus.OK OfxStatus.OK OfxStatus.OK OfxStatus.Failed) ∧
    (scriptedRegistry OfxStatus.OK OfxStatus.OK OfxStatus.OK OfxStatus.Failed).status[0]? =
      some OfxPluginStatus.OfxPluginStatNotLoaded ∧
    ∃ rn sn,
      use_plugin_repeat (scriptedRegistry OfxStatus.OK OfxStatus.OK OfxStatus.OK OfxStatus.Failed)
        0 HostState.init 3 = some (rn, sn) ∧
      dispatchCount OfxAction.Unload (newEvents HostState.init sn) = 0 ∧
      ∀ id, Event.setHost id 0 ∉ newEvents HostState.init sn :=
  ⟨rfl, rfl,
    let ⟨⟨rn, sn, h1, h2, h3, _⟩, _⟩ :=
      use_plugin_never_unloads
        (scriptedRegistry OfxStatus.OK OfxStatus.OK OfxStatus.OK OfxStatus.Failed) 0
        HostState.init (scriptedPlugin OfxStatus.OK OfxStatus.OK OfxStatus.OK OfxStatus.Failed)
        OfxPluginStatus.OfxPluginStatNotLoaded rfl rfl 3
    ⟨rn, sn, h1, h2, h3 (fun h => absurd rfl h)⟩⟩

/-! ## Theorems: load failure and missing host features -/

theorem liveBlocks_append (T E : List Event) :
    liveBlocks (T ++ E) =
      E.foldl
        (fun live e =>
          match e with
          | Event.malloc_array p _ => p :: live
          | Event.free_array p => live.erase p
          | _ => live)
        (liveBlocks T) := by
  unfold liveBlocks
  rw [List.foldl_append]

/-- C17 as stated fails on a fresh host: after a failed load the global host
has been acquired (use count 1, handle non-null) and its two blocks are
live, while before the call there was no host and no live block. -/
theorem use_plugin_load_failure_acquires_host :
    ∃ r, use_plugin (scriptedRegistry OfxStatus.Failed OfxStatus.OK OfxStatus.OK OfxStatus.OK) 0
        HostState.init = some r ∧
      r.1 = false ∧ r.2.1.status = [OfxPluginStatus.OfxPluginStatError] ∧
      HostState.init.gHost = 0 ∧ HostState.init.gHostUse = 0 ∧
      liveBlocks HostState.init.trace = [] ∧
      r.2.2.gHost = 1 ∧ r.2.2.gHostUse = 1 ∧ liveBlocks r.2.2.trace = [2, 1] :=
  ⟨_, rfl, rfl, rfl, rfl, rfl, rfl, rfl, rfl, rfl⟩

/-- C17, amended: when the plugin is NotLoaded and its load action answers a
failure status `sl`, `use_plugin` returns false, sets the status to Error, and
after `getGlobalHost` does nothing but `setHost` and the load dispatch (no
describe, createInstance, cook, destroyInstance or unload, no descriptor or
instance allocated).  The global host is acquired and not released: the use
count has been incremented, as an `int`, so it is one more than before
whenever it was below `INT_MAX`; if it was zero the handle is the new host
block and the host block and its property set are now live; otherwise the
handle and the live blocks are as before. -/
theorem use_plugin_load_failure (registry : PluginRegistry) (i : Nat) (s : HostState)
    (plugin : OfxPlugin) (hp : registry.plugins[i]? = some plugin)
    (hs : registry.status[i]? = some OfxPluginStatus.OfxPluginStatNotLoaded)
    (r : Bool × PluginRegistry × HostState) (hu : use_plugin registry i s = some r)
    (id : String) (h : Ptr) (sl : OfxStatus)
    (hload : Event.mainEntry id OfxAction.Load h sl ∈ newEvents s r.2.2)
    (hf : loadFails sl = true) :
    r.1 = false ∧
    r.2.1.status = registry.status.set i OfxPluginStatus.OfxPluginStatError ∧
    r.2.1.plugins = registry.plugins ∧
    newEvents s r.2.2 = hostEvents s ++
      [Event.setHost plugin.pluginIdentifier (getGlobalHost s).1,
       Event.mainEntry plugin.pluginIdentifier OfxAction.Load 0 sl] ∧
    (∀ a, a ≠ OfxAction.Load → dispatchCount a (newEvents s r.2.2) = 0) ∧
    r.2.2.gHostUse = int_wrap (s.gHostUse + 1) ∧
    (INT_MIN ≤ s.gHostUse → s.gHostUse < INT_MAX → r.2.2.gHostUse = s.gHostUse + 1) ∧
    (s.gHostUse ≠ 0 →
      r.2.2.gHost = s.gHost ∧ mallocCount (s.brk + 1) (newEvents s r.2.2) = 0 ∧
      liveBlocks r.2.2.trace = liveBlocks s.trace) ∧
    (s.gHostUse = 0 →
      r.2.2.gHost = s.brk + 1 ∧
      liveBlocks r.2.2.trace = (s.brk + 2) :: (s.brk + 1) :: liveBlocks s.trace) := by
  obtain ⟨sl1, sd, sc, sk, sx, r1, hr, e1, e2, e3, ht⟩ :=
    use_plugin_shape registry i s plugin _ hp hs
  rw [hu] at hr
  cases hr
  have hn := newEvents_append s r.2.2 _ ht
  have hsl : sl1 = sl := by
    rw [hn] at hload
    unfold pluginEvents actionEvents hostEvents at hload
    split_ifs at hload <;> simp at hload <;> exact hload.2.2.symm
  subst hsl
  have hnew : newEvents s r.2.2 = hostEvents s ++
      [Event.setHost plugin.pluginIdentifier (getGlobalHost s).1,
       Event.mainEntry plugin.pluginIdentifier OfxAction.Load 0 sl1] := by
    rw [hn]; simp [pluginEvents, hf]
  obtain ⟨g1, g2, g3⟩ := getGlobalHost_host s
  obtain ⟨k1, k2, -⟩ := use_plugin_host registry i s r hu
  have htr : r.2.2.trace = s.trace ++ (hostEvents s ++
      [Event.setHost plugin.pluginIdentifier (getGlobalHost s).1,
       Event.mainEntry plugin.pluginIdentifier OfxAction.Load 0 sl1]) := by
    rw [ht]; simp [pluginEvents, hf]
  refine ⟨?_, ?_, e2, hnew, ?_, k2.trans g2, ?_, ?_, ?_⟩
  · rw [e1]; simp [nextStatus, hf]
  · rw [e3]; simp [nextStatus, hf]
  · intro a ha
    rw [hnew]
    unfold hostEvents dispatchCount
    split_ifs <;> simp [Event.isDispatch, Ne.symm ha]
  · intro b1 b2
    have b1b : (-2147483648 : Int) ≤ s.gHostUse := b1
    have b2b : s.gHostUse < (2147483647 : Int) := b2
    rw [k2.trans g2]
    exact int_wrap_id _ (by show (-2147483648 : Int) ≤ _; omega)
      (by show _ ≤ (2147483647 : Int); omega)
  · intro h0
    refine ⟨?_, ?_, ?_⟩
    · rw [k1, g1, g3, if_neg h0]
    · rw [hnew]; simp [hostEvents, h0, mallocCount, Event.isMalloc]
    · rw [htr, liveBlocks_append]; simp [hostEvents, h0]
  · intro h0
    refine ⟨?_, ?_⟩
    · rw [k1, g1, g3, if_pos h0]
    · rw [htr, liveBlocks_append]; simp [hostEvents, h0]

theorem use_plugin_load_failure_witness :
    ∃ r, use_plugin (scriptedRegistry OfxStatus.ErrFatal OfxStatus.OK OfxStatus.OK OfxStatus.OK) 0
        HostState.init = some r ∧
      Event.mainEntry "scripted" OfxAction.Load 0 OfxStatus.ErrFatal ∈
        newEvents HostState.init r.2.2 ∧
      loadFails OfxStatus.ErrFatal = true ∧
      r.1 = false ∧ r.2.2.gHostUse = HostState.init.gHostUse + 1 :=
  ⟨_, rfl, by decide, by decide,
    (use_plugin_load_failure
      (scriptedRegistry OfxStatus.ErrFatal OfxStatus.OK OfxStatus.OK OfxStatus.OK) 0
      HostState.init (scriptedPlugin OfxStatus.ErrFatal OfxStatus.OK OfxStatus.OK OfxStatus.OK)
      rfl rfl _ rfl "scripted" 0 OfxStatus.ErrFatal (by decide) (by decide)).1,
    (use_plugin_load_failure
      (scriptedRegistry OfxStatus.ErrFatal OfxStatus.OK OfxStatus.OK OfxStatus.OK) 0
      HostState.init (scriptedPlugin OfxStatus.ErrFatal OfxStatus.OK OfxStatus.OK OfxStatus.OK)
      rfl rfl _ rfl "scripted" 0 OfxStatus.ErrFatal (by decide) (by decide)).2.2.2.2.2.2.1
      (by decide) (by decide)⟩

/-- C18 as stated fails for the create step: when createInstance answers
`ErrMissingHostFeature`, `ofxhost_create_instance` reports success and
`use_plugin` goes on to dispatch cook and destroyInstance. -/
theorem create_missing_host_feature_not_a_failure :
    (ofxhost_create_instance
      (scriptedPlugin OfxStatus.OK OfxStatus.OK OfxStatus.ErrMissingHostFeature OfxStatus.OK) 3
      HostState.init).1 = true ∧
    ∃ r, use_plugin
        (scriptedRegistry OfxStatus.OK OfxStatus.OK OfxStatus.ErrMissingHostFeature OfxStatus.OK)
        0 HostState.init = some r ∧
      Event.mainEntry "scripted" OfxAction.CreateInstance 4 OfxStatus.ErrMissingHostFeature ∈
        newEvents HostState.init r.2.2 ∧
      Event.mainEntry "scripted" OfxAction.Cook 4 OfxStatus.OK ∈ newEvents HostState.init r.2.2 ∧
      dispatchCount OfxAction.Cook (newEvents HostState.init r.2.2) = 1 :=
  ⟨by decide, _, rfl, by decide, by decide, by decide⟩

/-- C18, amended: `ErrMissingHostFeature` aborts only the describe step.  When
describe answers it, `ofxhost_get_descriptor` reports failure and `use_plugin`
dispatches no createInstance, cook or destroyInstance.  When createInstance
answers it, `ofxhost_create_instance` reports success and `use_plugin`
dispatches cook and destroyInstance once each, as for status OK. -/
theorem missing_host_feature_aborts_describe_only (registry : PluginRegistry) (i : Nat)
    (s : HostState) (r : Bool × PluginRegistry × HostState)
    (hu : use_plugin registry i s = some r) :
    (∀ id d, Event.mainEntry id OfxAction.Describe d OfxStatus.ErrMissingHostFeature ∈
        newEvents s r.2.2 →
      dispatchCount OfxAction.CreateInstance (newEvents s r.2.2) = 0 ∧
      dispatchCount OfxAction.Cook (newEvents s r.2.2) = 0 ∧
      dispatchCount OfxAction.DestroyInstance (newEvents s r.2.2) = 0) ∧
    (∀ id inst, Event.mainEntry id OfxAction.CreateInstance inst
        OfxStatus.ErrMissingHostFeature ∈ newEvents s r.2.2 →
      dispatchCount OfxAction.Cook (newEvents s r.2.2) = 1 ∧
      dispatchCount OfxAction.DestroyInstance (newEvents s r.2.2) = 1) ∧
    (∀ host plugin s0 id d,
      Event.mainEntry id OfxAction.Describe d OfxStatus.ErrMissingHostFeature ∈
        newEvents s0 (ofxhost_get_descriptor host plugin s0).2.2 →
      (ofxhost_get_descriptor host plugin s0).1 = false) ∧
    (∀ plugin desc s0 id inst,
      Event.mainEntry id OfxAction.CreateInstance inst OfxStatus.ErrMissingHostFeature ∈
        newEvents s0 (ofxhost_create_instance plugin desc s0).2.2 →
      (ofxhost_create_instance plugin desc s0).1 = true) := by
  obtain ⟨P, L, pid, hq, hn, hL⟩ := use_plugin_cases registry i s r hu
  have k1 := hq.1 OfxAction.CreateInstance (by decide)
  have k2 := hq.1 OfxAction.Cook (by decide)
  have k3 := hq.1 OfxAction.DestroyInstance (by decide)
  simp only [dispatchCount] at k1 k2 k3
  refine ⟨?_, ?_, ?_, ?_⟩
  · intro id d hd
    rw [hn] at hd ⊢
    have hd2 := mem_quietPrefix_append hq (by decide) hd
    rcases hL with hL | ⟨sd1, h1, hL⟩ | ⟨sd1, sc1, h1, h2, hL⟩ | ⟨sd1, sc1, sk1, sx1, h1, h2, hL⟩ <;>
      subst hL <;> simp at hd2
    · simp [dispatchCount, List.countP_append, k1, k2, k3, Event.isDispatch]
    · obtain ⟨-, -, e⟩ := hd2
      rw [← e] at h1
      simp [describeFails] at h1
    · obtain ⟨-, -, e⟩ := hd2
      rw [← e] at h1
      simp [describeFails] at h1
  · intro id inst hc
    rw [hn] at hc ⊢
    have hc2 := mem_quietPrefix_append hq (by decide) hc
    rcases hL with hL | ⟨sd1, h1, hL⟩ | ⟨sd1, sc1, h1, h2, hL⟩ | ⟨sd1, sc1, sk1, sx1, h1, h2, hL⟩ <;>
      subst hL <;> simp at hc2
    · obtain ⟨-, -, e⟩ := hc2
      rw [← e] at h2
      simp [createFails] at h2
    · simp [dispatchCount, List.countP_append, k1, k2, k3, Event.isDispatch]
  · intro host plugin s0 id d hm
    obtain ⟨sd, t1, -, t3, -⟩ := ofxhost_get_descriptor_spec host plugin s0
    rw [newEvents_append s0 _ _ t1] at hm
    simp at hm
    rw [t3, ← hm.2.2]
    simp [describeFails]
  · intro plugin desc s0 id inst hm
    obtain ⟨sc, t1, -, t3, -⟩ := ofxhost_create_instance_spec plugin desc s0
    rw [newEvents_append s0 _ _ t1] at hm
    simp at hm
    rw [t3, ← hm.2.2]
    simp [createFails]

theorem missing_host_feature_aborts_describe_only_witness :
    ∃ r, use_plugin
        (scriptedRegistry OfxStatus.OK OfxStatus.ErrMissingHostFeature OfxStatus.OK OfxStatus.OK)
        0 HostState.init = some r ∧
      Event.mainEntry "scripted" OfxAction.Describe 3 OfxStatus.ErrMissingHostFeature ∈
        newEvents HostState.init r.2.2 ∧
      dispatchCount OfxAction.CreateInstance (newEvents HostState.init r.2.2) = 0 ∧
      dispatchCount OfxAction.Cook (newEvents HostState.init r.2.2) = 0 ∧
      dispatchCount OfxAction.DestroyInstance (newEvents HostState.init r.2.2) = 0 :=
  ⟨_, rfl, by decide,
    (missing_host_feature_aborts_describe_only
      (scriptedRegistry OfxStatus.OK OfxStatus.ErrMissingHostFeature OfxStatus.OK OfxStatus.OK)
      0 HostState.init _ rfl).1 "scripted" 3 (by decide)⟩

/-! ## Theorems: appending to a set -/

/-- C20 at a failing input: a target set holding one parameter ("gain") and a
source set holding one parameter ("size").  `append_parameters` gives the
target two entries, and the loop of `deep_copy_from` runs over both: its
first iteration copies the source's parameter 0 into the target's prior
parameter (address 2), which then shows "size" instead of "gain"; its second
iteration reads index 1 of the source's array, which has one entry, so the
call has no defined result.  With an empty source (null array) the loop
reads index 0 through the null pointer. -/
theorem deep_copy_from_nonempty_target_reads_past_source :
    twoSetsMem.viewSet gainSet = some [gainView] ∧
    twoSetsMem.viewSet sizeSet = some [sizeView] ∧
    twoSetsMem.viewParam 2 = some gainView ∧
    ∃ m1 P1,
      OfxParamSetStruct.append_parameters twoSetsMem gainSet sizeSet.num_parameters =
        some (m1, P1) ∧
      P1.num_parameters = 2 ∧ m1.setPtrs P1 = some [2, 8] ∧
      ∃ m2, OfxParamSetStruct.deep_copy_loop P1 sizeSet 1 0 m1 = some m2 ∧
        m2.viewParam 2 = some sizeView ∧
        m2.viewParam 8 = some defaultView ∧
        m2.readPtrAt sizeSet.parameters 1 = none ∧
        OfxParamSetStruct.deep_copy_loop P1 sizeSet 1 1 m2 = none ∧
        OfxParamSetStruct.deep_copy_from twoSetsMem gainSet sizeSet = none ∧
        OfxParamSetStruct.deep_copy_from twoSetsMem gainSet new_OfxParamSetStruct = none :=
  ⟨by decide, by decide, by decide, _, _, rfl, by decide, by decide, _, rfl, by decide,
    by decide, by decide, by decide, by decide, by decide⟩

/-! ## Theorems: the result of `use_plugin` -/

/-- C21: the boolean result of `use_plugin` reflects only the load status.
For every plugin behaviour and every initial status the call returns, and
the status it leaves is OK or Error; it returns false exactly when that
status is Error and true exactly when it is OK.  An initial status Error
gives false, an initial status OK gives true, and from NotLoaded the result
is false exactly when the load action answered a failure status.  Whenever a
describe, createInstance, cook or destroyInstance action was dispatched, the
result is true whatever status that action answered. -/
theorem use_plugin_result_is_load_status (registry : PluginRegistry) (i : Nat) (s : HostState)
    (plugin : OfxPlugin) (st : OfxPluginStatus)
    (hp : registry.plugins[i]? = some plugin) (hs : registry.status[i]? = some st) :
    ∃ r st1, use_plugin registry i s = some r ∧ r.2.1.status[i]? = some st1 ∧
      (st1 = OfxPluginStatus.OfxPluginStatOK ∨ st1 = OfxPluginStatus.OfxPluginStatError) ∧
      (r.1 = false ↔ st1 = OfxPluginStatus.OfxPluginStatError) ∧
      (r.1 = true ↔ st1 = OfxPluginStatus.OfxPluginStatOK) ∧
      (st = OfxPluginStatus.OfxPluginStatError → st1 = OfxPluginStatus.OfxPluginStatError) ∧
      (st = OfxPluginStatus.OfxPluginStatOK → st1 = OfxPluginStatus.OfxPluginStatOK) ∧
      (st = OfxPluginStatus.OfxPluginStatNotLoaded →
        ∃ sl, Event.mainEntry plugin.pluginIdentifier OfxAction.Load 0 sl ∈ newEvents s r.2.2 ∧
          (r.1 = false ↔ loadFails sl = true)) ∧
      (∀ id a h x, a ≠ OfxAction.Load → Event.mainEntry id a h x ∈ newEvents s r.2.2 →
        r.1 = true) := by
  have hi : i < registry.status.length := by
    rcases Nat.lt_or_ge i registry.status.length with h | h
    · exact h
    · rw [List.getElem?_eq_none h] at hs; cases hs
  obtain ⟨sl, sd, sc, sk, sx, r, hr, e1, -, e3, ht⟩ := use_plugin_shape registry i s plugin st hp hs
  have hn := newEvents_append s r.2.2 _ ht
  refine ⟨r, nextStatus st sl, hr, by simp [e3, hi], ?_, ?_, ?_, ?_, ?_, ?_, ?_⟩
  · unfold nextStatus
    cases st <;> simp
  · rw [e1]; simp
  · rw [e1]
    unfold nextStatus
    cases st <;> simp
  · intro h; simp [nextStatus, h]
  · intro h; simp [nextStatus, h]
  · intro h
    refine ⟨sl, ?_, ?_⟩
    · rw [hn]; simp [pluginEvents, h]
    · rw [e1]
      simp only [nextStatus, h, if_true]
      by_cases hf : loadFails sl = true <;> simp [hf]
  · intro id a h x ha hm
    rw [hn] at hm
    rw [e1]
    cases st with
    | OfxPluginStatOK => simp [nextStatus]
    | OfxPluginStatNotLoaded =>
      by_cases hf : loadFails sl = true
      · have hpe : pluginEvents OfxPluginStatus.OfxPluginStatNotLoaded plugin.pluginIdentifier
            (getGlobalHost s).1 (hostBrk s + 1) (hostBrk s + 2) sl sd sc sk sx =
            [Event.setHost plugin.pluginIdentifier (getGlobalHost s).1,
             Event.mainEntry plugin.pluginIdentifier OfxAction.Load 0 sl] := by
          simp [pluginEvents, hf]
        rw [hpe] at hm
        unfold hostEvents at hm
        split_ifs at hm <;> simp at hm <;> exact absurd hm.2.1 ha
      · simp [nextStatus, hf]
    | OfxPluginStatError =>
      have hpe : pluginEvents OfxPluginStatus.OfxPluginStatError plugin.pluginIdentifier
          (getGlobalHost s).1 (hostBrk s + 1) (hostBrk s + 2) sl sd sc sk sx = [] := by
        simp [pluginEvents]
      rw [hpe, List.append_nil] at hm
      unfold hostEvents at hm
      split_ifs at hm <;> simp at hm

theorem use_plugin_result_is_load_status_witness :
    (scriptedRegistry OfxStatus.OK OfxStatus.Failed OfxStatus.OK OfxStatus.OK).plugins[0]? =
      some (scriptedPlugin OfxStatus.OK OfxStatus.Failed OfxStatus.OK OfxStatus.OK) ∧
    (scriptedRegistry OfxStatus.OK OfxStatus.Failed OfxStatus.OK OfxStatus.OK).status[0]? =
      some OfxPluginStatus.OfxPluginStatNotLoaded ∧
    ∃ r, use_plugin (scriptedRegistry OfxStatus.OK OfxStatus.Failed OfxStatus.OK OfxStatus.OK) 0
        HostState.init = some r ∧
      Event.mainEntry "scripted" OfxAction.Describe 3 OfxStatus.Failed ∈
        newEvents HostState.init r.2.2 ∧
      r.1 = true :=
  ⟨rfl, rfl,
    let ⟨r, _, h1, _, _, _, _, _, _, _, h9⟩ :=
      use_plugin_result_is_load_status
        (scriptedRegistry OfxStatus.OK OfxStatus.Failed OfxStatus.OK OfxStatus.OK) 0
        HostState.init (scriptedPlugin OfxStatus.OK OfxStatus.Failed OfxStatus.OK OfxStatus.OK)
        OfxPluginStatus.OfxPluginStatNotLoaded rfl rfl
    have h2 : use_plugin
        (scriptedRegistry OfxStatus.OK OfxStatus.Failed OfxStatus.OK OfxStatus.OK) 0
        HostState.init = some r := h1
    have h3 : Event.mainEntry "scripted" OfxAction.Describe 3 OfxStatus.Failed ∈
        newEvents HostState.init r.2.2 := by
      have h4 : some r = some _ := h1.symm.trans (rfl : use_plugin
        (scriptedRegistry OfxStatus.OK OfxStatus.Failed OfxStatus.OK OfxStatus.OK) 0
        HostState.init = some _)
      cases h4
      decide
    ⟨r, h2, h3, h9 "scripted" OfxAction.Describe 3 OfxStatus.Failed (by decide) h3⟩⟩

/-! ## Theorems: mfxCallbacks.c -/

theorem read_at_nat {α : Type} (a : List α) (i : Nat) : read_at a (i : Int) = a[i]? := by
  simp [read_at]

theorem write_at_nat {α : Type} (a : List α) (i : Nat) (x : α) (h : i < a.length) :
    write_at a (i : Int) x = some (a.set i x) := by
  simp [write_at, h]

theorem int_add_ok (a b : Int) (h1 : INT_MIN ≤ a + b) (h2 : a + b ≤ INT_MAX) :
    int_add a b = some (a + b) := by
  simp [int_add, h1, h2]

theorem list_take_set_succ {α : Type} (a : List α) (i : Nat) (x : α) (h : i < a.length) :
    (a.set i x).take (i + 1) = a.take i ++ [x] := by
  induction a generalizing i with
  | nil => simp at h
  | cons y ys ih =>
    cases i with
    | zero => simp
    | succ j =>
      simp only [List.length_cons, Nat.add_lt_add_iff_right] at h
      simp [ih j h]

theorem contiguous_from_cons (s : Int) (p : MPoly) (ps : List MPoly) :
    contiguous_from s (p :: ps) = true ↔
      p.loopstart = s ∧ 0 ≤ p.totloop ∧ contiguous_from (s + p.totloop) ps = true := by
  simp [contiguous_from, and_assoc]

theorem loop_total_cons (p : MPoly) (ps : List MPoly) :
    loop_total (p :: ps) = p.totloop + loop_total ps := by
  simp [loop_total]

theorem loop_total_nonneg (ps : List MPoly) : ∀ (s : Int), contiguous_from s ps = true →
    0 ≤ loop_total ps := by
  induction ps with
  | nil => intro s _; simp [loop_total]
  | cons p ps ih =>
    intro s h
    obtain ⟨_, h2, h3⟩ := (contiguous_from_cons s p ps).1 h
    rw [loop_total_cons]
    have := ih _ h3
    omega

/-- Contiguous polygons whose loops all end at or before `B` have their total
at or before `B`. -/
theorem loop_total_le (ps : List MPoly) : ∀ (s B : Int), contiguous_from s ps = true →
    s ≤ B → (∀ p ∈ ps, p.loopstart + p.totloop ≤ B) → s + loop_total ps ≤ B := by
  induction ps with
  | nil => intro s B _ h _; simpa [loop_total] using h
  | cons p ps ih =>
    intro s B h hs hB
    obtain ⟨h1, h2, h3⟩ := (contiguous_from_cons s p ps).1 h
    have hp := hB p (List.mem_cons_self _ _)
    rw [h1] at hp
    have := ih (s + p.totloop) B h3 hp (fun q hq => hB q (List.mem_cons_of_mem _ hq))
    rw [loop_total_cons]
    omega

/-- The count loop computes the running maximum of `loopstart + totloop`. -/
theorem vertex_count_loop_spec (m : Mesh) (ps : List MPoly) :
    ∀ (pre : List MPoly) (vc : Int), m.mpoly = pre ++ ps →
      (∀ p ∈ ps, INT_MIN ≤ p.loopstart + p.totloop ∧ p.loopstart + p.totloop ≤ INT_MAX) →
      before_mesh_get_vertex_count_loop m ps.length pre.length vc =
        some (ps.foldl (fun a p => max a (p.loopstart + p.totloop)) vc) := by
  induction ps with
  | nil => intro pre vc _ _; rfl
  | cons p ps ih =>
    intro pre vc hm hb
    have hget : m.mpoly[pre.length]? = some p := by
      rw [hm, List.getElem?_append_right (Nat.le_refl _)]; simp
    obtain ⟨b1, b2⟩ := hb p (List.mem_cons_self _ _)
    have h2 := ih (pre ++ [p]) (max vc (p.loopstart + p.totloop)) (by simp [hm])
      (fun q hq => hb q (List.mem_cons_of_mem _ hq))
    simp only [List.length_append, List.length_singleton] at h2
    simp only [List.length_cons, before_mesh_get_vertex_count_loop, hget, Option.bind_eq_bind,
      Option.some_bind, int_add_ok _ _ b1 b2, h2, List.foldl_cons]

/-- For contiguous polygons the running maximum is the running total. -/
theorem foldl_max_contiguous (ps : List MPoly) : ∀ (s : Int), contiguous_from s ps = true →
    ps.foldl (fun a p => max a (p.loopstart + p.totloop)) s = s + loop_total ps := by
  induction ps with
  | nil => intro s _; simp [loop_total]
  | cons p ps ih =>
    intro s h
    obtain ⟨h1, h2, h3⟩ := (contiguous_from_cons s p ps).1 h
    have hmx : max s (p.loopstart + p.totloop) = s + p.totloop := by
      unfold max
      rw [h1]
      have : ¬ s > s + p.totloop := by omega
      simp [this]
    rw [List.foldl_cons, hmx, ih _ h3, loop_total_cons]
    omega

/-- The inner loop of the fill, started where the loop index equals the
write index. -/
theorem fill_vertices_spec (m : Mesh) (hmax : (m.mloop.length : Int) ≤ INT_MAX) :
    ∀ (n cv : Nat) (st : FillState), st.current_vertex = (cv : Int) →
      cv + n ≤ st.vertex_data.length → cv + n ≤ m.mloop.length →
      ∃ st1, before_mesh_get_fill_vertices m n (cv : Int) st = some st1 ∧
        st1.current_vertex = ((cv + n : Nat) : Int) ∧ st1.face_data = st.face_data ∧
        st1.vertex_data.length = st.vertex_data.length ∧
        st1.vertex_data.take (cv + n) = st.vertex_data.take cv ++
          ((m.mloop.drop cv).take n).map (fun x => int_of_unsigned x.v) ∧
        st1.accesses = st.accesses ++
          (List.range' cv n).map (fun (j : Nat) => ((j : Int), (j : Int))) := by
  intro n
  induction n with
  | zero =>
    intro cv st h1 _ _
    exact ⟨st, rfl, by simpa using h1, rfl, rfl, by simp, by simp⟩
  | succ n ih =>
    intro cv st h1 h2 h3
    have hlt : cv < m.mloop.length := by omega
    have hlt2 : cv < st.vertex_data.length := by omega
    have hr : read_at m.mloop (cv : Int) = some m.mloop[cv] := by
      rw [read_at_nat, List.getElem?_eq_getElem hlt]
    have hmax2 : (m.mloop.length : Int) ≤ 2147483647 := hmax
    have hi : int_add (cv : Int) 1 = some (((cv + 1 : Nat) : Int)) := by
      have b1 : INT_MIN ≤ (cv : Int) + 1 := by
        show (-2147483648 : Int) ≤ _
        omega
      have b2 : (cv : Int) + 1 ≤ INT_MAX := by
        show _ ≤ (2147483647 : Int)
        omega
      rw [int_add_ok _ _ b1 b2]
      simp
    obtain ⟨st1, k1, k2, k3, k4, k5, k6⟩ := ih (cv + 1)
      { st with current_vertex := ((cv + 1 : Nat) : Int),
                vertex_data := st.vertex_data.set cv (int_of_unsigned m.mloop[cv].v),
                accesses := st.accesses ++ [((cv : Int), (cv : Int))] }
      rfl (by simp; omega) (by omega)
    refine ⟨st1, ?_, ?_, k3, ?_, ?_, ?_⟩
    · simp only [before_mesh_get_fill_vertices, hr, Option.bind_eq_bind, Option.some_bind, h1,
        write_at_nat _ _ _ hlt2, hi]
      exact k1
    · rw [k2, Nat.add_right_comm cv 1 n, Nat.add_assoc]
    · rw [k4]; simp
    · have e1 : cv + (n + 1) = cv + 1 + n := by omega
      rw [e1, k5]
      simp only [list_take_set_succ _ _ _ hlt2]
      rw [List.drop_eq_getElem_cons hlt, List.take_succ_cons, List.map_cons]
      simp
    · rw [k6, List.range'_succ]
      simp

/-- The outer loop of the fill on contiguous polygons. -/
theorem fill_faces_spec (m : Mesh) (hmax : (m.mloop.length : Int) ≤ INT_MAX) (ps : List MPoly) :
    ∀ (pre : List MPoly) (cv : Nat) (st : FillState), m.mpoly = pre ++ ps →
      st.current_vertex = (cv : Int) → contiguous_from (cv : Int) ps = true →
      st.face_data.length = m.mpoly.length →
      (cv : Int) + loop_total ps ≤ st.vertex_data.length →
      (cv : Int) + loop_total ps ≤ m.mloop.length →
      ∃ st1, before_mesh_get_fill_faces m ps.length pre.length st = some st1 ∧
        st1.current_vertex = (cv : Int) + loop_total ps ∧
        st1.face_data.length = st.face_data.length ∧
        st1.face_data.take (pre.length + ps.length) =
          st.face_data.take pre.length ++ ps.map (fun p => p.totloop) ∧
        st1.vertex_data.length = st.vertex_data.length ∧
        st1.vertex_data.take (cv + (loop_total ps).toNat) = st.vertex_data.take cv ++
          ((m.mloop.drop cv).take (loop_total ps).toNat).map (fun x => int_of_unsigned x.v) ∧
        st1.accesses = st.accesses ++
          (List.range' cv (loop_total ps).toNat).map (fun (j : Nat) => ((j : Int), (j : Int))) := by
  induction ps with
  | nil =>
    intro pre cv st _ h1 _ _ _ _
    exact ⟨st, rfl, by simpa [loop_total] using h1, rfl, by simp, rfl, by simp [loop_total],
      by simp [loop_total]⟩
  | cons p ps ih =>
    intro pre cv st hm h1 hc hf hv hl
    obtain ⟨c1, c2, c3⟩ := (contiguous_from_cons _ p ps).1 hc
    have hT := loop_total_nonneg ps _ c3
    rw [loop_total_cons] at hv hl
    have hmax2 : (m.mloop.length : Int) ≤ 2147483647 := hmax
    have hget : m.mpoly[pre.length]? = some p := by
      rw [hm, List.getElem?_append_right (Nat.le_refl _)]; simp
    have hplt : pre.length < st.face_data.length := by
      rw [hf, hm]; simp
    obtain ⟨t, ht⟩ : ∃ t : Nat, p.totloop = (t : Int) := ⟨p.totloop.toNat, by omega⟩
    have hrd : read_at (st.face_data.set pre.length p.totloop) (pre.length : Int) =
        some p.totloop := by
      rw [read_at_nat]; simp [hplt]
    have hend : int_add (cv : Int) p.totloop = some ((cv : Int) + p.totloop) := by
      apply int_add_ok
      · show (-2147483648 : Int) ≤ _
        omega
      · show _ ≤ (2147483647 : Int)
        omega
    have hfuel : ((cv : Int) + p.totloop - (cv : Int)).toNat = t := by
      rw [ht]; simp
    obtain ⟨st1, k1, k2, k3, k4, k5, k6⟩ := fill_vertices_spec m hmax t cv
      { st with face_data := st.face_data.set pre.length p.totloop } h1
      (by simp only; omega) (by omega)
    have hcv : ((cv + t : Nat) : Int) = (cv : Int) + p.totloop := by rw [ht]; simp
    obtain ⟨st2, r1, r2, r3, r4, r5, r6, r7⟩ := ih (pre ++ [p]) (cv + t) st1 (by simp [hm]) k2
      (by rw [hcv]; exact c3) (by rw [k3]; simpa using hf) (by rw [k4, hcv]; simp only; omega)
      (by rw [hcv]; omega)
    have hTn : (loop_total (p :: ps)).toNat = t + (loop_total ps).toNat := by
      rw [loop_total_cons, ht]; omega
    refine ⟨st2, ?_, ?_, ?_, ?_, ?_, ?_, ?_⟩
    · simp only [List.length_append, List.length_singleton] at r1
      rw [← c1] at k1
      simp only [List.length_cons, before_mesh_get_fill_faces, hget, Option.bind_eq_bind,
        Option.some_bind, write_at_nat _ _ _ hplt, hrd, h1, hend, hfuel]
      rw [h1] at k1
      rw [k1]
      exact r1
    · rw [r2, hcv, loop_total_cons]; omega
    · rw [r3, k3]; simp
    · simp only [List.length_append, List.length_singleton] at r4
      have e1 : pre.length + (p :: ps).length = pre.length + 1 + ps.length := by
        simp; omega
      rw [e1, r4, k3]
      simp only [list_take_set_succ _ _ _ hplt, List.map_cons, List.append_assoc,
        List.singleton_append]
    · rw [r5, k4]
    · have e1 : cv + (loop_total (p :: ps)).toNat = cv + t + (loop_total ps).toNat := by omega
      rw [e1, r6, k5, hTn]
      simp only [List.append_assoc, List.take_add, List.drop_drop, List.map_append]
    · rw [r7, k6, hTn, List.append_assoc]
      congr 1
      rw [← List.map_append]
      congr 1
      rw [List.range'_append_1, Nat.add_comm]

theorem Mesh.well_formed_iff (m : Mesh) :
    m.well_formed = true ↔
      (m.mpoly.length : Int) = m.totpoly ∧ (m.mloop.length : Int) = m.totloop ∧
      m.totloop ≤ INT_MAX ∧ ∀ p ∈ m.mpoly, p.loopstart + p.totloop ≤ m.totloop := by
  simp [Mesh.well_formed, and_assoc]

theorem contiguous_from_nonneg (ps : List MPoly) : ∀ (s : Int), contiguous_from s ps = true →
    0 ≤ s → ∀ p ∈ ps, 0 ≤ p.loopstart ∧ 0 ≤ p.totloop := by
  induction ps with
  | nil => intro s _ _ p hp; cases hp
  | cons q ps ih =>
    intro s h hs p hp
    obtain ⟨h1, h2, h3⟩ := (contiguous_from_cons s q ps).1 h
    rcases List.mem_cons.1 hp with hp | hp
    · subst hp; exact ⟨by omega, h2⟩
    · exact ih _ h3 (by omega) p hp

/-- The conversion loops of `before_mesh_get` on a well-formed mesh whose
polygons are contiguous from loop 0. -/
theorem before_mesh_get_spec (m : Mesh) (hw : m.well_formed = true)
    (hc : contiguous_from 0 m.mpoly = true) :
    before_mesh_get_counts m = some (m.totvert, loop_total m.mpoly, m.totpoly) ∧
    loop_total m.mpoly = m.mpoly.foldl (fun a p => max a (p.loopstart + p.totloop)) 0 ∧
    0 ≤ loop_total m.mpoly ∧ loop_total m.mpoly ≤ m.mloop.length ∧
    ∀ vertex_data face_data : List Int, (vertex_data.length : Int) = loop_total m.mpoly →
      face_data.length = m.mpoly.length →
      ∃ st, before_mesh_get_fill m m.totpoly vertex_data face_data = some st ∧
        st.current_vertex = loop_total m.mpoly ∧
        st.face_data = m.mpoly.map (fun p => p.totloop) ∧
        st.vertex_data =
          (m.mloop.take (loop_total m.mpoly).toNat).map (fun x => int_of_unsigned x.v) ∧
        st.accesses =
          (List.range (loop_total m.mpoly).toNat).map (fun (j : Nat) => ((j : Int), (j : Int))) := by
  obtain ⟨w1, w2, w3, w4⟩ := (m.well_formed_iff).1 hw
  have hT := loop_total_nonneg _ _ hc
  have hmax : (m.mloop.length : Int) ≤ INT_MAX := by rw [w2]; exact w3
  have hle : (0 : Int) + loop_total m.mpoly ≤ m.totloop :=
    loop_total_le m.mpoly 0 m.totloop hc (by rw [← w2]; omega) w4
  have hn : m.totpoly.toNat = m.mpoly.length := by omega
  have hfold := foldl_max_contiguous m.mpoly 0 hc
  refine ⟨?_, by rw [hfold]; omega, hT, by omega, ?_⟩
  · have hb : ∀ p ∈ m.mpoly, INT_MIN ≤ p.loopstart + p.totloop ∧
        p.loopstart + p.totloop ≤ INT_MAX := by
      intro p hp
      obtain ⟨n1, n2⟩ := contiguous_from_nonneg _ _ hc (Int.le_refl _) p hp
      have := w4 p hp
      have w3b : m.totloop ≤ 2147483647 := w3
      constructor
      · show (-2147483648 : Int) ≤ _
        omega
      · show _ ≤ (2147483647 : Int)
        omega
    have h := vertex_count_loop_spec m m.mpoly [] 0 (by simp) hb
    simp only [List.length_nil] at h
    simp only [before_mesh_get_counts, hn, h, Option.bind_eq_bind, Option.some_bind, hfold]
    simp
  · intro vertex_data face_data hv hf
    obtain ⟨st, k1, k2, k3, k4, k5, k6, k7⟩ := fill_faces_spec m hmax m.mpoly [] 0
      { current_vertex := 0, vertex_data := vertex_data, face_data := face_data, accesses := [] }
      (by simp) rfl hc hf (by simp only; omega) (by omega)
    simp only [List.length_nil, Nat.zero_add, List.take_zero, List.nil_append, List.drop_zero,
      Nat.cast_zero, Int.zero_add] at k1 k2 k4 k6 k7
    have hvl : st.vertex_data.length = (loop_total m.mpoly).toNat := by
      rw [k5]; simp only; omega
    have hfl : st.face_data.length = m.mpoly.length := by rw [k3]; exact hf
    refine ⟨st, ?_, k2, ?_, ?_, ?_⟩
    · simp only [before_mesh_get_fill, hn]
      exact k1
    · rw [← k4, ← hfl, List.take_length]
    · rw [← k6, ← hvl, List.take_length]
    · rw [k7, List.range_eq_range']

/-- The count loop over the first polygons of the array computes the running
maximum of `loopstart + totloop`. -/
theorem vertex_count_loop_take (m : Mesh) (ps : List MPoly) :
    ∀ (pre post : List MPoly) (vc : Int), m.mpoly = pre ++ (ps ++ post) →
      (∀ p ∈ ps, INT_MIN ≤ p.loopstart + p.totloop ∧ p.loopstart + p.totloop ≤ INT_MAX) →
      before_mesh_get_vertex_count_loop m ps.length pre.length vc =
        some (ps.foldl (fun a p => max a (p.loopstart + p.totloop)) vc) := by
  induction ps with
  | nil => intro pre post vc _ _; rfl
  | cons p ps ih =>
    intro pre post vc hm hb
    have hget : m.mpoly[pre.length]? = some p := by
      rw [hm, List.getElem?_append_right (Nat.le_refl _)]; simp
    obtain ⟨b1, b2⟩ := hb p (List.mem_cons_self _ _)
    have h2 := ih (pre ++ [p]) post (max vc (p.loopstart + p.totloop)) (by simp [hm])
      (fun q hq => hb q (List.mem_cons_of_mem _ hq))
    simp only [List.length_append, List.length_singleton] at h2
    simp only [List.length_cons, before_mesh_get_vertex_count_loop, hget, Option.bind_eq_bind,
      Option.some_bind, int_add_ok _ _ b1 b2, h2, List.foldl_cons]

/-- The running maximum is at least its start value and every
`loopstart + totloop`, and it is the start value or one of them. -/
theorem foldl_max_spec (ps : List MPoly) : ∀ (a : Int),
    a ≤ ps.foldl (fun a p => max a (p.loopstart + p.totloop)) a ∧
    (∀ p ∈ ps, p.loopstart + p.totloop ≤
      ps.foldl (fun a p => max a (p.loopstart + p.totloop)) a) ∧
    (ps.foldl (fun a p => max a (p.loopstart + p.totloop)) a = a ∨
      ∃ p ∈ ps, ps.foldl (fun a p => max a (p.loopstart + p.totloop)) a =
        p.loopstart + p.totloop) := by
  induction ps with
  | nil => intro a; exact ⟨Int.le_refl _, fun p hp => absurd hp (List.not_mem_nil p), Or.inl rfl⟩
  | cons q ps ih =>
    intro a
    obtain ⟨h1, h2, h3⟩ := ih (max a (q.loopstart + q.totloop))
    have hm1 : a ≤ max a (q.loopstart + q.totloop) := by
      unfold max; split_ifs <;> omega
    have hm2 : q.loopstart + q.totloop ≤ max a (q.loopstart + q.totloop) := by
      unfold max; split_ifs <;> omega
    have hm3 : max a (q.loopstart + q.totloop) = a ∨
        max a (q.loopstart + q.totloop) = q.loopstart + q.totloop := by
      unfold max; split_ifs
      · exact Or.inl rfl
      · exact Or.inr rfl
    rw [List.foldl_cons]
    refine ⟨Int.le_trans hm1 h1, ?_, ?_⟩
    · intro p hp
      rcases List.mem_cons.1 hp with hp | hp
      · subst hp; exact Int.le_trans hm2 h1
      · exact h2 p hp
    · rcases h3 with h3 | ⟨p, hp, h3⟩
      · rcases hm3 with hm3 | hm3
        · exact Or.inl (h3.trans hm3)
        · exact Or.inr ⟨q, List.mem_cons_self _ _, h3.trans hm3⟩
      · exact Or.inr ⟨p, List.mem_cons_of_mem _ hp, h3⟩

/-- C22, in two parts.  First, for every mesh whose polygon array holds the
`totpoly` polygons that the count loop reads and in which no
`loopstart + totloop` overflows, the count computation of `before_mesh_get`
returns and `vertex_count` is the maximum of 0 and the `loopstart + totloop`
of these polygons: it is at least 0 and at least each of them, and it is 0 or
one of them (0 when there is no polygon).  Second, for every well-formed mesh
whose polygons are contiguous from loop 0, `vertex_count` is the total number
of loops of the polygons, and on buffers of `vertex_count` and `face_count`
entries the fill loop returns: it makes exactly `vertex_count` writes, at the
indices 0, 1, ..., `vertex_count - 1` in this order, so every write index is
below `vertex_count`, and each write reads the loop whose index is the write
index; afterwards entry `j` of the vertex buffer holds the point index `v` of
loop `j`, converted to `int`, for every `j` below `vertex_count`, and the
face buffer holds the `totloop` of the polygons. -/
theorem before_mesh_get_contiguous (m : Mesh) :
    (m.totpoly.toNat ≤ m.mpoly.length →
      (∀ p ∈ m.mpoly.take m.totpoly.toNat,
        INT_MIN ≤ p.loopstart + p.totloop ∧ p.loopstart + p.totloop ≤ INT_MAX) →
      ∃ vertex_count : Int,
        before_mesh_get_counts m = some (m.totvert, vertex_count, m.totpoly) ∧
        vertex_count = (m.mpoly.take m.totpoly.toNat).foldl
          (fun a p => max a (p.loopstart + p.totloop)) 0 ∧
        0 ≤ vertex_count ∧
        (∀ p ∈ m.mpoly.take m.totpoly.toNat, p.loopstart + p.totloop ≤ vertex_count) ∧
        (vertex_count = 0 ∨
          ∃ p ∈ m.mpoly.take m.totpoly.toNat, vertex_count = p.loopstart + p.totloop) ∧
        (m.totpoly ≤ 0 → vertex_count = 0)) ∧
    (m.well_formed = true → contiguous_from 0 m.mpoly = true →
      ∃ vertex_count : Int,
        before_mesh_get_counts m = some (m.totvert, vertex_count, m.totpoly) ∧
        vertex_count = m.mpoly.foldl (fun a p => max a (p.loopstart + p.totloop)) 0 ∧
        vertex_count = loop_total m.mpoly ∧ 0 ≤ vertex_count ∧
        ∀ vertex_data face_data : List Int, (vertex_data.length : Int) = vertex_count →
          (face_data.length : Int) = m.totpoly →
          ∃ st, before_mesh_get_fill m m.totpoly vertex_data face_data = some st ∧
            (st.accesses.length : Int) = vertex_count ∧
            (∀ a ∈ st.accesses, 0 ≤ a.1 ∧ a.1 < vertex_count ∧ a.2 = a.1) ∧
            st.accesses =
              (List.range vertex_count.toNat).map (fun (j : Nat) => ((j : Int), (j : Int))) ∧
            st.accesses.map (fun a => a.1) =
              (List.range vertex_count.toNat).map (fun (j : Nat) => (j : Int)) ∧
            st.current_vertex = vertex_count ∧
            st.vertex_data.length = vertex_data.length ∧
            st.vertex_data =
              (m.mloop.take vertex_count.toNat).map (fun x => int_of_unsigned x.v) ∧
            (∀ j : Nat, (j : Int) < vertex_count →
              ∃ x, m.mloop[j]? = some x ∧ st.vertex_data[j]? = some (int_of_unsigned x.v) ∧
                ((x.v : Int) ≤ INT_MAX → st.vertex_data[j]? = some (x.v : Int))) ∧
            st.face_data = m.mpoly.map (fun p => p.totloop)) := by
  constructor
  · intro hlen hb
    have hm : m.mpoly = [] ++ (m.mpoly.take m.totpoly.toNat ++ m.mpoly.drop m.totpoly.toNat) := by
      simp
    have h := vertex_count_loop_take m (m.mpoly.take m.totpoly.toNat) []
      (m.mpoly.drop m.totpoly.toNat) 0 hm hb
    rw [List.length_take, Nat.min_eq_left hlen, List.length_nil] at h
    obtain ⟨f1, f2, f3⟩ := foldl_max_spec (m.mpoly.take m.totpoly.toNat) 0
    refine ⟨_, ?_, rfl, f1, f2, f3, ?_⟩
    · simp only [before_mesh_get_counts, h, Option.bind_eq_bind, Option.some_bind]
    · intro h0
      rw [Int.toNat_eq_zero.2 h0, List.take_zero]
      rfl
  · intro hw hc
    obtain ⟨h1, h2, h3, h4, h5⟩ := before_mesh_get_spec m hw hc
    obtain ⟨w1, -, -, -⟩ := (m.well_formed_iff).1 hw
    refine ⟨loop_total m.mpoly, h1, h2, rfl, h3, ?_⟩
    intro vertex_data face_data hv hf
    obtain ⟨st, k1, k2, k3, k4, k5⟩ := h5 vertex_data face_data hv (by omega)
    refine ⟨st, k1, ?_, ?_, k5, ?_, k2, ?_, k4, ?_, k3⟩
    · rw [k5]; simp only [List.length_map, List.length_range]; omega
    · intro a ha
      rw [k5] at ha
      obtain ⟨j, hj, rfl⟩ := List.mem_map.1 ha
      have := List.mem_range.1 hj
      refine ⟨by simp, ?_, rfl⟩
      simp only
      omega
    · rw [k5, List.map_map]
      rfl
    · rw [k4]
      simp only [List.length_map, List.length_take]
      omega
    · intro j hj
      have hjl : j < m.mloop.length := by omega
      have hjt : j < (loop_total m.mpoly).toNat := by omega
      have hval : st.vertex_data[j]? = some (int_of_unsigned m.mloop[j].v) := by
        rw [k4, List.getElem?_map, List.getElem?_take_of_lt hjt, List.getElem?_eq_getElem hjl]
        rfl
      refine ⟨m.mloop[j], List.getElem?_eq_getElem hjl, hval, ?_⟩
      intro hx
      rw [hval, int_of_unsigned, if_pos hx]

theorem before_mesh_get_contiguous_witness :
    sampleMesh.totpoly.toNat ≤ sampleMesh.mpoly.length ∧
    (∀ p ∈ sampleMesh.mpoly.take sampleMesh.totpoly.toNat,
      INT_MIN ≤ p.loopstart + p.totloop ∧ p.loopstart + p.totloop ≤ INT_MAX) ∧
    sampleMesh.well_formed = true ∧ contiguous_from 0 sampleMesh.mpoly = true ∧
    (∃ vertex_count : Int,
      before_mesh_get_counts sampleMesh = some (5, vertex_count, 2) ∧
      vertex_count = 7) ∧
    ∃ vertex_count : Int,
      before_mesh_get_counts sampleMesh = some (5, vertex_count, 2) ∧
      ∀ vertex_data face_data : List Int, (vertex_data.length : Int) = vertex_count →
        (face_data.length : Int) = 2 →
        ∃ st, before_mesh_get_fill sampleMesh 2 vertex_data face_data = some st ∧
          (st.accesses.length : Int) = vertex_count ∧
          st.vertex_data = [0, 1, 2, 2, 1, 3, 4] ∧ st.face_data = [3, 4] :=
  ⟨by decide, by decide, by decide, by decide,
    let ⟨vc, h1, h2, _⟩ := (before_mesh_get_contiguous sampleMesh).1 (by decide) (by decide)
    ⟨vc, h1, h2.trans (by decide)⟩,
    let ⟨vc, h1, _, h3, _, h5⟩ :=
      (before_mesh_get_contiguous sampleMesh).2 (by decide) (by decide)
    ⟨vc, h1, fun vd fd hv hf =>
      let ⟨st, k1, k2, _, _, _, _, _, k8, _, k10⟩ := h5 vd fd hv hf
      ⟨st, k1, k2, by
        rw [k8, h3]
        decide, k10⟩⟩⟩

/-! ### The round trip through `before_mesh_release` -/

theorem int_of_unsigned_of_int (x : Int) (h1 : INT_MIN ≤ x) (h2 : x ≤ INT_MAX) :
    int_of_unsigned (unsigned_of_int x) = x := by
  have h1b : (-2147483648 : Int) ≤ x := h1
  have h2b : x ≤ (2147483647 : Int) := h2
  unfold int_of_unsigned unsigned_of_int
  have hnn : (0 : Int) ≤ x % 4294967296 := Int.emod_nonneg _ (by decide)
  rw [Int.toNat_of_nonneg hnn]
  show (if x % 4294967296 ≤ (2147483647 : Int) then x % 4294967296
    else x % 4294967296 - 4294967296) = x
  split_ifs with h <;> omega

/-- The vertex loop of `before_mesh_release`. -/
theorem release_vertices_spec (vertex_data : List Int) :
    ∀ (n i : Nat) (mloop : List MLoop), i + n ≤ mloop.length → i + n ≤ vertex_data.length →
      ∃ ml, before_mesh_release_vertices vertex_data n i mloop = some ml ∧
        ml.length = mloop.length ∧
        ml.take (i + n) = mloop.take i ++
          ((vertex_data.drop i).take n).map (fun x => ({ v := unsigned_of_int x } : MLoop)) := by
  intro n
  induction n with
  | zero => intro i mloop _ _; exact ⟨mloop, rfl, rfl, by simp⟩
  | succ n ih =>
    intro i mloop h1 h2
    have hi1 : i < mloop.length := by omega
    have hi2 : i < vertex_data.length := by omega
    obtain ⟨ml, k1, k2, k3⟩ := ih (i + 1)
      (mloop.set i { mloop[i] with v := unsigned_of_int vertex_data[i] })
      (by simp; omega) (by omega)
    refine ⟨ml, ?_, by rw [k2]; simp, ?_⟩
    · simp only [before_mesh_release_vertices, List.getElem?_eq_getElem hi1,
        List.getElem?_eq_getElem hi2, Option.bind_eq_bind, Option.some_bind]
      exact k1
    · have e1 : i + (n + 1) = i + 1 + n := by omega
      rw [e1, k3, list_take_set_succ _ _ _ hi1, List.drop_eq_getElem_cons hi2,
        List.take_succ_cons, List.map_cons]
      simp

/-- The face loop of `before_mesh_release`. -/
theorem release_faces_spec (face_data : List Int) (cs : List Int) :
    ∀ (pre : List Int) (current_loop : Int) (mpoly : List MPoly), face_data = pre ++ cs →
      mpoly.length = face_data.length → (∀ x ∈ cs, 0 ≤ x) → 0 ≤ current_loop →
      current_loop + cs.sum ≤ INT_MAX →
      ∃ mp, before_mesh_release_faces face_data cs.length pre.length current_loop mpoly =
          some mp ∧
        mp.length = mpoly.length ∧
        mp.take (pre.length + cs.length) = mpoly.take pre.length ++ face_layout current_loop cs := by
  induction cs with
  | nil => intro pre cl mpoly _ _ _ _ _; exact ⟨mpoly, rfl, rfl, by simp [face_layout]⟩
  | cons c cs ih =>
    intro pre cl mpoly hf hl hc h0 hmax
    have hget : face_data[pre.length]? = some c := by
      rw [hf, List.getElem?_append_right (Nat.le_refl _)]; simp
    have hi : pre.length < mpoly.length := by rw [hl, hf]; simp
    have hc0 := hc c (List.mem_cons_self _ _)
    have hs : 0 ≤ cs.sum := List.sum_nonneg (fun x hx => hc x (List.mem_cons_of_mem _ hx))
    rw [List.sum_cons] at hmax
    have hmax2 : cl + (c + cs.sum) ≤ 2147483647 := hmax
    have hadd : int_add cl c = some (cl + c) := by
      apply int_add_ok
      · show (-2147483648 : Int) ≤ _
        omega
      · show _ ≤ (2147483647 : Int)
        omega
    obtain ⟨mp, k1, k2, k3⟩ := ih (pre ++ [c]) (cl + c)
      (mpoly.set pre.length { mpoly[pre.length] with loopstart := cl, totloop := c })
      (by simp [hf]) (by simpa using hl) (fun x hx => hc x (List.mem_cons_of_mem _ hx))
      (by omega) (by show _ ≤ (2147483647 : Int); omega)
    simp only [List.length_append, List.length_singleton] at k1 k3
    refine ⟨mp, ?_, by rw [k2]; simp, ?_⟩
    · simp only [List.length_cons, before_mesh_release_faces, hget,
        List.getElem?_eq_getElem hi, Option.bind_eq_bind, Option.some_bind, hadd]
      exact k1
    · have e1 : pre.length + (c :: cs).length = pre.length + 1 + cs.length := by
        simp; omega
      rw [e1, k3, list_take_set_succ _ _ _ hi]
      simp [face_layout]

theorem face_layout_length (cs : List Int) : ∀ (s : Int), (face_layout s cs).length = cs.length := by
  induction cs with
  | nil => intro s; rfl
  | cons c cs ih => intro s; simp [face_layout, ih]

theorem face_layout_totloop (cs : List Int) :
    ∀ (s : Int), (face_layout s cs).map (fun p => p.totloop) = cs := by
  induction cs with
  | nil => intro s; rfl
  | cons c cs ih => intro s; simp [face_layout, ih]

theorem face_layout_total (cs : List Int) (s : Int) : loop_total (face_layout s cs) = cs.sum := by
  unfold loop_total
  rw [face_layout_totloop]

theorem face_layout_contiguous (cs : List Int) :
    ∀ (s : Int), (∀ x ∈ cs, 0 ≤ x) → contiguous_from s (face_layout s cs) = true := by
  induction cs with
  | nil => intro s _; rfl
  | cons c cs ih =>
    intro s h
    rw [face_layout, contiguous_from_cons]
    exact ⟨rfl, h c (List.mem_cons_self _ _), ih _ (fun x hx => h x (List.mem_cons_of_mem _ hx))⟩

/-- Polygon `i` of the layout has `totloop` `c[i]` and starts at
`start + c[0] + ... + c[i-1]`. -/
theorem face_layout_getElem (cs : List Int) :
    ∀ (s : Int) (i : Nat) (p : MPoly), (face_layout s cs)[i]? = some p →
      cs[i]? = some p.totloop ∧ p.loopstart = s + (cs.take i).sum := by
  induction cs with
  | nil => intro s i p h; simp [face_layout] at h
  | cons c cs ih =>
    intro s i p h
    cases i with
    | zero =>
      simp only [face_layout, List.getElem?_cons_zero, Option.some.injEq] at h
      subst h
      simp
    | succ j =>
      simp only [face_layout, List.getElem?_cons_succ] at h
      obtain ⟨h1, h2⟩ := ih _ j p h
      refine ⟨by simpa using h1, ?_⟩
      rw [h2]
      simp only [List.take_succ_cons, List.sum_cons]
      omega

theorem face_layout_end_le (cs : List Int) :
    ∀ (s : Int), (∀ x ∈ cs, 0 ≤ x) → ∀ p ∈ face_layout s cs,
      p.loopstart + p.totloop ≤ s + cs.sum := by
  induction cs with
  | nil => intro s _ p hp; simp [face_layout] at hp
  | cons c cs ih =>
    intro s h p hp
    have hc0 := h c (List.mem_cons_self _ _)
    have hs : 0 ≤ cs.sum := List.sum_nonneg (fun x hx => h x (List.mem_cons_of_mem _ hx))
    rw [face_layout] at hp
    rw [List.sum_cons]
    rcases List.mem_cons.1 hp with hp | hp
    · subst hp
      simp only
      omega
    · have := ih (s + c) (fun x hx => h x (List.mem_cons_of_mem _ hx)) p hp
      omega

/-- C23: round trip of the face and loop layout between the two mesh hooks.
For face counts `cs`, none negative, and `sum(cs)` vertex-to-point indices
`v` (all of them `int`s, `sum(cs)` at most `INT_MAX`), on a mesh allocated
with `sum(cs)` loops and `length(cs)` polygons: the loops of
`before_mesh_release` return; polygon `i` gets `totloop = cs[i]` and
`loopstart = cs[0] + ... + cs[i-1]`, loop `j` gets `v[j]`; this layout is
contiguous from loop 0; and the conversion of `before_mesh_get` on it gives
`face_count = length(cs)`, `vertex_count = sum(cs)`, and, on buffers of these
sizes, face counts equal to `cs` and vertex-to-point indices equal to `v`. -/
theorem mesh_layout_round_trip (cs v : List Int) (blender_mesh : Mesh)
    (hcs : ∀ x ∈ cs, 0 ≤ x) (hv : ∀ x ∈ v, INT_MIN ≤ x ∧ x ≤ INT_MAX)
    (hlen : (v.length : Int) = cs.sum) (hmax : cs.sum ≤ INT_MAX)
    (hloops : blender_mesh.mloop.length = v.length)
    (hpolys : blender_mesh.mpoly.length = cs.length)
    (htotloop : blender_mesh.totloop = cs.sum)
    (htotpoly : blender_mesh.totpoly = (cs.length : Int)) :
    ∃ m1, before_mesh_release_layout cs.sum (cs.length : Int) v cs blender_mesh = some m1 ∧
      m1.mpoly = face_layout 0 cs ∧
      (∀ (i : Nat) (p : MPoly), m1.mpoly[i]? = some p →
        cs[i]? = some p.totloop ∧ p.loopstart = (cs.take i).sum) ∧
      m1.mloop = v.map (fun x => ({ v := unsigned_of_int x } : MLoop)) ∧
      contiguous_from 0 m1.mpoly = true ∧
      before_mesh_get_counts m1 = some (blender_mesh.totvert, cs.sum, (cs.length : Int)) ∧
      ∀ vertex_data face_data : List Int, vertex_data.length = v.length →
        face_data.length = cs.length →
        ∃ st, before_mesh_get_fill m1 (cs.length : Int) vertex_data face_data = some st ∧
          st.face_data = cs ∧ st.vertex_data = v := by
  have hvn : cs.sum.toNat = v.length := by omega
  -- the vertex loop
  obtain ⟨ml, a1, a2, a3⟩ := release_vertices_spec v v.length 0 blender_mesh.mloop
    (by omega) (by omega)
  have hml : ml = v.map (fun x => ({ v := unsigned_of_int x } : MLoop)) := by
    have e : ml.take (0 + v.length) = ml := by
      rw [Nat.zero_add, ← hloops, ← a2, List.take_length]
    rw [← e, a3]
    simp
  -- the face loop
  obtain ⟨mp, b1, b2, b3⟩ := release_faces_spec cs cs [] 0 blender_mesh.mpoly (by simp)
    hpolys hcs (Int.le_refl _) (by omega)
  have hmp : mp = face_layout 0 cs := by
    have e : mp.take (([] : List Int).length + cs.length) = mp := by
      rw [List.length_nil, Nat.zero_add, ← hpolys, ← b2, List.take_length]
    rw [← e, b3]
    simp
  simp only [List.length_nil] at b1
  subst hml hmp
  let m1 : Mesh :=
    { blender_mesh with mloop := v.map (fun x => ({ v := unsigned_of_int x } : MLoop)),
                        mpoly := face_layout 0 cs }
  have hrel : before_mesh_release_layout cs.sum (cs.length : Int) v cs blender_mesh = some m1 := by
    simp only [before_mesh_release_layout, hvn, a1, Int.toNat_ofNat, b1, Option.bind_eq_bind,
      Option.some_bind]
  have hcont : contiguous_from 0 m1.mpoly = true := face_layout_contiguous cs 0 hcs
  have hwf : m1.well_formed = true := by
    rw [Mesh.well_formed_iff]
    refine ⟨?_, ?_, ?_, ?_⟩
    · show ((face_layout 0 cs).length : Int) = blender_mesh.totpoly
      rw [face_layout_length, htotpoly]
    · show (((v.map (fun x => ({ v := unsigned_of_int x } : MLoop))).length : Nat) : Int) =
        blender_mesh.totloop
      rw [List.length_map, htotloop, hlen]
    · show blender_mesh.totloop ≤ INT_MAX
      rw [htotloop]; exact hmax
    · intro p hp
      have := face_layout_end_le cs 0 hcs p hp
      show _ ≤ blender_mesh.totloop
      rw [htotloop]
      omega
  obtain ⟨g1, -, -, -, g5⟩ := before_mesh_get_spec m1 hwf hcont
  have htot : loop_total m1.mpoly = cs.sum := face_layout_total cs 0
  refine ⟨m1, hrel, rfl, ?_, rfl, hcont, ?_, ?_⟩
  · intro i p hp
    obtain ⟨h1, h2⟩ := face_layout_getElem cs 0 i p hp
    exact ⟨h1, by rw [h2]; omega⟩
  · rw [g1, htot]
    show some (blender_mesh.totvert, cs.sum, blender_mesh.totpoly) = _
    rw [htotpoly]
  · intro vertex_data face_data hvd hfd
    obtain ⟨st, k1, -, k3, k4, -⟩ := g5 vertex_data face_data (by rw [htot, hvd]; exact hlen)
      (by rw [hfd]; exact (face_layout_length cs 0).symm)
    refine ⟨st, ?_, ?_, ?_⟩
    · have : m1.totpoly = (cs.length : Int) := htotpoly
      rw [← this]; exact k1
    · rw [k3]; exact face_layout_totloop cs 0
    · rw [k4, htot, hvn]
      show ((v.map (fun x => ({ v := unsigned_of_int x } : MLoop))).take v.length).map
        (fun x => int_of_unsigned x.v) = v
      rw [List.take_of_length_le (by simp), List.map_map]
      conv_rhs => rw [← List.map_id v]
      apply List.map_congr_left
      intro x hx
      obtain ⟨x1, x2⟩ := hv x hx
      simp [int_of_unsigned_of_int x x1 x2]

theorem mesh_layout_round_trip_witness :
    (∀ x ∈ [(3 : Int), 4], 0 ≤ x) ∧
    (∀ x ∈ [(0 : Int), 1, 2, 2, 1, 3, 4], INT_MIN ≤ x ∧ x ≤ INT_MAX) ∧
    ∃ m1, before_mesh_release_layout 7 2 [0, 1, 2, 2, 1, 3, 4] [3, 4] blankMesh = some m1 ∧
      m1.mpoly = [{ loopstart := 0, totloop := 3 }, { loopstart := 3, totloop := 4 }] ∧
      ∀ vertex_data face_data : List Int, vertex_data.length = 7 → face_data.length = 2 →
        ∃ st, before_mesh_get_fill m1 2 vertex_data face_data = some st ∧
          st.face_data = [3, 4] ∧ st.vertex_data = [0, 1, 2, 2, 1, 3, 4] :=
  ⟨by decide, by decide,
    let ⟨m1, h1, h2, _, _, _, _, h7⟩ :=
      mesh_layout_round_trip [3, 4] [0, 1, 2, 2, 1, 3, 4] blankMesh (by decide) (by decide)
        (by decide) (by decide) (by decide) (by decide) (by decide) (by decide)
    ⟨m1, h1, h2, h7⟩⟩

end OpenMeshEffect
